import Mathlib

/-!
# KubeComp: resource pool registry, node adapter listing and scheduler plugin

A shallow embedding of

* `02resource-pool/resource-pool.go` (the Registry: `getResources`, `attachResource`,
  `detachResource`, `parseResourceConfig`),
* `03disag-device-plugin/pkg/inter/interface.go` (`FalconInterface.GetResource`),
* `03disag-device-plugin/pkg/server/server.go` (`listDevice`, `ListAndWatch`),
* `04kubecomp-sched/pkg/falconresources/falcon_resources.go` (`PreFilter`, `Score`,
  `NormalizeScore`, `getGpuDemand`, `Permit`),
* `05reconfig-mgr/cmd/app/main.go` and `pkg/inter/interface.go` (`updateDevice`,
  `reconfig`, `waitReadyToReconfig`, the Registry interface),

followed by the properties established about them.  Global variables of the Go code
are passed explicitly; Go `int64` values are integers with explicit wrap-around; Go
strings are Unicode texts (valid UTF-8).
-/

namespace KubeComp

/-! ## Registry: data model (`resource-pool.go`) -/

/-- The `Device` struct of `resource-pool.go`. -/
structure Device where
  DevID : String
  UUID : String
  HostPort : String
deriving DecidableEq, Repr

/-- Value of `http.StatusNoContent`. -/
def StatusNoContent : Nat := 204

/-- Value of `http.StatusBadRequest`. -/
def StatusBadRequest : Nat := 400

/-- Value of `http.StatusNotFound`. -/
def StatusNotFound : Nat := 404

/-- Handler `getResources`: the response body is the JSON encoding of the whole
`deviceLookUpTable`, in table order (the encoding itself is not modelled). -/
def getResources (deviceLookUpTable : List Device) : List Device :=
  deviceLookUpTable

/-- The `for index, dev := range deviceLookUpTable` loop of `attachResource` together
with the `found` test after it: the status written and the table left behind.  The
loop stops at the first entry whose `DevID` equals the requested one. -/
def attachLoop (device : Device) : List Device → Nat × List Device
  | [] => (StatusNotFound, [])
  | dev :: rest =>
    if dev.DevID = device.DevID then
      if dev.HostPort ≠ "" then (StatusBadRequest, dev :: rest)
      else if device.HostPort = "" then (StatusBadRequest, dev :: rest)
      else (StatusNoContent, { dev with HostPort := device.HostPort } :: rest)
    else
      ((attachLoop device rest).1, dev :: (attachLoop device rest).2)

/-- Handler `attachResource` (POST /allocation).  `body` is the decoded request
payload, `none` when `json.Decode` fails. -/
def attachResource (deviceLookUpTable : List Device) (body : Option Device) :
    Nat × List Device :=
  match body with
  | none => (StatusBadRequest, deviceLookUpTable)
  | some device => attachLoop device deviceLookUpTable

/-- The `for index, dev := range deviceLookUpTable` loop of `detachResource` together
with the `found` test after it. -/
def detachLoop (device : Device) : List Device → Nat × List Device
  | [] => (StatusNotFound, [])
  | dev :: rest =>
    if dev.DevID = device.DevID then
      (StatusNoContent, { dev with HostPort := "" } :: rest)
    else
      ((detachLoop device rest).1, dev :: (detachLoop device rest).2)

/-- Handler `detachResource` (DELETE /allocation).  `body` is the decoded request
payload, `none` when `json.Decode` fails. -/
def detachResource (deviceLookUpTable : List Device) (body : Option Device) :
    Nat × List Device :=
  match body with
  | none => (StatusBadRequest, deviceLookUpTable)
  | some device => detachLoop device deviceLookUpTable

/-- A mutating request routed by `startServer`: POST or DELETE on `/allocation`,
with its decoded body. -/
inductive Request where
  | post (body : Option Device)
  | delete (body : Option Device)
deriving DecidableEq, Repr

/-- Serve one request: status answered and table afterwards. -/
def serve (deviceLookUpTable : List Device) : Request → Nat × List Device
  | Request.post body => attachResource deviceLookUpTable body
  | Request.delete body => detachResource deviceLookUpTable body

/-- Serve a sequence of requests one after the other (the handlers are the only
writers of the table); the table after the last one. -/
def serveAll (deviceLookUpTable : List Device) : List Request → List Device
  | [] => deviceLookUpTable
  | r :: rs => serveAll (serve deviceLookUpTable r).2 rs

/-- The entry the handlers act on for a `DevID`: the first entry of the table, in
table order, carrying that `DevID` (the only one when `DevID`s are distinct). -/
def entryFor (deviceLookUpTable : List Device) (devID : String) : Option Device :=
  deviceLookUpTable.find? (fun dev => decide (dev.DevID = devID))

/-- The table with the `HostPort` of the first entry carrying `devID` replaced by
`hostPort`, every other position untouched (used to state what the handlers leave
behind). -/
def rebind (devID hostPort : String) : List Device → List Device
  | [] => []
  | dev :: rest =>
    if dev.DevID = devID then { dev with HostPort := hostPort } :: rest
    else dev :: rebind devID hostPort rest

/-! ## Node adapter: listing by port (`03disag-device-plugin/pkg/inter/interface.go`) -/

/-- The `FalconInterface` struct of the node adapter. -/
structure FalconInterface where
  endpoint : String
  hostPort : String
deriving DecidableEq, Repr

/-- The `DevicePair` struct of the node adapter. -/
structure DevicePair where
  DevID : String
  GpuUUID : String
deriving DecidableEq, Repr

/-- The `for _, res := range result` loop of `GetResource`: keeps, in order, the
entries whose `hostport` equals the adapter's own port. -/
def selectLocal (hostPort : String) : List Device → List DevicePair
  | [] => []
  | res :: rest =>
    if res.HostPort = hostPort then
      { DevID := res.DevID, GpuUUID := res.UUID } :: selectLocal hostPort rest
    else selectLocal hostPort rest

/-- The method `FalconInterface.GetResource`.  `response` is the outcome of the HTTP
GET on the endpoint, reading the body and decoding its JSON: an error message, or
the decoded entries. -/
def GetResource (fi : FalconInterface) (response : Except String (List Device)) :
    Except String (List DevicePair) :=
  match response with
  | Except.error err => Except.error err
  | Except.ok result => Except.ok (selectLocal fi.hostPort result)

/-- What the adapter of port `hostPort` sees when it lists a Registry holding
`deviceLookUpTable` and the transport works. -/
def listByPort (hostPort : String) (deviceLookUpTable : List Device) :
    Except String (List DevicePair) :=
  GetResource { endpoint := "", hostPort := hostPort }
    (Except.ok (getResources deviceLookUpTable))

/-! ## Registry bootstrap (`parseResourceConfig` in `resource-pool.go`) -/

/-- The two package-level variables of `resource-pool.go`.  The map is kept as an
association list, the latest assignment of a key first. -/
structure Registry where
  deviceLookUpTable : List Device
  devIDToUUIDMap : List (String × String)
deriving DecidableEq, Repr

/-- The errors `parseResourceConfig` can return: `os.Open` failed, a line did not
split into two values, or the scanner stopped with `bufio.ErrTooLong`. -/
inductive ParseError where
  | openFailed
  | invalidFormat (lineNum : Nat) (line : String)
  | tokenTooLong
deriving DecidableEq, Repr

/-- Go's `unicode.IsSpace`: the code points with the White_Space property. -/
def isSpace (c : Char) : Bool :=
  (0x09 ≤ c.toNat && c.toNat ≤ 0x0D) || c.toNat == 0x20 || c.toNat == 0x85 ||
  c.toNat == 0xA0 || c.toNat == 0x1680 || (0x2000 ≤ c.toNat && c.toNat ≤ 0x200A) ||
  c.toNat == 0x2028 || c.toNat == 0x2029 || c.toNat == 0x202F || c.toNat == 0x205F ||
  c.toNat == 0x3000

/-- Go's `strings.TrimSpace`: leading and trailing white space removed. -/
def TrimSpace (s : String) : String :=
  String.mk ((s.data.dropWhile isSpace).rdropWhile isSpace)

/-- Cutting a character sequence at every occurrence of a separator character; n
separators give n + 1 pieces, empty pieces included. -/
def splitOn (sep : Char) : List Char → List (List Char)
  | [] => [[]]
  | c :: cs =>
    if c = sep then [] :: splitOn sep cs
    else
      match splitOn sep cs with
      | [] => [[c]]
      | part :: parts => (c :: part) :: parts

/-- Go's `strings.Split` for a one-character separator. -/
def Split (s : String) (sep : Char) : List String :=
  (splitOn sep s.data).map String.mk

/-- Value of `bufio.MaxScanTokenSize`, the buffer limit of a default `bufio.Scanner`. -/
def MaxScanTokenSize : Nat := 64 * 1024

/-- Number of bytes of the UTF-8 encoding of a character sequence. -/
def byteLen (data : List Char) : Nat :=
  (data.map Char.utf8Size).sum

/-- The text cut at each newline character; what follows the last newline is a line
only when it is not empty (`bufio.ScanLines`, before the carriage return is
dropped). -/
def rawLines : List Char → List (List Char)
  | [] => []
  | c :: cs =>
    if c = '\n' then [] :: rawLines cs
    else
      match rawLines cs with
      | [] => [[c]]
      | line :: lines => (c :: line) :: lines

/-- The helper `dropCR` of `bufio.ScanLines`: one trailing carriage return is
removed. -/
def dropCR (data : List Char) : List Char :=
  if data.getLast? = some '\r' then data.dropLast else data

/-- A default `bufio.Scanner` run to the end over the raw lines of a file: the tokens
handed out by the successive `Scan` calls, and `scanner.Err()` afterwards.  A line
that does not fit the buffer (`MaxScanTokenSize` bytes, its newline not counted)
stops the scan with `ErrTooLong`. -/
def scanLines : List (List Char) → List String × Option ParseError
  | [] => ([], none)
  | raw :: more =>
    if MaxScanTokenSize ≤ byteLen raw then ([], some ParseError.tokenTooLong)
    else (String.mk (dropCR raw) :: (scanLines more).1, (scanLines more).2)

/-- The `for scanner.Scan()` loop of `parseResourceConfig` over the scanned tokens.
`lineNum` is the counter before the token is read, `uuidNew n` the value
`uuid.New().String()` returns for line n. -/
def parseLoop (uuidNew : Nat → String) :
    Nat → List String → Registry → Option ParseError × Registry
  | _, [], reg => (none, reg)
  | lineNum, text :: more, reg =>
    if (Split (TrimSpace text) ',').length ≠ 2 then
      (some (ParseError.invalidFormat (lineNum + 1) (TrimSpace text)), reg)
    else
      parseLoop uuidNew (lineNum + 1) more
        { deviceLookUpTable := reg.deviceLookUpTable ++
            [{ DevID := (Split (TrimSpace text) ',').getD 0 "",
               UUID := uuidNew (lineNum + 1),
               HostPort := (Split (TrimSpace text) ',').getD 1 "" }],
          devIDToUUIDMap :=
            ((Split (TrimSpace text) ',').getD 0 "", uuidNew (lineNum + 1)) ::
              reg.devIDToUUIDMap }

/-- The function `parseResourceConfig`.  `file` is the content of the file at `path`,
`none` when `os.Open` fails; the result is the error returned (`none` for `nil`) and
the package-level variables as the call leaves them. -/
def parseResourceConfig (uuidNew : Nat → String) (file : Option String)
    (reg : Registry) : Option ParseError × Registry :=
  match file with
  | none => (some ParseError.openFailed, reg)
  | some text =>
    match parseLoop uuidNew 0 (scanLines (rawLines text.data)).1 reg with
    | (some err, reg') => (some err, reg')
    | (none, reg') => ((scanLines (rawLines text.data)).2, reg')

/-- The lines of a manifest text: the text cut at newlines, a carriage return before
the newline not being part of the line. -/
def manifestLines (text : String) : List String :=
  (rawLines text.data).map (fun raw => String.mk (dropCR raw))

/-- A line has the shape `DevID,HostPort`: once surrounding white space is removed it
is two comma-free fields joined by one comma (either field may be empty). -/
def HasShape (line : String) : Prop :=
  ∃ devID hostPort : String,
    ',' ∉ devID.data ∧ ',' ∉ hostPort.data ∧ TrimSpace line = devID ++ "," ++ hostPort

/-- A manifest of one line, `a,` followed by 65536 times the letter `p`. -/
def longManifest : String :=
  String.mk ('a' :: ',' :: List.replicate 65536 'p')

/-! ## Scheduler plugin (`04kubecomp-sched/pkg/falconresources/falcon_resources.go`) -/

/-- Value of `math.MaxInt64`. -/
def MaxInt64 : Int := 9223372036854775807

/-- Value of `math.MinInt64`. -/
def MinInt64 : Int := -9223372036854775808

/-- The `int64` that Go keeps of an exact integer result: two's complement
wrap-around modulo 2^64. -/
def wrap64 (x : Int) : Int :=
  (x + 9223372036854775808) % 18446744073709551616 - 9223372036854775808

/-- Go `int64` addition. -/
def add64 (a b : Int) : Int := wrap64 (a + b)

/-- Go `int64` subtraction. -/
def sub64 (a b : Int) : Int := wrap64 (a - b)

/-- Go `int64` multiplication. -/
def mul64 (a b : Int) : Int := wrap64 (a * b)

/-- Go `int64` division by a non-zero divisor: the quotient truncated toward zero
(a zero divisor panics and is handled where the division is used). -/
def quo64 (a b : Int) : Int := wrap64 (Int.tdiv a b)

/-- The status codes of the scheduler framework that the plugin returns. -/
inductive Code where
  | Success
  | Error
  | Unschedulable
deriving DecidableEq, Repr

/-- What the plugin reads of a `framework.NodeInfo`: the `falcon.com/gpu` entries of
`Allocatable.ScalarResources` and `Requested.ScalarResources` (both `int64`). -/
structure NodeInfo where
  Allocatable : Int
  Requested : Int
deriving DecidableEq, Repr

/-- The `for _, nodeinfo := range nodeinfos` loop of `PreFilter`, accumulating
`totalFalcon`. -/
def totalFalconLoop : List NodeInfo → Int → Int
  | [], totalFalcon => totalFalcon
  | nodeinfo :: rest, totalFalcon =>
    totalFalconLoop rest (add64 totalFalcon (sub64 nodeinfo.Allocatable nodeinfo.Requested))

/-- The method `PreFilter`.  `requiredFalcon` is the `falcon.com/gpu` request of
container 0 as `AsInt64` returns it, `nodeinfos` the snapshot list, and
`patchPodAnnotations` the outcome of the annotation patch (`none` for a `nil`
error).  The result is the code of the returned status. -/
def PreFilter (patchPodAnnotations : List (String × String) → Option String)
    (requiredFalcon : Int) (nodeinfos : List NodeInfo) : Code :=
  if totalFalconLoop nodeinfos 0 < requiredFalcon then Code.Unschedulable
  else
    match patchPodAnnotations
        [("use_falcon", if requiredFalcon = 0 then "false" else "true")] with
    | some _ => Code.Error
    | none => Code.Success

/-- The local variable `localFalcon` of `Score`: the node's free supply, allocatable
minus requested, as an `int64`. -/
def localFalcon (info : NodeInfo) : Int :=
  sub64 info.Allocatable info.Requested

/-- The method `Score`.  `nodeInfo` is the snapshot entry of the node, `none` when
the lookup fails; the result is the score and the status code (`Success` for a
`nil` status), or `none` when the integer division panics on a zero divisor. -/
def Score (nodeInfo : Option NodeInfo) (requiredFalcon : Int) : Option (Int × Code) :=
  match nodeInfo with
  | none => some (0, Code.Error)
  | some info =>
    if localFalcon info > requiredFalcon then
      if localFalcon info = 0 then none
      else some (quo64 (mul64 requiredFalcon 100) (localFalcon info), Code.Success)
    else if localFalcon info = requiredFalcon then some (100, Code.Success)
    else some (sub64 (localFalcon info) requiredFalcon, Code.Success)

/-- The `framework.NodeScore` struct. -/
structure NodeScore where
  Name : String
  Score : Int
deriving DecidableEq, Repr

/-- Value of `framework.MaxNodeScore` in the scheduler framework. -/
def MaxNodeScore : Int := 100

/-- Value of `framework.MinNodeScore` in the scheduler framework. -/
def MinNodeScore : Int := 0

/-- The first loop of `NormalizeScore`: `(highest, lowest)` after the scan. -/
def extremesLoop : List NodeScore → Int × Int → Int × Int
  | [], acc => acc
  | nodeScore :: rest, (highest, lowest) =>
    extremesLoop rest
      (if nodeScore.Score > highest then nodeScore.Score else highest,
       if nodeScore.Score < lowest then nodeScore.Score else lowest)

/-- The method `NormalizeScore`: the score list as the call leaves it (the returned
status is always `nil`). -/
def NormalizeScore (scores : List NodeScore) : List NodeScore :=
  let highest := (extremesLoop scores (-MaxInt64, MaxInt64)).1
  let lowest := (extremesLoop scores (-MaxInt64, MaxInt64)).2
  let oldRange := sub64 highest lowest
  let newRange := sub64 MaxNodeScore MinNodeScore
  scores.map (fun nodeScore =>
    if oldRange = 0 then { nodeScore with Score := MinNodeScore }
    else
      { nodeScore with
        Score := add64 (quo64 (mul64 (sub64 nodeScore.Score lowest) newRange) oldRange)
          MinNodeScore })

/-- Cluster-wide free supply as the specification words it: the exact sum, over the
node snapshots, of allocatable minus requested accelerators. -/
def freeSupply (nodeinfos : List NodeInfo) : Int :=
  (nodeinfos.map (fun nodeinfo => nodeinfo.Allocatable - nodeinfo.Requested)).sum

/-! ## Scheduler plugin: Permit -/

/-- Go's `strconv.Itoa`: the decimal representation of an integer. -/
def Itoa (i : Int) : String := toString i

/-- The method `getGpuDemand`.  `allocGPU` is the node's `falcon.com/gpu` allocatable
as `AsInt64` returns it from a fresh read of the API (`none` when the read fails),
`nodeInfo` the snapshot entry of the node (`none` when the lookup fails).  The
conversion `int(demand)` keeps the value (Go `int` is 64 bits wide on the
platforms the scheduler runs on). -/
def getGpuDemand (allocGPU : Option Int) (nodeInfo : Option NodeInfo)
    (requiredFalcon : Int) : Int :=
  match allocGPU with
  | none => 0
  | some alloc =>
    match nodeInfo with
    | none => 0
    | some info =>
      if sub64 requiredFalcon (sub64 alloc info.Requested) > 0 then
        sub64 requiredFalcon (sub64 alloc info.Requested)
      else 0

/-- What one call of `getGpuDemand` reads: the API node's allocatable count and the
snapshot entry. -/
structure NodeReading where
  allocGPU : Option Int
  nodeInfo : Option NodeInfo
deriving DecidableEq, Repr

/-- What `Permit` did: the code of the returned status, the annotation patch it
sent (if any) and the reason of the event it emitted (if any). -/
structure PermitResult where
  status : Code
  patch : Option (List (String × String))
  event : Option String
deriving DecidableEq, Repr

/-- The polling loop of `Permit`: `polls` are the readings made by the iterations
that start within the time window. -/
def permitPoll (requiredFalcon : Int) : List NodeReading → Code
  | [] => Code.Unschedulable
  | reading :: later =>
    if getGpuDemand reading.allocGPU reading.nodeInfo requiredFalcon = 0 then Code.Success
    else permitPoll requiredFalcon later

/-- The method `Permit`.  `first` is the reading of the first `getGpuDemand` call,
`polls` the readings of the polling loop; the returned wait time is always 0. -/
def Permit (patchPodAnnotations : List (String × String) → Option String)
    (nodeName : String) (requiredFalcon : Int) (first : NodeReading)
    (polls : List NodeReading) : PermitResult :=
  if getGpuDemand first.allocGPU first.nodeInfo requiredFalcon ≤ 0 then
    { status := Code.Success, patch := none, event := none }
  else
    match patchPodAnnotations
        [("dst_node", nodeName),
         ("gpu_demand", Itoa (getGpuDemand first.allocGPU first.nodeInfo requiredFalcon))] with
    | some _ =>
      { status := Code.Error,
        patch := some [("dst_node", nodeName),
          ("gpu_demand", Itoa (getGpuDemand first.allocGPU first.nodeInfo requiredFalcon))],
        event := none }
    | none =>
      { status := permitPoll requiredFalcon polls,
        patch := some [("dst_node", nodeName),
          ("gpu_demand", Itoa (getGpuDemand first.allocGPU first.nodeInfo requiredFalcon))],
        event := some "Reconfig" }

/-! ## Reconfiguration daemon (`05reconfig-mgr/cmd/app/main.go`, `pkg/inter/interface.go`) -/

/-- The `DevicePair` struct of the daemon's interface package. -/
structure ReconfigMgr.DevicePair where
  DevID : String
  HostPort : String
deriving DecidableEq, Repr

/-- The `PodInfo` struct (`podNamespace` stands for the field `namespace`). -/
structure PodInfo where
  name : String
  podNamespace : String
  gids : List String
deriving DecidableEq, Repr

/-- The state of a `ReconfigDaemon` that its methods read and write.  Go maps are
association lists, the latest assignment of a key first; Go sets are lists read
through membership only. -/
structure ReconfigDaemon where
  deviceAlloc : List (String × String)
  schedulePods : List String
  ignorePods : List String
  schedulePodInfo : List (String × PodInfo)
  nodeNameToPort : List (String × String)
deriving DecidableEq, Repr

/-- Reading a Go `map[string]string`: the zero value for a missing key. -/
def mapGet (m : List (String × String)) (key : String) : String :=
  (m.lookup key).getD ""

/-- The keys of a Go map, each once. -/
def mapKeys (m : List (String × String)) : List String :=
  (m.map Prod.fst).dedup

/-- The key and value pairs a `range` over a Go map visits, each key once with its
current value (the order of the visit is not fixed by the language and is supplied
separately). -/
def mapEntries (m : List (String × String)) : List (String × String) :=
  (mapKeys m).map (fun key => (key, mapGet m key))

/-- What the daemon sees of the fabric through `inter.FalconInterface`: for a state
of the far side, the result of `GetAllResource`, and whether `Unassign` and `Assign`
return a `nil` error, each with the state the call leaves behind.  Transport
failures and refusals are all within this interface. -/
structure Fabric (σ : Type) where
  GetAllResource : σ → Except String (List ReconfigMgr.DevicePair) × σ
  Unassign : σ → String → Bool × σ
  Assign : σ → String → String → Bool × σ

/-- The test of `sendRequest` on the response: a status of 400 or more is an
error. -/
def statusOk (status : Nat) : Bool :=
  decide (status < 400)

/-! ## Request bodies of the daemon and their decoding by the Registry -/

/-- The payload of `Unassign`: the result of `fmt.Sprintf` on the format
`{"devid" : "%s"}`; the argument is copied in as it is, nothing is escaped. -/
def unassignPayload (devid : String) : String :=
  "\x7b\"devid\" : \"" ++ devid ++ "\"\x7d"

/-- The payload of `Assign`: the result of `fmt.Sprintf` on the format
`{"hostport" : "%s", "devid" : "%s"}`; the arguments are copied in as they are. -/
def assignPayload (hostPort devid : String) : String :=
  "\x7b\"hostport\" : \"" ++ hostPort ++ "\", \"devid\" : \"" ++ devid ++ "\"\x7d"

/-- The white space of `encoding/json`: space, tab, carriage return, line feed. -/
def jsonSpace (c : Char) : Bool :=
  c.toNat == 0x20 || c.toNat == 0x09 || c.toNat == 0x0D || c.toNat == 0x0A

/-- Leading JSON white space removed. -/
def skipSpace (input : List Char) : List Char :=
  input.dropWhile jsonSpace

/-- The value of a hexadecimal digit. -/
def hexValue (c : Char) : Option Nat :=
  if 0x30 ≤ c.toNat ∧ c.toNat ≤ 0x39 then some (c.toNat - 0x30)
  else if 0x61 ≤ c.toNat ∧ c.toNat ≤ 0x66 then some (c.toNat - 0x61 + 10)
  else if 0x41 ≤ c.toNat ∧ c.toNat ≤ 0x46 then some (c.toNat - 0x41 + 10)
  else none

/-- The function `getu4` of `encoding/json` on the four characters after `\u`. -/
def getu4 (a b c d : Char) : Option Nat :=
  match hexValue a, hexValue b, hexValue c, hexValue d with
  | some x, some y, some z, some w => some (((x * 16 + y) * 16 + z) * 16 + w)
  | _, _, _, _ => none

/-- The character a one-letter escape stands for. -/
def simpleEscape (c : Char) : Option Char :=
  if c = '"' then some '"'
  else if c = '\\' then some '\\'
  else if c = '/' then some '/'
  else if c = 'b' then some (Char.ofNat 0x08)
  else if c = 'f' then some (Char.ofNat 0x0C)
  else if c = 'n' then some (Char.ofNat 0x0A)
  else if c = 'r' then some (Char.ofNat 0x0D)
  else if c = 't' then some (Char.ofNat 0x09)
  else none

/-- Putting a decoded character in front of the rest of a string literal. -/
def consChar (c : Char) (r : Option (List Char × List Char)) : Option (List Char × List Char) :=
  r.map (fun p => (c :: p.1, p.2))

/-- The second half of a surrogate pair: when the input goes on with `\uXXXX` naming
a low surrogate, its value. -/
def lowSurrogate (input : List Char) : Option Nat :=
  match input with
  | bs :: u :: a :: b :: c :: d :: _ =>
    if bs = '\\' ∧ u = 'u' then
      match getu4 a b c d with
      | some rr1 => if 0xDC00 ≤ rr1 ∧ rr1 < 0xE000 then some rr1 else none
      | none => none
    else none
  | _ => none

/-- An escape sequence, given the input after its backslash: the character it stands
for and the number of input characters it takes after the backslash; `none` for a
sequence the scanner of `encoding/json` rejects.  As in `unquote`, `\uXXXX` of a high
surrogate followed by `\uXXXX` of a low one is one character, and any other
surrogate is U+FFFD. -/
def scanEscape (input : List Char) : Option (Char × Nat) :=
  match input with
  | [] => none
  | e :: rest1 =>
    if e = 'u' then
      match rest1 with
      | a :: b :: c :: d :: rest2 =>
        match getu4 a b c d with
        | none => none
        | some rr =>
          if 0xD800 ≤ rr ∧ rr < 0xE000 then
            match (if rr < 0xDC00 then lowSurrogate rest2 else none) with
            | some rr1 =>
              some (Char.ofNat ((rr - 0xD800) * 0x400 + (rr1 - 0xDC00) + 0x10000), 11)
            | none => some (Char.ofNat 0xFFFD, 5)
          else some (Char.ofNat rr, 5)
      | _ => none
    else (simpleEscape e).map (fun ch => (ch, 1))

/-- A JSON string literal after its opening quote: the decoded text and the input
after the closing quote; `none` for a literal the scanner of `encoding/json`
rejects (a control character, a bad escape, no closing quote).  The first argument
counts the input characters still to pass over, those of an escape sequence already
decoded. -/
def scanString : Nat → List Char → Option (List Char × List Char)
  | _, [] => none
  | skip + 1, _ :: rest => scanString skip rest
  | 0, c :: rest =>
    if c = '"' then some ([], rest)
    else if c = '\\' then
      match scanEscape rest with
      | none => none
      | some (ch, n) => consChar ch (scanString n rest)
    else if c.toNat < 0x20 then none
    else consChar c (scanString 0 rest)

/-- A decimal digit. -/
def jsonDigit (c : Char) : Bool :=
  0x30 ≤ c.toNat && c.toNat ≤ 0x39

/-- The input after a given text, when the input starts with that text. -/
def stripPrefix : List Char → List Char → Option (List Char)
  | [], input => some input
  | _ :: _, [] => none
  | p :: ps, c :: rest => if c = p then stripPrefix ps rest else none

/-- The exponent part of a number, if there is one (scanner states `stateE`,
`stateESign`, `stateE0`): the input after it. -/
def scanExponent (input : List Char) : Option (List Char) :=
  match input with
  | [] => some input
  | e :: rest =>
    if e = 'e' ∨ e = 'E' then
      match (match rest with
        | [] => rest
        | sign :: rest1 => if sign = '+' ∨ sign = '-' then rest1 else rest) with
      | [] => none
      | d :: rest2 => if jsonDigit d then some (rest2.dropWhile jsonDigit) else none
    else some input

/-- The fraction and exponent parts of a number, if there are any (scanner states
`stateDot`, `stateDot0`): the input after them. -/
def scanFraction (input : List Char) : Option (List Char) :=
  match input with
  | [] => some input
  | dot :: rest =>
    if dot = '.' then
      match rest with
      | [] => none
      | d :: rest1 => if jsonDigit d then scanExponent (rest1.dropWhile jsonDigit) else none
    else scanExponent input

/-- A JSON number (scanner states `stateNeg`, `state0`, `state1` and the above): the
input after the longest text the scanner takes as the number. -/
def scanNumber (input : List Char) : Option (List Char) :=
  match (match input with
    | [] => input
    | minus :: rest => if minus = '-' then rest else input) with
  | [] => none
  | d :: rest =>
    if d = '0' then scanFraction rest
    else if jsonDigit d then scanFraction (rest.dropWhile jsonDigit)
    else none

/-- What the decoder needs to know of a JSON value when it stores it into a string
field: `null` leaves the field as it is, a string is stored, and every other value
(`true`, `false`, a number, an array, an object) is a type error. -/
inductive JSONValue where
  | null
  | string (s : String)
  | other
deriving DecidableEq, Repr

/-- A value that is neither a string nor an array nor an object: one of the literals
`true`, `false`, `null`, or a number. -/
def scanScalar (input : List Char) : Option (JSONValue × List Char) :=
  match input with
  | [] => none
  | c :: rest =>
    if c = 't' then (stripPrefix ['r', 'u', 'e'] rest).map (fun r => (JSONValue.other, r))
    else if c = 'f' then
      (stripPrefix ['a', 'l', 's', 'e'] rest).map (fun r => (JSONValue.other, r))
    else if c = 'n' then (stripPrefix ['u', 'l', 'l'] rest).map (fun r => (JSONValue.null, r))
    else (scanNumber input).map (fun r => (JSONValue.other, r))

/-- The constant `maxNestingDepth` of the scanner. -/
def maxNestingDepth : Nat := 10000

/-- The kind of an open array or object (the scanner's `parseState` entries). -/
inductive Container where
  | object
  | array
deriving DecidableEq, Repr

/-- What the scanner expects next inside an array or object: a value (or the closing
bracket right after `[`), a key (or the closing brace right after the opening one),
the colon after a key, or the comma or closing bracket after a value. -/
inductive ScanMode where
  | value (orEmpty : Bool)
  | key (orEmpty : Bool)
  | afterKey
  | afterValue
deriving DecidableEq, Repr

/-- The scanner inside the arrays and objects of `stack` (innermost first), which lie
inside `outer` further open objects: the input after the bracket that closes the
outermost one of `stack`; `none` for a syntax error, nesting deeper than
`maxNestingDepth`, or the end of the input.  The first argument bounds the number of
steps; every step takes at least one character. -/
def skipNested (outer : Nat) : Nat → List Container → ScanMode → List Char → Option (List Char)
  | 0, _, _, _ => none
  | fuel + 1, stack, mode, input =>
    match skipSpace input with
    | [] => none
    | c :: rest =>
      match mode with
      | ScanMode.value orEmpty =>
        if c = ']' ∧ orEmpty = true then
          if stack.tail = [] then some rest
          else skipNested outer fuel stack.tail ScanMode.afterValue rest
        else if c = '\x7b' then
          if outer + stack.length + 1 ≤ maxNestingDepth then
            skipNested outer fuel (Container.object :: stack) (ScanMode.key true) rest
          else none
        else if c = '[' then
          if outer + stack.length + 1 ≤ maxNestingDepth then
            skipNested outer fuel (Container.array :: stack) (ScanMode.value true) rest
          else none
        else if c = '"' then
          match scanString 0 rest with
          | none => none
          | some (_, rest1) => skipNested outer fuel stack ScanMode.afterValue rest1
        else
          match scanScalar (c :: rest) with
          | none => none
          | some (_, rest1) => skipNested outer fuel stack ScanMode.afterValue rest1
      | ScanMode.key orEmpty =>
        if c = '\x7d' ∧ orEmpty = true then
          if stack.tail = [] then some rest
          else skipNested outer fuel stack.tail ScanMode.afterValue rest
        else if c = '"' then
          match scanString 0 rest with
          | none => none
          | some (_, rest1) => skipNested outer fuel stack ScanMode.afterKey rest1
        else none
      | ScanMode.afterKey =>
        if c = ':' then skipNested outer fuel stack (ScanMode.value false) rest else none
      | ScanMode.afterValue =>
        match stack with
        | [] => none
        | Container.object :: up =>
          if c = ',' then skipNested outer fuel stack (ScanMode.key false) rest
          else if c = '\x7d' then
            if up = [] then some rest else skipNested outer fuel up ScanMode.afterValue rest
          else none
        | Container.array :: up =>
          if c = ',' then skipNested outer fuel stack (ScanMode.value false) rest
          else if c = ']' then
            if up = [] then some rest else skipNested outer fuel up ScanMode.afterValue rest
          else none

/-- A JSON value that is a member of the request object, white space before it
already passed: what the decoder needs of it and the input after it. -/
def scanValue (input : List Char) : Option (JSONValue × List Char) :=
  match input with
  | [] => none
  | c :: rest =>
    if c = '"' then
      (scanString 0 rest).map (fun p => (JSONValue.string (String.mk p.1), p.2))
    else if c = '\x7b' then
      (skipNested 1 (rest.length + 1) [Container.object] (ScanMode.key true) rest).map
        (fun r => (JSONValue.other, r))
    else if c = '[' then
      (skipNested 1 (rest.length + 1) [Container.array] (ScanMode.value true) rest).map
        (fun r => (JSONValue.other, r))
    else scanScalar input

/-- The case folding of `foldName` as far as ASCII letters are concerned: an upper
case letter, and the two other characters that `unicode.SimpleFold` puts in the class
of an ASCII letter (U+017F with `s`, U+212A with `k`), become the lower case
letter. -/
def foldChar (c : Char) : Char :=
  if 0x41 ≤ c.toNat ∧ c.toNat ≤ 0x5A then Char.ofNat (c.toNat + 0x20)
  else if c.toNat = 0x17F then 's'
  else if c.toNat = 0x212A then 'k'
  else c

/-- Whether an object key selects the struct field with the given `json` tag: the
same text, or the same text up to case folding. -/
def keyMatches (tag : String) (key : List Char) : Bool :=
  decide (key.map foldChar = tag.data)

/-- Storing one member of the request object into the `Device` being decoded: a key
that selects no field is ignored, `null` leaves the field as it is, a string is
stored, and any other value for one of the three fields is a type error (`none`). -/
def storeMember (device : Device) (key : List Char) (value : JSONValue) : Option Device :=
  if keyMatches "devid" key then
    match value with
    | JSONValue.null => some device
    | JSONValue.string s => some { device with DevID := s }
    | JSONValue.other => none
  else if keyMatches "uuid" key then
    match value with
    | JSONValue.null => some device
    | JSONValue.string s => some { device with UUID := s }
    | JSONValue.other => none
  else if keyMatches "hostport" key then
    match value with
    | JSONValue.null => some device
    | JSONValue.string s => some { device with HostPort := s }
    | JSONValue.other => none
  else some device

/-- The members of the request object, from a place where a key is expected (or, with
`orEmpty`, the closing brace right after the opening one) up to the closing brace:
the `Device` they leave, later members overwriting earlier ones; `none` for a syntax
error or a type error.  What follows the closing brace is not read.  The first
argument bounds the number of members; every member takes at least one character. -/
def decodeMembers : Nat → Bool → Device → List Char → Option Device
  | 0, _, _, _ => none
  | fuel + 1, orEmpty, device, input =>
    match skipSpace input with
    | [] => none
    | c :: rest =>
      if c = '\x7d' ∧ orEmpty = true then some device
      else if c = '"' then
        match scanString 0 rest with
        | none => none
        | some (key, rest1) =>
          match skipSpace rest1 with
          | [] => none
          | colon :: rest2 =>
            if colon = ':' then
              match scanValue (skipSpace rest2) with
              | none => none
              | some (value, rest3) =>
                match storeMember device key value with
                | none => none
                | some device1 =>
                  match skipSpace rest3 with
                  | [] => none
                  | sep :: rest4 =>
                    if sep = ',' then decodeMembers fuel false device1 rest4
                    else if sep = '\x7d' then some device1
                    else none
            else none
      else none

/-- The call `json.NewDecoder(r.Body).Decode(&device)` of the two handlers on a
request body, `device` being the zero `Device`: the decoded `Device`, or `none` when
`Decode` returns an error.  The decoder reads the first JSON value of the body and
nothing after it; an object fills the fields its keys select, the value `null`
leaves the zero `Device`, and any other value is a type error. -/
def decodeDevice (body : String) : Option Device :=
  match skipSpace body.data with
  | [] => none
  | c :: rest =>
    if c = '\x7b' then decodeMembers (rest.length + 1) true ⟨"", "", ""⟩ rest
    else if c = 'n' then (stripPrefix ['u', 'l', 'l'] rest).map (fun _ => ⟨"", "", ""⟩)
    else none

/-- A text that a JSON string literal carries as it is: no double quote, no
backslash and no control character (below U+0020). -/
def jsonPlain (s : String) : Bool :=
  s.data.all (fun c => c != '"' && c != '\\' && decide (0x20 ≤ c.toNat))

/-- The interface as served by the Registry of `resource-pool.go` over a working
transport.  `GetAllResource` decodes GET /resources (the Registry's encoding of a
listing and the daemon's decoding of it give the strings back unchanged).
`Unassign` sends DELETE /allocation and `Assign` sends POST /allocation, each with
the payload that `fmt.Sprintf` builds; the handler answers 400 when it cannot decode
the payload and otherwise acts on the `Device` it decodes; `sendRequest` turns a
status of 400 or more into an error. -/
def registryFabric : Fabric (List Device) where
  GetAllResource := fun t =>
    (Except.ok ((getResources t).map (fun res => ⟨res.DevID, res.HostPort⟩)), t)
  Unassign := fun t devid =>
    (statusOk (detachResource t (decodeDevice (unassignPayload devid))).1,
     (detachResource t (decodeDevice (unassignPayload devid))).2)
  Assign := fun t hostPort devid =>
    (statusOk (attachResource t (decodeDevice (assignPayload hostPort devid))).1,
     (attachResource t (decodeDevice (assignPayload hostPort devid))).2)

/-- The `for _, dp := range devices` loop of `updateDevice`. -/
def updateLoop : List ReconfigMgr.DevicePair → List (String × String) → List (String × String)
  | [], deviceAlloc => deviceAlloc
  | dp :: rest, deviceAlloc => updateLoop rest ((dp.DevID, dp.HostPort) :: deviceAlloc)

/-- The method `updateDevice`: the error returned (`none` for `nil`), the daemon and
the far side afterwards. -/
def updateDevice {σ : Type} (F : Fabric σ) (d : ReconfigDaemon) (s : σ) :
    Option String × ReconfigDaemon × σ :=
  match F.GetAllResource s with
  | (Except.error err, s') => (some err, d, s')
  | (Except.ok devices, s') =>
    (none, { d with deviceAlloc := updateLoop devices d.deviceAlloc }, s')

/-- The `for po := range d.schedulePods` loop of `reconfig`, filling `usedGPUs`
(a missing `schedulePodInfo` entry has no gids). -/
def usedLoop (schedulePodInfo : List (String × PodInfo)) : List String → List String → List String
  | [], usedGPUs => usedGPUs
  | po :: rest, usedGPUs =>
    usedLoop schedulePodInfo rest
      (usedGPUs ++ ((schedulePodInfo.lookup po).map PodInfo.gids).getD [])

/-- The anonymous struct of the `optionGPUs` slice. -/
structure GpuOption where
  devGID : String
  hostPort : String
  score : Int
deriving DecidableEq, Repr

/-- The `for dev, nodePort := range d.deviceAlloc` loop of `reconfig` over the visited
entries. -/
def optionLoop (usedGPUs : List String) (dstPort : String) :
    List (String × String) → List GpuOption
  | [] => []
  | entry :: rest =>
    if entry.1 ∉ usedGPUs ∧ entry.2 ≠ dstPort then
      { devGID := entry.1, hostPort := entry.2, score := 0 } :: optionLoop usedGPUs dstPort rest
    else optionLoop usedGPUs dstPort rest

/-- The `for _, gpuOption := range optionGPUs` loop filling the map `gpuCounts`. -/
def countLoop : List GpuOption → List (String × Int) → List (String × Int)
  | [], gpuCounts => gpuCounts
  | gpuOption :: rest, gpuCounts =>
    countLoop rest
      ((gpuOption.hostPort, (gpuCounts.lookup gpuOption.hostPort).getD 0 + 1) :: gpuCounts)

/-- The `for i := range optionGPUs` loop writing the scores. -/
def scoreLoop (gpuCounts : List (String × Int)) : List GpuOption → List GpuOption
  | [] => []
  | gpuOption :: rest =>
    { gpuOption with score := (gpuCounts.lookup gpuOption.hostPort).getD 0 } ::
      scoreLoop gpuCounts rest

/-- The call `sort.Slice(optionGPUs, less)` with `less` comparing scores.  The
library sort is not stable; the order it leaves among equal scores depends on the
order of the slice, which comes from the unordered map visit, so a stable sort over
every possible visit order covers every outcome. -/
def sortSlice (optionGPUs : List GpuOption) : List GpuOption :=
  optionGPUs.insertionSort (fun a b => a.score ≤ b.score)

/-- The slice `optionGPUs` as the mutation loop of `reconfig` ranges over it: the
candidates, scored and sorted.  `rangeOrder` is the order in which the map visit
delivers the entries. -/
def donorOrder (rangeOrder : List (String × String) → List (String × String))
    (d : ReconfigDaemon) (nodeName : String) : List GpuOption :=
  sortSlice
    (scoreLoop
      (countLoop
        (optionLoop (usedLoop d.schedulePodInfo d.schedulePods [])
          (mapGet d.nodeNameToPort nodeName) (rangeOrder (mapEntries d.deviceAlloc))) [])
      (optionLoop (usedLoop d.schedulePodInfo d.schedulePods [])
        (mapGet d.nodeNameToPort nodeName) (rangeOrder (mapEntries d.deviceAlloc))))

/-- Which method of the interface a call of the mutation loop went to. -/
inductive CallKind where
  | unassign
  | assign
deriving DecidableEq, Repr

/-- A call made by the mutation loop: the method, the port (empty for `unassign`),
the device, whether it returned without error, and the value of `demand` when it was
made. -/
structure Call where
  kind : CallKind
  portGID : String
  devGID : String
  ok : Bool
  remaining : Int
deriving DecidableEq, Repr

/-- What the mutation loop leaves: the remaining demand, the far side and the calls
made, in order. -/
structure LoopResult (σ : Type) where
  demand : Int
  state : σ
  trace : List Call

/-- The `for _, dev := range optionGPUs` mutation loop of `reconfig`. -/
def reconfigLoop {σ : Type} (F : Fabric σ) (dstPort : String) :
    List GpuOption → Int → σ → LoopResult σ
  | [], demand, s => { demand := demand, state := s, trace := [] }
  | dev :: rest, demand, s =>
    if demand ≤ 0 then { demand := demand, state := s, trace := [] }
    else if (F.Unassign s dev.devGID).1 = false then
      { reconfigLoop F dstPort rest demand (F.Unassign s dev.devGID).2 with
        trace := ⟨CallKind.unassign, "", dev.devGID, false, demand⟩ ::
          (reconfigLoop F dstPort rest demand (F.Unassign s dev.devGID).2).trace }
    else if (F.Assign (F.Unassign s dev.devGID).2 dstPort dev.devGID).1 = false then
      { reconfigLoop F dstPort rest demand
          (F.Assign (F.Unassign s dev.devGID).2 dstPort dev.devGID).2 with
        trace := ⟨CallKind.unassign, "", dev.devGID, true, demand⟩ ::
          ⟨CallKind.assign, dstPort, dev.devGID, false, demand⟩ ::
          (reconfigLoop F dstPort rest demand
            (F.Assign (F.Unassign s dev.devGID).2 dstPort dev.devGID).2).trace }
    else
      { reconfigLoop F dstPort rest (demand - 1)
          (F.Assign (F.Unassign s dev.devGID).2 dstPort dev.devGID).2 with
        trace := ⟨CallKind.unassign, "", dev.devGID, true, demand⟩ ::
          ⟨CallKind.assign, dstPort, dev.devGID, true, demand⟩ ::
          (reconfigLoop F dstPort rest (demand - 1)
            (F.Assign (F.Unassign s dev.devGID).2 dstPort dev.devGID).2).trace }

/-- What a call of `reconfig` leaves: the value returned, the daemon, the far side
and the calls the mutation loop made. -/
structure ReconfigResult (σ : Type) where
  result : Bool
  daemon : ReconfigDaemon
  state : σ
  trace : List Call

/-- The method `reconfig`. -/
def reconfig {σ : Type} (F : Fabric σ)
    (rangeOrder : List (String × String) → List (String × String))
    (d : ReconfigDaemon) (nodeName : String) (demand : Int) (s : σ) : ReconfigResult σ :=
  match updateDevice F d s with
  | (some _, d', s') => { result := false, daemon := d', state := s', trace := [] }
  | (none, d', s') =>
    { result :=
        decide ((reconfigLoop F (mapGet d'.nodeNameToPort nodeName)
          (donorOrder rangeOrder d' nodeName) demand s').demand = 0),
      daemon := d',
      state := (reconfigLoop F (mapGet d'.nodeNameToPort nodeName)
        (donorOrder rangeOrder d' nodeName) demand s').state,
      trace := (reconfigLoop F (mapGet d'.nodeNameToPort nodeName)
        (donorOrder rangeOrder d' nodeName) demand s').trace }

/-- The number of Registry devices bound to a port. -/
def boundTo (hostPort : String) (deviceLookUpTable : List Device) : Nat :=
  deviceLookUpTable.countP (fun dev => decide (dev.HostPort = hostPort))

/-- The number of successful detach and attach pairs among the calls: an `Assign`
is only made after the `Unassign` of the same device succeeded. -/
def movedCount (trace : List Call) : Int :=
  (trace.countP (fun c => decide (c.kind = CallKind.assign ∧ c.ok = true)) : Nat)

/-- The calls of a run in which every donor tried is moved: for each device, with the
demand at that time, a successful `Unassign` followed by a successful `Assign` to the
destination port. -/
def movePairs (dstPort : String) : List (String × Int) → List Call
  | [] => []
  | moved :: rest =>
    ⟨CallKind.unassign, "", moved.1, true, moved.2⟩ ::
      ⟨CallKind.assign, dstPort, moved.1, true, moved.2⟩ :: movePairs dstPort rest

/-- Position by position, the second table holds the same device as the first, and
attached wherever the first one was. -/
def StaysAttached (before after : List Device) : Prop :=
  ∀ (i : Nat) (x : Device), before[i]? = some x →
    ∃ y, after[i]? = some y ∧ y.DevID = x.DevID ∧ (x.HostPort ≠ "" → y.HostPort ≠ "")

/-! ## Node adapter: the device plugin server (`03disag-device-plugin/pkg/server/server.go`) -/

/-- What the adapter fills of a `pluginapi.Device`. -/
structure PluginDevice where
  ID : String
  Health : String
deriving DecidableEq, Repr

/-- Value of `pluginapi.Healthy`. -/
def Healthy : String := "Healthy"

/-- The state of a `DisagDevServer` that listing and watching read and write: the
maps `devices` (UUID to device) and `gpuLookUp`, association lists with the latest
assignment of a key first, and the Registry interface. -/
structure DisagDevServer where
  devices : List (String × PluginDevice)
  gpuLookUp : List (String × String)
  devIF : FalconInterface
deriving DecidableEq, Repr

/-- The `for _, dp := range devices` loop of `listDevice`. -/
def listDeviceLoop : List DevicePair → DisagDevServer → DisagDevServer
  | [], s => s
  | dp :: rest, s =>
    listDeviceLoop rest
      { devices := (dp.GpuUUID, { ID := dp.DevID, Health := Healthy }) :: s.devices,
        gpuLookUp := (dp.DevID, dp.GpuUUID) :: s.gpuLookUp,
        devIF := s.devIF }

/-- The slice that `devices, _ := s.devIF.GetResource()` keeps: `nil` when the call
returned an error. -/
def devicesOrNil (result : Except String (List DevicePair)) : List DevicePair :=
  match result with
  | Except.ok devices => devices
  | Except.error _ => []

/-- The method `listDevice`: the error returned (`none` for `nil`) and the server
afterwards.  `response` is the outcome of the HTTP exchange of `GetResource`. -/
def listDevice (s : DisagDevServer) (response : Except String (List Device)) :
    Option String × DisagDevServer :=
  (none,
   listDeviceLoop (devicesOrNil (GetResource s.devIF response))
     { devices := [], gpuLookUp := s.gpuLookUp, devIF := s.devIF })

/-- Lexicographic order on character sequences by code point, which is the bytewise
order of their UTF-8 encodings that Go uses to compare strings. -/
def charsLess : List Char → List Char → Bool
  | _, [] => false
  | [], _ :: _ => true
  | x :: xs, y :: ys =>
    if x.toNat < y.toNat then true
    else if y.toNat < x.toNat then false
    else charsLess xs ys

/-- The call `sort.Strings(keys)`. -/
def sortStrings (keys : List String) : List String :=
  keys.insertionSort (fun a b => charsLess b.data a.data = false)

/-- The keys of the `devices` map, each once. -/
def deviceKeys (devices : List (String × PluginDevice)) : List String :=
  (devices.map Prod.fst).dedup

/-- The slice `devs` a poll of `ListAndWatch` builds: the devices in the order of
their sorted keys, as non-nil pointers. -/
def sortedDevs (devices : List (String × PluginDevice)) : List (Option PluginDevice) :=
  (sortStrings (deviceKeys devices)).map (fun k => devices.lookup k)

/-- Go's built-in `copy(dst, src)`: the first min(len dst, len src) elements of `dst`
are overwritten, the length of `dst` is kept. -/
def copySlice {α : Type} (dst src : List α) : List α :=
  src.take dst.length ++ dst.drop src.length

/-- The local state of the polling loop of `ListAndWatch`. -/
structure WatchState where
  server : DisagDevServer
  old_devs : List (Option PluginDevice)
deriving DecidableEq, Repr

/-- One pass of the `default` branch of the polling loop of `ListAndWatch`: the state
afterwards and the device list sent on the stream, if any (a failing `Send` is only
logged).  Slices of pointers are lists of optional devices, `none` for `nil`, and
`reflect.DeepEqual` on them is equality. -/
def pollOnce (st : WatchState) (response : Except String (List Device)) :
    WatchState × Option (List (Option PluginDevice)) :=
  match listDevice st.server response with
  | (some _, server) => ({ server := server, old_devs := st.old_devs }, none)
  | (none, server) =>
    if sortedDevs server.devices ≠ st.old_devs then
      ({ server := server, old_devs := copySlice st.old_devs (sortedDevs server.devices) },
       some (sortedDevs server.devices))
    else ({ server := server, old_devs := st.old_devs }, none)

/-- The polling loop of `ListAndWatch` over the polls made until the context is
cancelled: for each poll, what was sent. -/
def pollAll : WatchState → List (Except String (List Device)) →
    List (Option (List (Option PluginDevice)))
  | _, [] => []
  | st, response :: later => (pollOnce st response).2 :: pollAll (pollOnce st response).1 later

/-- The method `ListAndWatch` with a working stream: the first list sent (the
devices of the map in the order `rangeOrder` of the map visit) followed by what each
poll sent. -/
def ListAndWatch (rangeOrder : List String → List String) (s : DisagDevServer)
    (polls : List (Except String (List Device))) :
    List (Option (List (Option PluginDevice))) :=
  some ((rangeOrder (deviceKeys s.devices)).map (fun k => s.devices.lookup k)) ::
    pollAll { server := s, old_devs := List.replicate (deviceKeys s.devices).length none } polls

/-! ## Reconfiguration daemon: quiescence (`waitReadyToReconfig`) -/

theorem entryFor_nil (d : String) : entryFor [] d = none := rfl

theorem entryFor_cons_eq (dev : Device) (rest : List Device) (d : String)
    (h : dev.DevID = d) : entryFor (dev :: rest) d = some dev := by
  simp [entryFor, List.find?, h]

theorem entryFor_cons_ne (dev : Device) (rest : List Device) (d : String)
    (h : dev.DevID ≠ d) : entryFor (dev :: rest) d = entryFor rest d := by
  simp [entryFor, List.find?, h]

theorem entryFor_eq_none_iff (t : List Device) (d : String) :
    entryFor t d = none ↔ ∀ e ∈ t, e.DevID ≠ d := by
  simp [entryFor, List.find?_eq_none]

theorem attachLoop_unknown (device : Device) (t : List Device)
    (h : ∀ e ∈ t, e.DevID ≠ device.DevID) :
    attachLoop device t = (StatusNotFound, t) := by
  induction t with
  | nil => rfl
  | cons dev rest ih =>
    have h1 : dev.DevID ≠ device.DevID := h dev (List.mem_cons_self _ _)
    have h2 := ih (fun e he => h e (List.mem_cons_of_mem _ he))
    simp [attachLoop, h1, h2]

theorem attachLoop_refused (device : Device) (t : List Device) (e : Device)
    (he : entryFor t device.DevID = some e)
    (h : e.HostPort ≠ "" ∨ device.HostPort = "") :
    attachLoop device t = (StatusBadRequest, t) := by
  induction t with
  | nil => simp [entryFor] at he
  | cons dev rest ih =>
    by_cases hd : dev.DevID = device.DevID
    · rw [entryFor_cons_eq dev rest _ hd] at he
      cases he
      rcases h with h | h
      · simp [attachLoop, hd, h]
      · by_cases hp : e.HostPort = "" <;> simp [attachLoop, hd, h, hp]
    · rw [entryFor_cons_ne dev rest _ hd] at he
      simp [attachLoop, hd, ih he]

theorem attachLoop_bound (device : Device) (t : List Device) (e : Device)
    (he : entryFor t device.DevID = some e)
    (h1 : e.HostPort = "") (h2 : device.HostPort ≠ "") :
    (attachLoop device t).1 = StatusNoContent ∧
    entryFor (attachLoop device t).2 device.DevID
      = some { e with HostPort := device.HostPort } := by
  induction t with
  | nil => simp [entryFor] at he
  | cons dev rest ih =>
    by_cases hd : dev.DevID = device.DevID
    · rw [entryFor_cons_eq dev rest _ hd] at he
      cases he
      simp [attachLoop, hd, h1, h2, entryFor, List.find?]
    · rw [entryFor_cons_ne dev rest _ hd] at he
      have := ih he
      simp [attachLoop, hd, this.1, entryFor_cons_ne _ _ _ hd, this.2]

/-! ## Registry: attach contract -/

/-- C1: `attach(d, p)` answers 404 and leaves the table unchanged when no entry has
`DevID` d; for a known d it answers 400 and leaves the table unchanged when the
entry for d already has a non-empty `HostPort` or when p is empty; otherwise it
answers 204 and the entry for d carries `HostPort` p afterwards. -/
theorem attachResource_contract (t : List Device) (device : Device) :
    ((∀ e ∈ t, e.DevID ≠ device.DevID) →
      attachResource t (some device) = (StatusNotFound, t)) ∧
    (∀ e, entryFor t device.DevID = some e →
      (e.HostPort ≠ "" ∨ device.HostPort = "") →
      attachResource t (some device) = (StatusBadRequest, t)) ∧
    (∀ e, entryFor t device.DevID = some e →
      e.HostPort = "" → device.HostPort ≠ "" →
      (attachResource t (some device)).1 = StatusNoContent ∧
      entryFor (attachResource t (some device)).2 device.DevID
        = some { e with HostPort := device.HostPort }) :=
  ⟨attachLoop_unknown device t,
   fun e he h => attachLoop_refused device t e he h,
   fun e he h1 h2 => attachLoop_bound device t e he h1 h2⟩

/-- C1, at a concrete table: attaching the unattached device `b` to `p2`. -/
theorem attachResource_contract_witness :
    (attachResource [⟨"a", "ua", "p1"⟩, ⟨"b", "ub", ""⟩] (some ⟨"b", "", "p2"⟩)).1
      = StatusNoContent ∧
    entryFor
      (attachResource [⟨"a", "ua", "p1"⟩, ⟨"b", "ub", ""⟩] (some ⟨"b", "", "p2"⟩)).2 "b"
      = some ⟨"b", "ub", "p2"⟩ :=
  (attachResource_contract [⟨"a", "ua", "p1"⟩, ⟨"b", "ub", ""⟩] ⟨"b", "", "p2"⟩).2.2
    ⟨"b", "ub", ""⟩ (by decide) rfl (by decide)

/-! ## Registry: what the loops leave behind -/

theorem attachLoop_eq_rebind (device : Device) (t : List Device) (e : Device)
    (he : entryFor t device.DevID = some e)
    (h1 : e.HostPort = "") (h2 : device.HostPort ≠ "") :
    attachLoop device t = (StatusNoContent, rebind device.DevID device.HostPort t) := by
  induction t with
  | nil => simp [entryFor] at he
  | cons dev rest ih =>
    by_cases hd : dev.DevID = device.DevID
    · rw [entryFor_cons_eq dev rest _ hd] at he
      cases he
      simp [attachLoop, rebind, hd, h1, h2]
    · rw [entryFor_cons_ne dev rest _ hd] at he
      simp [attachLoop, rebind, hd, ih he]

theorem detachLoop_unknown (device : Device) (t : List Device)
    (h : ∀ e ∈ t, e.DevID ≠ device.DevID) :
    detachLoop device t = (StatusNotFound, t) := by
  induction t with
  | nil => rfl
  | cons dev rest ih =>
    have h1 : dev.DevID ≠ device.DevID := h dev (List.mem_cons_self _ _)
    have h2 := ih (fun e he => h e (List.mem_cons_of_mem _ he))
    simp [detachLoop, h1, h2]

theorem detachLoop_eq_rebind (device : Device) (t : List Device) (e : Device)
    (he : entryFor t device.DevID = some e) :
    detachLoop device t = (StatusNoContent, rebind device.DevID "" t) := by
  induction t with
  | nil => simp [entryFor] at he
  | cons dev rest ih =>
    by_cases hd : dev.DevID = device.DevID
    · simp [detachLoop, rebind, hd]
    · rw [entryFor_cons_ne dev rest _ hd] at he
      simp [detachLoop, rebind, hd, ih he]

theorem entryFor_rebind (d p : String) (t : List Device) (e : Device)
    (he : entryFor t d = some e) :
    entryFor (rebind d p t) d = some { e with HostPort := p } := by
  induction t with
  | nil => simp [entryFor] at he
  | cons dev rest ih =>
    by_cases hd : dev.DevID = d
    · rw [entryFor_cons_eq dev rest _ hd] at he
      cases he
      simp [rebind, hd, entryFor, List.find?]
    · rw [entryFor_cons_ne dev rest _ hd] at he
      simp [rebind, hd, entryFor_cons_ne _ _ _ hd, ih he]

theorem rebind_rebind (d p q : String) (t : List Device) :
    rebind d p (rebind d q t) = rebind d p t := by
  induction t with
  | nil => rfl
  | cons dev rest ih =>
    by_cases hd : dev.DevID = d
    · simp [rebind, hd]
    · simp [rebind, hd, ih]

theorem rebind_length (d p : String) (t : List Device) :
    (rebind d p t).length = t.length := by
  induction t with
  | nil => rfl
  | cons dev rest ih =>
    by_cases hd : dev.DevID = d
    · simp [rebind, hd]
    · simp [rebind, hd, ih]

theorem rebind_getElem?_other (d p : String) (t : List Device) (i : Nat) (x : Device)
    (hx : t[i]? = some x) (hd : x.DevID ≠ d) : (rebind d p t)[i]? = some x := by
  induction t generalizing i with
  | nil => simp at hx
  | cons dev rest ih =>
    by_cases hdev : dev.DevID = d
    · cases i with
      | zero =>
        simp at hx
        subst hx
        exact absurd hdev hd
      | succ j => simpa [rebind, hdev] using hx
    · cases i with
      | zero => simpa [rebind, hdev] using hx
      | succ j =>
        simp at hx
        simpa [rebind, hdev] using ih j hx

theorem attachLoop_identity (device : Device) (t : List Device) :
    (attachLoop device t).2.map (fun dev => (dev.DevID, dev.UUID))
      = t.map (fun dev => (dev.DevID, dev.UUID)) := by
  induction t with
  | nil => rfl
  | cons dev rest ih =>
    by_cases hd : dev.DevID = device.DevID
    · by_cases h1 : dev.HostPort = "" <;> by_cases h2 : device.HostPort = "" <;>
        simp [attachLoop, hd, h1, h2]
    · simp [attachLoop, hd, ih]

theorem detachLoop_identity (device : Device) (t : List Device) :
    (detachLoop device t).2.map (fun dev => (dev.DevID, dev.UUID))
      = t.map (fun dev => (dev.DevID, dev.UUID)) := by
  induction t with
  | nil => rfl
  | cons dev rest ih =>
    by_cases hd : dev.DevID = device.DevID
    · simp [detachLoop, hd]
    · simp [detachLoop, hd, ih]

theorem serve_identity (t : List Device) (r : Request) :
    (serve t r).2.map (fun dev => (dev.DevID, dev.UUID))
      = t.map (fun dev => (dev.DevID, dev.UUID)) := by
  cases r with
  | post body =>
    cases body with
    | none => rfl
    | some device => exact attachLoop_identity device t
  | delete body =>
    cases body with
    | none => rfl
    | some device => exact detachLoop_identity device t

theorem entryFor_isSome_or_unknown (t : List Device) (d : String) :
    (∃ e, entryFor t d = some e) ∨ (∀ e ∈ t, e.DevID ≠ d) := by
  cases h : entryFor t d with
  | none => exact Or.inr ((entryFor_eq_none_iff t d).1 h)
  | some e => exact Or.inl ⟨e, rfl⟩

/-! ## Registry: detach contract -/

/-- C2: `detach(d)` answers 404 exactly when d is unknown, and then leaves the table
unchanged; otherwise it answers 204 and the entry for d has an empty `HostPort`
afterwards.  Detaching an already detached device answers 204 again, and a second
`detach(d)` answers as the first did and yields the same table. -/
theorem detachResource_contract (t : List Device) (device : Device) :
    ((detachResource t (some device)).1 = StatusNotFound ↔
      ∀ e ∈ t, e.DevID ≠ device.DevID) ∧
    ((∀ e ∈ t, e.DevID ≠ device.DevID) → (detachResource t (some device)).2 = t) ∧
    (∀ e, entryFor t device.DevID = some e →
      (detachResource t (some device)).1 = StatusNoContent ∧
      entryFor (detachResource t (some device)).2 device.DevID
        = some { e with HostPort := "" }) ∧
    (∀ e, entryFor t device.DevID = some e → e.HostPort = "" →
      detachResource t (some device) = (StatusNoContent, t)) ∧
    detachResource (detachResource t (some device)).2 (some device)
      = detachResource t (some device) := by
  rcases entryFor_isSome_or_unknown t device.DevID with ⟨e, he⟩ | hun
  · have hk := detachLoop_eq_rebind device t e he
    have hnot : ¬ ∀ x ∈ t, x.DevID ≠ device.DevID := by
      intro hall
      rw [(entryFor_eq_none_iff t device.DevID).2 hall] at he
      cases he
    have he2 := entryFor_rebind device.DevID "" t e he
    refine ⟨?_, ?_, ?_, ?_, ?_⟩
    · simp [detachResource, hk, hnot, StatusNoContent, StatusNotFound]
    · intro hall
      exact absurd hall hnot
    · intro e2 he2x
      rw [he] at he2x
      cases he2x
      simp [detachResource, hk, he2]
    · intro e2 he2x h0
      rw [he] at he2x
      cases he2x
      have hfix : rebind device.DevID "" t = t := by
        clear hk hnot he2
        induction t with
        | nil => rfl
        | cons dev rest ih =>
          by_cases hd : dev.DevID = device.DevID
          · rw [entryFor_cons_eq dev rest _ hd] at he
            cases he
            have hself : ({ e with HostPort := "" } : Device) = e := by
              cases e
              simp_all
            rw [rebind, if_pos hd, hself]
          · rw [entryFor_cons_ne dev rest _ hd] at he
            simp [rebind, hd, ih he]
      simp [detachResource, hk, hfix]
    · simp only [detachResource, hk]
      rw [detachLoop_eq_rebind device _ _ he2, rebind_rebind]
  · have hu := detachLoop_unknown device t hun
    refine ⟨?_, ?_, ?_, ?_, ?_⟩
    · simp [detachResource, hu]
      exact hun
    · intro _
      simp [detachResource, hu]
    · intro e he
      rw [(entryFor_eq_none_iff t device.DevID).2 hun] at he
      cases he
    · intro e he
      rw [(entryFor_eq_none_iff t device.DevID).2 hun] at he
      cases he
    · simp [detachResource, hu]

/-- C2, at a concrete table: detaching the attached device `a`. -/
theorem detachResource_contract_witness :
    (detachResource [⟨"a", "ua", "p1"⟩, ⟨"b", "ub", ""⟩] (some ⟨"a", "", ""⟩)).1
      = StatusNoContent ∧
    entryFor
      (detachResource [⟨"a", "ua", "p1"⟩, ⟨"b", "ub", ""⟩] (some ⟨"a", "", ""⟩)).2 "a"
      = some ⟨"a", "ua", ""⟩ :=
  (detachResource_contract [⟨"a", "ua", "p1"⟩, ⟨"b", "ub", ""⟩] ⟨"a", "", ""⟩).2.2.1
    ⟨"a", "ua", "p1"⟩ (by decide)

/-! ## Registry: attach, detach, attach again -/

/-- C3: on a table where d is present and unattached, with p and p' non-empty, the
sequence `attach(d, p)`, `detach(d)`, `attach(d, p')` answers 204 three times and
ends with d bound to p' (and to p only if p = p'); the table keeps its length and
every entry of another device is exactly what it was before the sequence. -/
theorem attach_detach_attach (t : List Device) (d u1 u2 u3 p p' : String) (e : Device)
    (he : entryFor t d = some e) (h0 : e.HostPort = "") (hp : p ≠ "") (hp' : p' ≠ "") :
    (attachResource t (some ⟨d, u1, p⟩)).1 = StatusNoContent ∧
    (detachResource (attachResource t (some ⟨d, u1, p⟩)).2 (some ⟨d, u2, ""⟩)).1
      = StatusNoContent ∧
    (attachResource
      (detachResource (attachResource t (some ⟨d, u1, p⟩)).2 (some ⟨d, u2, ""⟩)).2
      (some ⟨d, u3, p'⟩)).1 = StatusNoContent ∧
    (∃ e', entryFor (attachResource
      (detachResource (attachResource t (some ⟨d, u1, p⟩)).2 (some ⟨d, u2, ""⟩)).2
      (some ⟨d, u3, p'⟩)).2 d = some e' ∧ e' = { e with HostPort := p' } ∧
      (e'.HostPort = p → p = p')) ∧
    (attachResource
      (detachResource (attachResource t (some ⟨d, u1, p⟩)).2 (some ⟨d, u2, ""⟩)).2
      (some ⟨d, u3, p'⟩)).2.length = t.length ∧
    (∀ (i : Nat) (x : Device), t[i]? = some x → x.DevID ≠ d →
      (attachResource
        (detachResource (attachResource t (some ⟨d, u1, p⟩)).2 (some ⟨d, u2, ""⟩)).2
        (some ⟨d, u3, p'⟩)).2[i]? = some x) := by
  have s1 := attachLoop_eq_rebind ⟨d, u1, p⟩ t e he h0 hp
  have e1 := entryFor_rebind d p t e he
  have s2 := detachLoop_eq_rebind ⟨d, u2, ""⟩ (rebind d p t) _ e1
  have e2 := entryFor_rebind d "" (rebind d p t) _ e1
  have s3 := attachLoop_eq_rebind ⟨d, u3, p'⟩ (rebind d "" (rebind d p t)) _ e2 rfl hp'
  have e3 := entryFor_rebind d p' (rebind d "" (rebind d p t)) _ e2
  simp only [attachResource, detachResource, s1, s2, s3]
  refine ⟨?_, ?_, ?_, ⟨_, e3, rfl, fun h => h.symm⟩, ?_, ?_⟩
  · trivial
  · trivial
  · trivial
  · simp [rebind_length]
  · intro i x hx hd
    exact rebind_getElem?_other d p' _ i x
      (rebind_getElem?_other d "" _ i x (rebind_getElem?_other d p t i x hx hd) hd) hd

/-- C3, at a concrete table: device `b` unattached between two attached ones. -/
theorem attach_detach_attach_witness :
    (attachResource
      (detachResource
        (attachResource [⟨"a", "ua", "p1"⟩, ⟨"b", "ub", ""⟩, ⟨"c", "uc", "p1"⟩]
          (some ⟨"b", "", "p1"⟩)).2
        (some ⟨"b", "", ""⟩)).2
      (some ⟨"b", "", "p2"⟩)).1 = StatusNoContent :=
  (attach_detach_attach [⟨"a", "ua", "p1"⟩, ⟨"b", "ub", ""⟩, ⟨"c", "uc", "p1"⟩]
    "b" "" "" "" "p1" "p2" ⟨"b", "ub", ""⟩ (by decide) rfl (by decide) (by decide)).2.2.1

/-! ## Registry: identity fields are frozen -/

/-- C5: after any finite sequence of attach and detach requests, successful or
failing, the list returned by `getResources` has the same `DevID` and `UUID` at
every position as before, hence the same length and order; only `HostPort` fields
can differ. -/
theorem serveAll_identity (t : List Device) (reqs : List Request) :
    (getResources (serveAll t reqs)).map (fun dev => (dev.DevID, dev.UUID))
      = (getResources t).map (fun dev => (dev.DevID, dev.UUID)) ∧
    (getResources (serveAll t reqs)).length = (getResources t).length := by
  have key : ∀ (rs : List Request) (t : List Device),
      (serveAll t rs).map (fun dev => (dev.DevID, dev.UUID))
        = t.map (fun dev => (dev.DevID, dev.UUID)) := by
    intro rs
    induction rs with
    | nil => intro t; rfl
    | cons r rs ih =>
      intro t
      simp only [serveAll]
      rw [ih, serve_identity]
  refine ⟨key reqs t, ?_⟩
  have := congrArg List.length (key reqs t)
  simpa [getResources] using this

/-! ## Visibility of a binding through the adapter's listing -/

theorem mem_selectLocal (hostPort : String) (t : List Device) (pair : DevicePair) :
    pair ∈ selectLocal hostPort t ↔
      ∃ dev ∈ t, dev.HostPort = hostPort ∧ pair = ⟨dev.DevID, dev.UUID⟩ := by
  induction t with
  | nil => simp [selectLocal]
  | cons res rest ih =>
    by_cases h : res.HostPort = hostPort
    · simp [selectLocal, h, ih]
    · simp [selectLocal, h, ih]

theorem entryFor_mem (t : List Device) (d : String) (e : Device)
    (he : entryFor t d = some e) : e ∈ t ∧ e.DevID = d := by
  induction t with
  | nil => simp [entryFor] at he
  | cons dev rest ih =>
    by_cases hd : dev.DevID = d
    · rw [entryFor_cons_eq dev rest _ hd] at he
      cases he
      exact ⟨List.mem_cons_self _ _, hd⟩
    · rw [entryFor_cons_ne dev rest _ hd] at he
      exact ⟨List.mem_cons_of_mem _ (ih he).1, (ih he).2⟩

theorem attachLoop_success_inv (device : Device) (t : List Device)
    (h : (attachLoop device t).1 = StatusNoContent) :
    ∃ e, entryFor t device.DevID = some e ∧ e.HostPort = "" ∧ device.HostPort ≠ "" := by
  rcases entryFor_isSome_or_unknown t device.DevID with ⟨e, he⟩ | hun
  · refine ⟨e, he, ?_⟩
    by_cases h1 : e.HostPort = ""
    · by_cases h2 : device.HostPort = ""
      · rw [attachLoop_refused device t e he (Or.inr h2)] at h
        simp [StatusBadRequest, StatusNoContent] at h
      · exact ⟨h1, h2⟩
    · rw [attachLoop_refused device t e he (Or.inl h1)] at h
      simp [StatusBadRequest, StatusNoContent] at h
  · rw [attachLoop_unknown device t hun] at h
    simp [StatusNotFound, StatusNoContent] at h

theorem detachLoop_success_inv (device : Device) (t : List Device)
    (h : (detachLoop device t).1 = StatusNoContent) :
    ∃ e, entryFor t device.DevID = some e := by
  rcases entryFor_isSome_or_unknown t device.DevID with hk | hun
  · exact hk
  · rw [detachLoop_unknown device t hun] at h
    simp [StatusNotFound, StatusNoContent] at h

theorem rebind_port_of_nodup (d q : String) (t : List Device)
    (hnd : (t.map Device.DevID).Nodup) (dev : Device)
    (hmem : dev ∈ rebind d q t) (hd : dev.DevID = d) : dev.HostPort = q := by
  induction t with
  | nil => simp [rebind] at hmem
  | cons x rest ih =>
    rw [List.map_cons, List.nodup_cons] at hnd
    by_cases hx : x.DevID = d
    · simp only [rebind, if_pos hx, List.mem_cons] at hmem
      rcases hmem with rfl | hrest
      · rfl
      · exact absurd (List.mem_map_of_mem Device.DevID hrest) (by rw [hd, ← hx]; exact hnd.1)
    · simp only [rebind, if_neg hx, List.mem_cons] at hmem
      rcases hmem with rfl | hrest
      · exact absurd hd hx
      · exact ih hnd.2 hrest

/-- C4, as stated, fails on a table that carries a `DevID` twice: `detach(a)` answers
204 and clears only the first entry, so the listing for port `p2` still shows a
device with `DevID` a. -/
theorem visibility_after_detach_counterexample :
    (detachResource [⟨"a", "u1", "p1"⟩, ⟨"a", "u2", "p2"⟩] (some ⟨"a", "", ""⟩)).1
      = StatusNoContent ∧
    "p2" ≠ "" ∧
    listByPort "p2"
      (detachResource [⟨"a", "u1", "p1"⟩, ⟨"a", "u2", "p2"⟩] (some ⟨"a", "", ""⟩)).2
      = Except.ok [⟨"a", "u2"⟩] := by
  refine ⟨by decide, by decide, ?_⟩
  rfl

/-- C4 (amended): after a successful attach of d to p, the adapter's listing for
port p includes d, on every table; after a successful detach of d on a table whose
`DevID`s are pairwise distinct, the listing for any non-empty port contains no entry
with `DevID` d. -/
theorem visibility_after_attach_detach (t : List Device) (device : Device) :
    ((attachResource t (some device)).1 = StatusNoContent →
      ∃ devices,
        listByPort device.HostPort (attachResource t (some device)).2 = Except.ok devices ∧
        ∃ pair ∈ devices, pair.DevID = device.DevID) ∧
    ((t.map Device.DevID).Nodup →
      (detachResource t (some device)).1 = StatusNoContent →
      ∀ hostPort : String, hostPort ≠ "" →
        ∃ devices,
          listByPort hostPort (detachResource t (some device)).2 = Except.ok devices ∧
          ∀ pair ∈ devices, pair.DevID ≠ device.DevID) := by
  constructor
  · intro h
    obtain ⟨e, he, h1, h2⟩ := attachLoop_success_inv device t h
    have hb := attachLoop_bound device t e he h1 h2
    have hm := entryFor_mem _ _ _ hb.2
    refine ⟨_, rfl, ⟨device.DevID, e.UUID⟩, ?_, rfl⟩
    rw [mem_selectLocal]
    have hid : e.DevID = device.DevID := hm.2
    exact ⟨_, hm.1, rfl, by simp [hid]⟩
  · intro hnd h hostPort hne
    obtain ⟨e, he⟩ := detachLoop_success_inv device t h
    refine ⟨_, rfl, ?_⟩
    intro pair hpair hd
    rw [getResources, mem_selectLocal] at hpair
    obtain ⟨dev, hmem, hport, rfl⟩ := hpair
    simp only [detachResource, detachLoop_eq_rebind device t e he] at hmem
    have := rebind_port_of_nodup device.DevID "" t hnd dev hmem hd
    have hport2 : dev.HostPort = hostPort := hport
    exact hne (hport2.symm.trans this)

/-- C4 (amended), at a concrete table with distinct `DevID`s: after detaching `a`,
the listing for `p1` no longer shows it. -/
theorem visibility_after_attach_detach_witness :
    ∃ devices,
      listByPort "p1"
        (detachResource [⟨"a", "ua", "p1"⟩, ⟨"b", "ub", "p1"⟩] (some ⟨"a", "", ""⟩)).2
        = Except.ok devices ∧
      ∀ pair ∈ devices, pair.DevID ≠ "a" :=
  (visibility_after_attach_detach [⟨"a", "ua", "p1"⟩, ⟨"b", "ub", "p1"⟩] ⟨"a", "", ""⟩).2
    (by decide) (by decide) "p1" (by decide)

/-! ## Bootstrap: splitting a line at commas -/

theorem splitOn_of_not_mem (sep : Char) (s : List Char) (h : sep ∉ s) :
    splitOn sep s = [s] := by
  induction s with
  | nil => rfl
  | cons c cs ih =>
    have hc : c ≠ sep := fun hc => h (hc ▸ List.mem_cons_self _ _)
    have hcs : sep ∉ cs := fun hm => h (List.mem_cons_of_mem _ hm)
    simp [splitOn, hc, ih hcs]

theorem splitOn_append_sep (sep : Char) (a b : List Char) (h : sep ∉ a) :
    splitOn sep (a ++ sep :: b) = a :: splitOn sep b := by
  induction a with
  | nil => simp [splitOn]
  | cons c cs ih =>
    have hc : c ≠ sep := fun hc => h (hc ▸ List.mem_cons_self _ _)
    have hcs : sep ∉ cs := fun hm => h (List.mem_cons_of_mem _ hm)
    simp [splitOn, hc, ih hcs]

theorem splitOn_shape (sep : Char) (s : List Char) :
    ∃ a rest, splitOn sep s = a :: rest ∧ sep ∉ a ∧
      ((rest = [] ∧ s = a) ∨ (∃ b, s = a ++ sep :: b ∧ rest = splitOn sep b)) := by
  induction s with
  | nil => exact ⟨[], [], rfl, by simp, Or.inl ⟨rfl, rfl⟩⟩
  | cons c cs ih =>
    by_cases hc : c = sep
    · subst hc
      exact ⟨[], splitOn c cs, by simp [splitOn], by simp, Or.inr ⟨cs, rfl, rfl⟩⟩
    · obtain ⟨a, rest, hsp, hna, hcase⟩ := ih
      refine ⟨c :: a, rest, by simp [splitOn, hc, hsp], ?_, ?_⟩
      · intro hm
        rcases List.mem_cons.1 hm with h | h
        · exact hc h.symm
        · exact hna h
      · rcases hcase with ⟨h1, h2⟩ | ⟨b, h1, h2⟩
        · exact Or.inl ⟨h1, by rw [h2]⟩
        · exact Or.inr ⟨b, by rw [h1]; rfl, h2⟩

theorem splitOn_ne_nil (sep : Char) (s : List Char) : splitOn sep s ≠ [] := by
  obtain ⟨a, rest, h, _⟩ := splitOn_shape sep s
  simp [h]

theorem splitOn_pair (sep : Char) (s a b : List Char) (h : splitOn sep s = [a, b]) :
    s = a ++ sep :: b ∧ sep ∉ a ∧ sep ∉ b := by
  obtain ⟨a', rest, hsp, hna, hcase⟩ := splitOn_shape sep s
  rw [h] at hsp
  simp only [List.cons.injEq] at hsp
  obtain ⟨rfl, rfl⟩ := hsp
  rcases hcase with ⟨h1, _⟩ | ⟨b', h1, h2⟩
  · cases h1
  · obtain ⟨a'', rest'', hsp', hna', hcase'⟩ := splitOn_shape sep b'
    rw [← h2] at hsp'
    simp only [List.cons.injEq] at hsp'
    obtain ⟨rfl, hrest⟩ := hsp'
    rcases hcase' with ⟨_, h4⟩ | ⟨b'', _, h4⟩
    · subst h4
      exact ⟨h1, hna, hna'⟩
    · exact absurd (hrest ▸ h4).symm (splitOn_ne_nil sep b'')

theorem Split_of_fields (d h : String) (hd : ',' ∉ d.data) (hh : ',' ∉ h.data) :
    Split (d ++ "," ++ h) ',' = [d, h] := by
  have e : (d ++ "," ++ h).data = d.data ++ ',' :: h.data := by
    simp [String.data_append]
  simp [Split, e, splitOn_append_sep ',' _ _ hd, splitOn_of_not_mem ',' _ hh]

theorem Split_length_two (s : String) (h : (Split s ',').length = 2) :
    ∃ d p : String, ',' ∉ d.data ∧ ',' ∉ p.data ∧ s = d ++ "," ++ p ∧
      Split s ',' = [d, p] := by
  have hl : (splitOn ',' s.data).length = 2 := by simpa [Split] using h
  obtain ⟨a, b, hab⟩ := List.length_eq_two.1 hl
  obtain ⟨h1, h2, h3⟩ := splitOn_pair ',' s.data a b hab
  refine ⟨String.mk a, String.mk b, h2, h3, ?_, ?_⟩
  · apply String.ext
    simp [String.data_append, h1]
  · simp [Split, hab]

theorem Split_length_two_iff (line : String) :
    (Split (TrimSpace line) ',').length = 2 ↔ HasShape line := by
  constructor
  · intro h
    obtain ⟨d, p, h1, h2, h3, _⟩ := Split_length_two _ h
    exact ⟨d, p, h1, h2, h3⟩
  · rintro ⟨d, p, h1, h2, h3⟩
    rw [h3, Split_of_fields d p h1 h2]
    rfl

/-! ## Bootstrap: the scanner and the parsing loop -/

theorem scanLines_of_short (raws : List (List Char))
    (h : ∀ raw ∈ raws, byteLen raw < MaxScanTokenSize) :
    scanLines raws = (raws.map (fun raw => String.mk (dropCR raw)), none) := by
  induction raws with
  | nil => rfl
  | cons raw more ih =>
    have h1 : ¬ MaxScanTokenSize ≤ byteLen raw :=
      Nat.not_le.2 (h raw (List.mem_cons_self _ _))
    have h2 := ih (fun r hr => h r (List.mem_cons_of_mem _ hr))
    simp [scanLines, h1, h2]

theorem scanLines_of_long (raws : List (List Char))
    (h : ∃ raw ∈ raws, MaxScanTokenSize ≤ byteLen raw) :
    (scanLines raws).2 = some ParseError.tokenTooLong := by
  induction raws with
  | nil => simp at h
  | cons raw more ih =>
    by_cases h1 : MaxScanTokenSize ≤ byteLen raw
    · simp [scanLines, h1]
    · obtain ⟨r, hr, hlong⟩ := h
      rcases List.mem_cons.1 hr with rfl | hr'
      · exact absurd hlong h1
      · simp [scanLines, h1, ih ⟨r, hr', hlong⟩]

theorem parseLoop_ok_iff (uuidNew : Nat → String) (lines : List String) :
    ∀ (n : Nat) (reg : Registry),
      (parseLoop uuidNew n lines reg).1 = none ↔ ∀ line ∈ lines, HasShape line := by
  induction lines with
  | nil => intro n reg; simp [parseLoop]
  | cons text more ih =>
    intro n reg
    by_cases h : (Split (TrimSpace text) ',').length = 2
    · have hs : HasShape text := (Split_length_two_iff text).1 h
      simp [parseLoop, h, ih, hs]
    · have hs : ¬ HasShape text := fun hs => h ((Split_length_two_iff text).2 hs)
      simp [parseLoop, h, hs]

theorem parseLoop_table (uuidNew : Nat → String) (lines : List String) :
    ∀ (n : Nat) (reg : Registry), (parseLoop uuidNew n lines reg).1 = none →
      ∃ devs, (parseLoop uuidNew n lines reg).2.deviceLookUpTable
          = reg.deviceLookUpTable ++ devs ∧
        List.Forall₂ (fun line dev => ',' ∉ dev.DevID.data ∧ ',' ∉ dev.HostPort.data ∧
          TrimSpace line = dev.DevID ++ "," ++ dev.HostPort) lines devs := by
  induction lines with
  | nil => intro n reg _; exact ⟨[], by simp [parseLoop], List.Forall₂.nil⟩
  | cons text more ih =>
    intro n reg hok
    by_cases h : (Split (TrimSpace text) ',').length = 2
    · obtain ⟨d, p, h1, h2, h3, h4⟩ := Split_length_two _ h
      simp only [parseLoop, h, ne_eq, not_true_eq_false, if_false] at hok ⊢
      obtain ⟨devs, hd, hf⟩ := ih _ _ hok
      refine ⟨⟨d, uuidNew (n + 1), p⟩ :: devs, ?_, List.Forall₂.cons ⟨h1, h2, h3⟩ hf⟩
      rw [hd, h4]
      simp
    · simp [parseLoop, h] at hok

theorem parseResourceConfig_eq_of_short (uuidNew : Nat → String) (text : String)
    (reg : Registry) (h : ∀ raw ∈ rawLines text.data, byteLen raw < MaxScanTokenSize) :
    parseResourceConfig uuidNew (some text) reg
      = parseLoop uuidNew 0 (manifestLines text) reg := by
  have hs := scanLines_of_short _ h
  simp only [parseResourceConfig, hs, manifestLines]
  cases hres : parseLoop uuidNew 0
      (List.map (fun raw => String.mk (dropCR raw)) (rawLines text.data)) reg with
  | mk err reg' =>
    cases err <;> rfl

theorem parseResourceConfig_of_long (uuidNew : Nat → String) (text : String)
    (reg : Registry) (h : ∃ raw ∈ rawLines text.data, MaxScanTokenSize ≤ byteLen raw) :
    (parseResourceConfig uuidNew (some text) reg).1 ≠ none := by
  have hs := scanLines_of_long _ h
  simp only [parseResourceConfig]
  cases hres : parseLoop uuidNew 0 (scanLines (rawLines text.data)).1 reg with
  | mk err reg' =>
    cases err with
    | none => simp [hs]
    | some e => simp

/-! ## Bootstrap: the manifest contract -/

/-- C6 (amended): on a manifest whose lines are all shorter than 65536 bytes,
`parseResourceConfig` succeeds exactly when every line has the shape
`DevID,HostPort`, and then the table holds one device per line, in line order, with
that `DevID` and `HostPort`; a manifest with a line of 65536 bytes or more is
refused whatever its shape.  The manifest `a,p1 / b, / c,p1` yields the three
entries `(a,p1)`, `(b,"")`, `(c,p1)`. -/
theorem parseResourceConfig_manifest (uuidNew : Nat → String) :
    (∀ text : String, (∀ raw ∈ rawLines text.data, byteLen raw < MaxScanTokenSize) →
      ((parseResourceConfig uuidNew (some text) ⟨[], []⟩).1 = none ↔
        ∀ line ∈ manifestLines text, HasShape line) ∧
      ((parseResourceConfig uuidNew (some text) ⟨[], []⟩).1 = none →
        List.Forall₂ (fun line dev => ',' ∉ dev.DevID.data ∧ ',' ∉ dev.HostPort.data ∧
            TrimSpace line = dev.DevID ++ "," ++ dev.HostPort)
          (manifestLines text)
          (parseResourceConfig uuidNew (some text) ⟨[], []⟩).2.deviceLookUpTable)) ∧
    (∀ text : String, (∃ raw ∈ rawLines text.data, MaxScanTokenSize ≤ byteLen raw) →
      (parseResourceConfig uuidNew (some text) ⟨[], []⟩).1 ≠ none) ∧
    (parseResourceConfig uuidNew (some "a,p1\nb,\nc,p1") ⟨[], []⟩).1 = none ∧
    (parseResourceConfig uuidNew (some "a,p1\nb,\nc,p1") ⟨[], []⟩).2.deviceLookUpTable
      = [⟨"a", uuidNew 1, "p1"⟩, ⟨"b", uuidNew 2, ""⟩, ⟨"c", uuidNew 3, "p1"⟩] := by
  refine ⟨?_, ?_, ?_, ?_⟩
  · intro text hshort
    rw [parseResourceConfig_eq_of_short uuidNew text _ hshort]
    refine ⟨parseLoop_ok_iff uuidNew _ 0 _, ?_⟩
    intro hok
    obtain ⟨devs, hd, hf⟩ := parseLoop_table uuidNew _ 0 _ hok
    rw [hd]
    simpa using hf
  · intro text hlong
    exact parseResourceConfig_of_long uuidNew text _ hlong
  · rfl
  · rfl

/-- C6 (amended), at the three-line manifest: all lines are short, so success and
shape coincide. -/
theorem parseResourceConfig_manifest_witness :
    (parseResourceConfig (fun _ => "") (some "a,p1\nb,\nc,p1") ⟨[], []⟩).1 = none ↔
      ∀ line ∈ manifestLines "a,p1\nb,\nc,p1", HasShape line :=
  ((parseResourceConfig_manifest (fun _ => "")).1 "a,p1\nb,\nc,p1" (by decide)).1

theorem rawLines_of_no_newline (s : List Char) (hne : s ≠ []) (h : '\n' ∉ s) :
    rawLines s = [s] := by
  induction s with
  | nil => exact absurd rfl hne
  | cons c cs ih =>
    have hc : c ≠ '\n' := fun hc => h (hc ▸ List.mem_cons_self _ _)
    have hcs : '\n' ∉ cs := fun hm => h (List.mem_cons_of_mem _ hm)
    cases cs with
    | nil => simp [rawLines, hc]
    | cons c2 cs2 => rw [rawLines, if_neg hc, ih (by simp) hcs]

theorem long_line_raw (n : Nat) :
    rawLines ('a' :: ',' :: List.replicate n 'p') = ['a' :: ',' :: List.replicate n 'p'] := by
  apply rawLines_of_no_newline _ (by simp)
  intro hm
  rcases List.mem_cons.1 hm with h | hm
  · exact absurd h (by decide)
  · rcases List.mem_cons.1 hm with h | hm
    · exact absurd h (by decide)
    · exact absurd (List.eq_of_mem_replicate hm) (by decide)

theorem long_line_bytes (n : Nat) :
    byteLen ('a' :: ',' :: List.replicate n 'p') = n + 2 := by
  have h1 : Char.utf8Size 'a' = 1 := by decide
  have h2 : Char.utf8Size ',' = 1 := by decide
  have h3 : Char.utf8Size 'p' = 1 := by decide
  simp only [byteLen, List.map_cons, List.map_replicate, List.sum_cons, List.sum_replicate,
    h1, h2, h3]
  simp
  omega

theorem long_line_shape (n : Nat) :
    HasShape (String.mk (dropCR ('a' :: ',' :: List.replicate (n + 1) 'p'))) := by
  have hsplit : 'a' :: ',' :: List.replicate (n + 1) 'p'
      = ('a' :: ',' :: List.replicate n 'p') ++ ['p'] := by
    rw [List.replicate_succ']
    rfl
  have hp : ¬ (isSpace 'p' = true) := by decide
  have ha : ¬ (isSpace 'a' = true) := by decide
  have hcr : dropCR ('a' :: ',' :: List.replicate (n + 1) 'p')
      = 'a' :: ',' :: List.replicate (n + 1) 'p' := by
    have hl : (('a' :: ',' :: List.replicate n 'p') ++ ['p']).getLast? = some 'p' :=
      List.getLast?_concat _
    have hne : (some 'p' : Option Char) ≠ some '\r' := by decide
    rw [dropCR, hsplit, hl, if_neg hne]
  have htrim : TrimSpace (String.mk ('a' :: ',' :: List.replicate (n + 1) 'p'))
      = String.mk ('a' :: ',' :: List.replicate (n + 1) 'p') := by
    unfold TrimSpace
    rw [List.dropWhile_cons_of_neg ha, hsplit, List.rdropWhile_concat_neg _ _ _ hp]
  refine ⟨"a", String.mk (List.replicate (n + 1) 'p'), by decide, ?_, ?_⟩
  · intro hm
    exact absurd (List.eq_of_mem_replicate hm) (by decide)
  · rw [hcr, htrim]
    apply String.ext
    simp [String.data_append]

/-- C6, as stated, fails on a manifest whose single line `a,pp…p` has the shape
`DevID,HostPort` but is 65538 bytes long: the scanner stops with `ErrTooLong` and
`parseResourceConfig` returns that error. -/
theorem parseResourceConfig_long_line_counterexample :
    (∀ line ∈ manifestLines longManifest, HasShape line) ∧
    (parseResourceConfig (fun _ => "") (some longManifest) ⟨[], []⟩).1
      = some ParseError.tokenTooLong := by
  have hraw : rawLines longManifest.data = ['a' :: ',' :: List.replicate (65535 + 1) 'p'] :=
    long_line_raw (65535 + 1)
  have hbytes : byteLen ('a' :: ',' :: List.replicate (65535 + 1) 'p') = 65535 + 1 + 2 :=
    long_line_bytes (65535 + 1)
  constructor
  · intro line hline
    rw [manifestLines, hraw, List.map_cons, List.map_nil, List.mem_singleton] at hline
    rw [hline]
    exact long_line_shape 65535
  · have hlong : MaxScanTokenSize ≤ byteLen ('a' :: ',' :: List.replicate (65535 + 1) 'p') := by
      rw [hbytes]
      decide
    rw [parseResourceConfig, hraw, scanLines, if_pos hlong]
    rfl

/-! ## Scheduler: `int64` arithmetic -/

theorem wrap64_of_range (x : Int) (h1 : MinInt64 ≤ x) (h2 : x ≤ MaxInt64) :
    wrap64 x = x := by
  unfold MinInt64 at h1
  unfold MaxInt64 at h2
  unfold wrap64
  omega

theorem wrap64_range (x : Int) : MinInt64 ≤ wrap64 x ∧ wrap64 x ≤ MaxInt64 := by
  unfold MinInt64 MaxInt64 wrap64
  omega

theorem wrap64_add_wrap64 (a b : Int) : wrap64 (a + wrap64 b) = wrap64 (a + b) := by
  unfold wrap64
  omega

theorem wrap64_wrap64_add (a b : Int) : wrap64 (wrap64 a + b) = wrap64 (a + b) := by
  unfold wrap64
  omega

theorem totalFalconLoop_eq (nodeinfos : List NodeInfo) :
    ∀ acc : Int, totalFalconLoop nodeinfos (wrap64 acc)
      = wrap64 (acc + freeSupply nodeinfos) := by
  induction nodeinfos with
  | nil => intro acc; simp [totalFalconLoop, freeSupply]
  | cons nodeinfo rest ih =>
    intro acc
    have hstep : add64 (wrap64 acc) (sub64 nodeinfo.Allocatable nodeinfo.Requested)
        = wrap64 (acc + (nodeinfo.Allocatable - nodeinfo.Requested)) := by
      unfold add64 sub64
      rw [wrap64_add_wrap64, wrap64_wrap64_add]
    rw [totalFalconLoop, hstep, ih]
    simp only [freeSupply, List.map_cons, List.sum_cons]
    rw [add_assoc]

theorem totalFalconLoop_zero (nodeinfos : List NodeInfo) :
    totalFalconLoop nodeinfos 0 = wrap64 (freeSupply nodeinfos) := by
  have h := totalFalconLoop_eq nodeinfos 0
  have h0 : wrap64 0 = 0 := by decide
  rw [h0, zero_add] at h
  exact h

/-! ## Scheduler: PreFilter -/

/-- C7, as stated, fails when the sum leaves the `int64` range: with two nodes of
2^62 free accelerators each, T = 2^63 and a request of 1 is not above T, yet the
accumulated `totalFalcon` has wrapped to -2^63 and `PreFilter` rejects the pod. -/
theorem PreFilter_overflow_counterexample :
    freeSupply [⟨4611686018427387904, 0⟩, ⟨4611686018427387904, 0⟩]
      = 9223372036854775808 ∧
    ¬ ((1 : Int) > freeSupply [⟨4611686018427387904, 0⟩, ⟨4611686018427387904, 0⟩]) ∧
    PreFilter (fun _ => none) 1 [⟨4611686018427387904, 0⟩, ⟨4611686018427387904, 0⟩]
      = Code.Unschedulable := by
  refine ⟨by decide, by decide, by decide⟩

/-- C7 (amended): when the exact cluster-wide free supply T, the sum over the node
snapshots of allocatable minus requested, lies in the `int64` range, `PreFilter`
returns Unschedulable exactly when R > T; otherwise it returns Success when the
annotation patch succeeds and Error when it fails.  With T = 1 and R = 2 the pod is
rejected. -/
theorem PreFilter_rejects_iff (patchPodAnnotations : List (String × String) → Option String)
    (requiredFalcon : Int) (nodeinfos : List NodeInfo)
    (hlo : MinInt64 ≤ freeSupply nodeinfos) (hhi : freeSupply nodeinfos ≤ MaxInt64) :
    (PreFilter patchPodAnnotations requiredFalcon nodeinfos = Code.Unschedulable ↔
      requiredFalcon > freeSupply nodeinfos) ∧
    (¬ requiredFalcon > freeSupply nodeinfos →
      PreFilter patchPodAnnotations requiredFalcon nodeinfos
        = (if (patchPodAnnotations
              [("use_falcon", if requiredFalcon = 0 then "false" else "true")]).isSome
            then Code.Error else Code.Success)) ∧
    PreFilter patchPodAnnotations 2 [⟨1, 0⟩] = Code.Unschedulable := by
  have hT : totalFalconLoop nodeinfos 0 = freeSupply nodeinfos := by
    rw [totalFalconLoop_zero, wrap64_of_range _ hlo hhi]
  refine ⟨?_, ?_, ?_⟩
  · unfold PreFilter
    rw [hT]
    by_cases h : freeSupply nodeinfos < requiredFalcon
    · simp [h]
    · simp only [if_neg h, gt_iff_lt, h, iff_false]
      cases patchPodAnnotations
        [("use_falcon", if requiredFalcon = 0 then "false" else "true")] <;> simp
  · intro h
    unfold PreFilter
    rw [hT]
    have h' : ¬ freeSupply nodeinfos < requiredFalcon := h
    rw [if_neg h']
    cases patchPodAnnotations
      [("use_falcon", if requiredFalcon = 0 then "false" else "true")] <;> simp
  · have hlt : totalFalconLoop [⟨1, 0⟩] 0 < (2 : Int) := by decide
    unfold PreFilter
    rw [if_pos hlt]

/-- C7 (amended), at a cluster whose total free supply is 3 with a request of 2. -/
theorem PreFilter_rejects_iff_witness :
    PreFilter (fun _ => none) 2 [⟨2, 1⟩, ⟨4, 2⟩] = Code.Unschedulable ↔
      (2 : Int) > freeSupply [⟨2, 1⟩, ⟨4, 2⟩] :=
  (PreFilter_rejects_iff (fun _ => none) 2 [⟨2, 1⟩, ⟨4, 2⟩] (by decide) (by decide)).1

/-! ## Scheduler: Score -/

theorem quo64_of_nonneg (a b : Int) (ha : 0 ≤ a) (hb : 0 < b) (hmax : a ≤ MaxInt64) :
    quo64 a b = a / b := by
  unfold quo64
  rw [Int.tdiv_eq_ediv ha (le_of_lt hb)]
  have h0 : 0 ≤ a / b := Int.ediv_nonneg ha (le_of_lt hb)
  have h1 : a / b ≤ a := Int.ediv_le_self b ha
  apply wrap64_of_range
  · unfold MinInt64
    omega
  · omega

/-- C8, as stated, fails when R·100 leaves the `int64` range: for R = 2^57 and a
node with free supply L = 2^58 > R the exact value of ⌊R·100 / L⌋ is 50, but the
product wraps and `Score` returns -14. -/
theorem Score_overflow_counterexample :
    (0 : Int) ≤ 144115188075855872 ∧
    localFalcon ⟨288230376151711744, 0⟩ = 288230376151711744 ∧
    localFalcon ⟨288230376151711744, 0⟩ > 144115188075855872 ∧
    (144115188075855872 : Int) * 100 / 288230376151711744 = 50 ∧
    Score (some ⟨288230376151711744, 0⟩) 144115188075855872
      = some (-14, Code.Success) := by
  refine ⟨by decide, by decide, by decide, by decide, by decide⟩

/-- C8 (amended): for a request R ≥ 0 and a node with free supply L, `Score` never
divides by zero; it returns ⌊R·100 / L⌋ when L > R and R·100 fits in an `int64`,
exactly 100 when L = R, and the negative number L − R when L < R and L − R is not
below the `int64` minimum. -/
theorem Score_cases (info : NodeInfo) (requiredFalcon : Int) (hR : 0 ≤ requiredFalcon) :
    Score (some info) requiredFalcon ≠ none ∧
    (localFalcon info > requiredFalcon → requiredFalcon * 100 ≤ MaxInt64 →
      Score (some info) requiredFalcon
        = some (requiredFalcon * 100 / localFalcon info, Code.Success)) ∧
    (localFalcon info = requiredFalcon →
      Score (some info) requiredFalcon = some (100, Code.Success)) ∧
    (localFalcon info < requiredFalcon → MinInt64 ≤ localFalcon info - requiredFalcon →
      Score (some info) requiredFalcon
        = some (localFalcon info - requiredFalcon, Code.Success) ∧
      localFalcon info - requiredFalcon < 0) := by
  refine ⟨?_, ?_, ?_, ?_⟩
  · unfold Score
    by_cases h1 : localFalcon info > requiredFalcon
    · have h0 : localFalcon info ≠ 0 := by omega
      simp [h1, h0]
    · by_cases h2 : localFalcon info = requiredFalcon
      · simp [h2]
      · simp [h1, h2]
  · intro h1 hmul
    have h0 : localFalcon info ≠ 0 := by omega
    have hpos : 0 < localFalcon info := by omega
    have hm : mul64 requiredFalcon 100 = requiredFalcon * 100 := by
      unfold mul64
      apply wrap64_of_range _ _ hmul
      unfold MinInt64
      omega
    unfold Score
    simp only [h1, if_true, h0, if_false]
    rw [hm, quo64_of_nonneg _ _ (by omega) hpos hmul]
  · intro h2
    unfold Score
    simp [h2]
  · intro h3 hmin
    have h1 : ¬ localFalcon info > requiredFalcon := by omega
    have h2 : ¬ localFalcon info = requiredFalcon := by omega
    have hs : sub64 (localFalcon info) requiredFalcon = localFalcon info - requiredFalcon := by
      unfold sub64
      apply wrap64_of_range _ hmin
      unfold MaxInt64
      omega
    unfold Score
    simp only [h1, h2, if_false, hs]
    exact ⟨trivial, by omega⟩

/-- C8 (amended), at R = 1 on a node with 3 allocatable and 1 requested
accelerators: the score is ⌊100 / 2⌋. -/
theorem Score_cases_witness :
    Score (some ⟨3, 1⟩) 1 = some (1 * 100 / localFalcon ⟨3, 1⟩, Code.Success) :=
  (Score_cases ⟨3, 1⟩ 1 (by decide)).2.1 (by decide) (by decide)

/-! ## Scheduler: NormalizeScore -/

theorem extremesLoop_spec (scores : List NodeScore) :
    ∀ h0 l0 : Int,
      (h0 ≤ (extremesLoop scores (h0, l0)).1 ∧ (extremesLoop scores (h0, l0)).2 ≤ l0) ∧
      (∀ ns ∈ scores, ns.Score ≤ (extremesLoop scores (h0, l0)).1 ∧
        (extremesLoop scores (h0, l0)).2 ≤ ns.Score) ∧
      ((extremesLoop scores (h0, l0)).1 = h0 ∨
        ∃ ns ∈ scores, ns.Score = (extremesLoop scores (h0, l0)).1) ∧
      ((extremesLoop scores (h0, l0)).2 = l0 ∨
        ∃ ns ∈ scores, ns.Score = (extremesLoop scores (h0, l0)).2) := by
  induction scores with
  | nil => intro h0 l0; simp [extremesLoop]
  | cons nodeScore rest ih =>
    intro h0 l0
    have hH : h0 ≤ (if nodeScore.Score > h0 then nodeScore.Score else h0) ∧
        nodeScore.Score ≤ (if nodeScore.Score > h0 then nodeScore.Score else h0) ∧
        ((if nodeScore.Score > h0 then nodeScore.Score else h0) = h0 ∨
          (if nodeScore.Score > h0 then nodeScore.Score else h0) = nodeScore.Score) := by
      split_ifs <;> omega
    have hL : (if nodeScore.Score < l0 then nodeScore.Score else l0) ≤ l0 ∧
        (if nodeScore.Score < l0 then nodeScore.Score else l0) ≤ nodeScore.Score ∧
        ((if nodeScore.Score < l0 then nodeScore.Score else l0) = l0 ∨
          (if nodeScore.Score < l0 then nodeScore.Score else l0) = nodeScore.Score) := by
      split_ifs <;> omega
    simp only [extremesLoop]
    generalize (if nodeScore.Score > h0 then nodeScore.Score else h0) = H at hH ⊢
    generalize (if nodeScore.Score < l0 then nodeScore.Score else l0) = L at hL ⊢
    obtain ⟨⟨a1, a2⟩, b, c1, c2⟩ := ih H L
    obtain ⟨hH1, hH2, hH3⟩ := hH
    obtain ⟨hL1, hL2, hL3⟩ := hL
    refine ⟨⟨by omega, by omega⟩, ?_, ?_, ?_⟩
    · intro ns hns
      rcases List.mem_cons.1 hns with rfl | hmem
      · exact ⟨by omega, by omega⟩
      · exact b ns hmem
    · rcases c1 with c1 | ⟨ns, hns, hval⟩
      · rcases hH3 with h | h
        · exact Or.inl (c1.trans h)
        · exact Or.inr ⟨nodeScore, List.mem_cons_self _ _, (c1.trans h).symm⟩
      · exact Or.inr ⟨ns, List.mem_cons_of_mem _ hns, hval⟩
    · rcases c2 with c2 | ⟨ns, hns, hval⟩
      · rcases hL3 with h | h
        · exact Or.inl (c2.trans h)
        · exact Or.inr ⟨nodeScore, List.mem_cons_self _ _, (c2.trans h).symm⟩
      · exact Or.inr ⟨ns, List.mem_cons_of_mem _ hns, hval⟩

theorem extremesLoop_lowest (scores : List NodeScore) (lo : Int)
    (hin : ∀ ns ∈ scores, MinInt64 ≤ ns.Score ∧ ns.Score ≤ MaxInt64)
    (hlo : (∃ ns ∈ scores, ns.Score = lo) ∧ ∀ ns ∈ scores, lo ≤ ns.Score) :
    (extremesLoop scores (-MaxInt64, MaxInt64)).2 = lo := by
  obtain ⟨_, b, _, c2⟩ := extremesLoop_spec scores (-MaxInt64) MaxInt64
  obtain ⟨⟨m, hm, hmv⟩, hmin⟩ := hlo
  have h1 := (b m hm).2
  have h2 := (hin m hm).2
  rcases c2 with c2 | ⟨ns, hns, hval⟩
  · omega
  · have := hmin ns hns
    omega

theorem extremesLoop_highest (scores : List NodeScore) (hi : Int)
    (hin : ∀ ns ∈ scores, MinInt64 ≤ ns.Score ∧ ns.Score ≤ MaxInt64)
    (hhi : (∃ ns ∈ scores, ns.Score = hi) ∧ ∀ ns ∈ scores, ns.Score ≤ hi) :
    (extremesLoop scores (-MaxInt64, MaxInt64)).1 = hi ∨
    ((extremesLoop scores (-MaxInt64, MaxInt64)).1 = -MaxInt64 ∧ hi = MinInt64) := by
  obtain ⟨⟨a1, _⟩, b, c1, _⟩ := extremesLoop_spec scores (-MaxInt64) MaxInt64
  obtain ⟨⟨m, hm, hmv⟩, hmax⟩ := hhi
  have h1 := (b m hm).1
  have h2 := (hin m hm).1
  rcases c1 with c1 | ⟨ns, hns, hval⟩
  · by_cases heq : (extremesLoop scores (-MaxInt64, MaxInt64)).1 = hi
    · exact Or.inl heq
    · right
      refine ⟨c1, ?_⟩
      have hmaxv : MaxInt64 = 9223372036854775807 := rfl
      have hminv : MinInt64 = -9223372036854775808 := rfl
      omega
  · left
    have := hmax ns hns
    omega

theorem NormalizeScore_exact (scores : List NodeScore) (lo hi : Int)
    (hin : ∀ ns ∈ scores, MinInt64 ≤ ns.Score ∧ ns.Score ≤ MaxInt64)
    (hlo : (∃ ns ∈ scores, ns.Score = lo) ∧ ∀ ns ∈ scores, lo ≤ ns.Score)
    (hhi : (∃ ns ∈ scores, ns.Score = hi) ∧ ∀ ns ∈ scores, ns.Score ≤ hi)
    (hspread : (hi - lo) * 100 ≤ MaxInt64) :
    NormalizeScore scores = scores.map (fun ns =>
      { ns with Score := if hi = lo then 0 else (ns.Score - lo) * 100 / (hi - lo) }) := by
  have hL := extremesLoop_lowest scores lo hin hlo
  have hH := extremesLoop_highest scores hi hin hhi
  have hnew : sub64 MaxNodeScore MinNodeScore = 100 := by decide
  have hle : lo ≤ hi := by
    obtain ⟨⟨m, hm, hmv⟩, _⟩ := hlo
    have := hhi.2 m hm
    omega
  simp only [NormalizeScore, hL, hnew]
  apply List.map_congr_left
  intro ns hns
  have hx1 := hlo.2 ns hns
  have hx2 := hhi.2 ns hns
  rcases hH with hH | ⟨hH, hmin⟩
  · rw [hH]
    have hold : sub64 hi lo = hi - lo := by
      unfold sub64
      apply wrap64_of_range
      · unfold MinInt64
        omega
      · omega
    rw [hold]
    by_cases heq : hi = lo
    · have h0 : hi - lo = 0 := by omega
      simp [h0, heq, MinNodeScore]
    · have h0 : ¬ (hi - lo = 0) := by omega
      have hpos : 0 < hi - lo := by omega
      have hsub : sub64 ns.Score lo = ns.Score - lo := by
        unfold sub64
        apply wrap64_of_range
        · unfold MinInt64
          omega
        · omega
      have hmulmax : (ns.Score - lo) * 100 ≤ MaxInt64 := by omega
      have hmul : mul64 (ns.Score - lo) 100 = (ns.Score - lo) * 100 := by
        unfold mul64
        apply wrap64_of_range _ _ hmulmax
        unfold MinInt64
        omega
      have hq := quo64_of_nonneg ((ns.Score - lo) * 100) (hi - lo) (by omega) hpos hmulmax
      have hq0 : 0 ≤ (ns.Score - lo) * 100 / (hi - lo) :=
        Int.ediv_nonneg (by omega) (le_of_lt hpos)
      have hq1 : (ns.Score - lo) * 100 / (hi - lo) ≤ (ns.Score - lo) * 100 :=
        Int.ediv_le_self _ (by omega)
      have hadd : add64 ((ns.Score - lo) * 100 / (hi - lo)) MinNodeScore
          = (ns.Score - lo) * 100 / (hi - lo) := by
        unfold add64 MinNodeScore
        rw [add_zero]
        apply wrap64_of_range
        · unfold MinInt64
          omega
        · omega
      simp only [if_neg h0, if_neg heq, hsub, hmul, hq, hadd]
  · have hlo' : lo = MinInt64 := by
      obtain ⟨⟨m, hm, hmv⟩, _⟩ := hlo
      have := (hin m hm).1
      omega
    have hxv : ns.Score = MinInt64 := by
      have := (hin ns hns).1
      omega
    have heq : hi = lo := by omega
    rw [hH, hlo', hxv, if_pos (by omega : hi = MinInt64)]
    have hold : ¬ (sub64 (-MaxInt64) MinInt64 = 0) := by decide
    rw [if_neg hold]
    have hval : add64 (quo64 (mul64 (sub64 MinInt64 MinInt64) 100)
        (sub64 (-MaxInt64) MinInt64)) MinNodeScore = 0 := by decide
    rw [hval]

theorem exists_lowest (scores : List NodeScore) (hne : scores ≠ []) :
    ∃ lo : Int, (∃ ns ∈ scores, ns.Score = lo) ∧ ∀ ns ∈ scores, lo ≤ ns.Score := by
  induction scores with
  | nil => exact absurd rfl hne
  | cons x rest ih =>
    cases rest with
    | nil => exact ⟨x.Score, ⟨x, by simp, rfl⟩, by simp⟩
    | cons y more =>
      obtain ⟨lo, ⟨m, hm, hmv⟩, hmin⟩ := ih (by simp)
      by_cases hx : x.Score ≤ lo
      · refine ⟨x.Score, ⟨x, List.mem_cons_self _ _, rfl⟩, ?_⟩
        intro ns hns
        rcases List.mem_cons.1 hns with rfl | hmem
        · exact le_refl _
        · exact le_trans hx (hmin ns hmem)
      · refine ⟨lo, ⟨m, List.mem_cons_of_mem _ hm, hmv⟩, ?_⟩
        intro ns hns
        rcases List.mem_cons.1 hns with rfl | hmem
        · omega
        · exact hmin ns hmem

theorem exists_highest (scores : List NodeScore) (hne : scores ≠ []) :
    ∃ hi : Int, (∃ ns ∈ scores, ns.Score = hi) ∧ ∀ ns ∈ scores, ns.Score ≤ hi := by
  induction scores with
  | nil => exact absurd rfl hne
  | cons x rest ih =>
    cases rest with
    | nil => exact ⟨x.Score, ⟨x, by simp, rfl⟩, by simp⟩
    | cons y more =>
      obtain ⟨hi, ⟨m, hm, hmv⟩, hmax⟩ := ih (by simp)
      by_cases hx : hi ≤ x.Score
      · refine ⟨x.Score, ⟨x, List.mem_cons_self _ _, rfl⟩, ?_⟩
        intro ns hns
        rcases List.mem_cons.1 hns with rfl | hmem
        · exact le_refl _
        · exact le_trans (hmax ns hmem) hx
      · refine ⟨hi, ⟨m, List.mem_cons_of_mem _ hm, hmv⟩, ?_⟩
        intro ns hns
        rcases List.mem_cons.1 hns with rfl | hmem
        · omega
        · exact hmax ns hmem

/-- C9, as stated, fails when the spread of the raw scores times 100 leaves the
`int64` range: on the scores 0 and 2^57 the product (2^57 - 0)·100 wraps to
-28·2^57, and the second score is normalised to -28, below `MinNodeScore`. -/
theorem NormalizeScore_range_counterexample :
    (∀ ns ∈ [(⟨"n1", 0⟩ : NodeScore), ⟨"n2", 144115188075855872⟩],
      MinInt64 ≤ ns.Score ∧ ns.Score ≤ MaxInt64) ∧
    NormalizeScore [⟨"n1", 0⟩, ⟨"n2", 144115188075855872⟩]
      = [⟨"n1", 0⟩, ⟨"n2", -28⟩] ∧
    (-28 : Int) < MinNodeScore := by
  refine ⟨by decide, by decide, by decide⟩

/-- C9 (amended): for every list of raw `int64` scores, of any length, in which the
difference of any two scores times 100 does not exceed the `int64` maximum, every
score lies within [MinNodeScore, MaxNodeScore] = [0, 100] after `NormalizeScore`. -/
theorem NormalizeScore_range (scores : List NodeScore)
    (hin : ∀ ns ∈ scores, MinInt64 ≤ ns.Score ∧ ns.Score ≤ MaxInt64)
    (hspread : ∀ a ∈ scores, ∀ b ∈ scores, (a.Score - b.Score) * 100 ≤ MaxInt64) :
    ∀ ns ∈ NormalizeScore scores, MinNodeScore ≤ ns.Score ∧ ns.Score ≤ MaxNodeScore := by
  by_cases hne : scores = []
  · subst hne
    intro ns hns
    simp [NormalizeScore] at hns
  · obtain ⟨lo, hlo⟩ := exists_lowest scores hne
    obtain ⟨hi, hhi⟩ := exists_highest scores hne
    have hsp : (hi - lo) * 100 ≤ MaxInt64 := by
      obtain ⟨⟨m, hm, hmv⟩, _⟩ := hlo
      obtain ⟨⟨M, hM, hMv⟩, _⟩ := hhi
      have := hspread M hM m hm
      rw [hMv, hmv] at this
      exact this
    rw [NormalizeScore_exact scores lo hi hin hlo hhi hsp]
    intro ns hns
    obtain ⟨x, hx, rfl⟩ := List.mem_map.1 hns
    have hx1 := hlo.2 x hx
    have hx2 := hhi.2 x hx
    unfold MinNodeScore MaxNodeScore
    by_cases heq : hi = lo
    · simp [heq]
    · have hpos : 0 < hi - lo := by omega
      simp only [if_neg heq]
      constructor
      · exact Int.ediv_nonneg (by omega) (le_of_lt hpos)
      · apply Int.ediv_le_of_le_mul hpos
        omega

/-- C9 (amended), at the raw scores -1, 100 and 50. -/
theorem NormalizeScore_range_witness :
    (⟨"n3", 50⟩ : NodeScore) ∈ NormalizeScore [⟨"n1", -1⟩, ⟨"n2", 100⟩, ⟨"n3", 50⟩] ∧
    MinNodeScore ≤ (⟨"n3", 50⟩ : NodeScore).Score ∧
    (⟨"n3", 50⟩ : NodeScore).Score ≤ MaxNodeScore :=
  ⟨by decide,
   NormalizeScore_range [⟨"n1", -1⟩, ⟨"n2", 100⟩, ⟨"n3", 50⟩] (by decide) (by decide)
     ⟨"n3", 50⟩ (by decide)⟩

/-- C10, as stated, fails when (hi - lo)·100 leaves the `int64` range: on the scores
0 and 2^62 the formula sends the highest score to 100 = `MaxNodeScore`, but the
product wraps to 0 and `NormalizeScore` leaves both scores at 0. -/
theorem NormalizeScore_linear_counterexample :
    NormalizeScore [⟨"n1", 0⟩, ⟨"n2", 4611686018427387904⟩]
      = [⟨"n1", 0⟩, ⟨"n2", 0⟩] ∧
    MinNodeScore + (4611686018427387904 - 0) * (MaxNodeScore - MinNodeScore)
      / (4611686018427387904 - 0) = MaxNodeScore ∧
    (0 : Int) ≠ MaxNodeScore := by
  refine ⟨by decide, by decide, by decide⟩

/-- C10 (amended): for a non-empty list of raw `int64` scores with lowest value lo
and highest value hi such that (hi - lo)·100 does not exceed the `int64` maximum,
`NormalizeScore` replaces each score s by
MinNodeScore + (s - lo)·(MaxNodeScore - MinNodeScore) / (hi - lo) when hi ≠ lo, which
sends lo to MinNodeScore and hi to MaxNodeScore, and replaces every score by
MinNodeScore when hi = lo. -/
theorem NormalizeScore_linear (scores : List NodeScore) (lo hi : Int)
    (hin : ∀ ns ∈ scores, MinInt64 ≤ ns.Score ∧ ns.Score ≤ MaxInt64)
    (hlo : (∃ ns ∈ scores, ns.Score = lo) ∧ ∀ ns ∈ scores, lo ≤ ns.Score)
    (hhi : (∃ ns ∈ scores, ns.Score = hi) ∧ ∀ ns ∈ scores, ns.Score ≤ hi)
    (hspread : (hi - lo) * 100 ≤ MaxInt64) :
    NormalizeScore scores = scores.map (fun ns =>
      { ns with Score :=
          if hi = lo then MinNodeScore
          else MinNodeScore + (ns.Score - lo) * (MaxNodeScore - MinNodeScore) / (hi - lo) }) ∧
    (hi ≠ lo →
      MinNodeScore + (lo - lo) * (MaxNodeScore - MinNodeScore) / (hi - lo) = MinNodeScore ∧
      MinNodeScore + (hi - lo) * (MaxNodeScore - MinNodeScore) / (hi - lo) = MaxNodeScore) := by
  constructor
  · rw [NormalizeScore_exact scores lo hi hin hlo hhi hspread]
    simp [MinNodeScore, MaxNodeScore]
  · intro hne
    have h0 : hi - lo ≠ 0 := by omega
    unfold MinNodeScore MaxNodeScore
    constructor
    · simp
    · rw [zero_add, sub_zero, Int.mul_ediv_cancel_left _ h0]

/-- C10 (amended), at the raw scores -1, 100 and 50, where lo = -1 and hi = 100. -/
theorem NormalizeScore_linear_witness :
    NormalizeScore [⟨"n1", -1⟩, ⟨"n2", 100⟩, ⟨"n3", 50⟩]
      = [(⟨"n1", -1⟩ : NodeScore), ⟨"n2", 100⟩, ⟨"n3", 50⟩].map (fun ns =>
        { ns with Score :=
            if (100 : Int) = -1 then MinNodeScore
            else MinNodeScore + (ns.Score - -1) * (MaxNodeScore - MinNodeScore)
              / (100 - -1) }) :=
  (NormalizeScore_linear [⟨"n1", -1⟩, ⟨"n2", 100⟩, ⟨"n3", 50⟩] (-1) 100
    (by decide) (by decide) (by decide) (by decide)).1

/-! ## Scheduler: scenario 4 -/

/-- C11, as stated, fails: with free supply 1 on N1 and 2 on N2 and a request of 2,
`Score` gives N1 the raw score -1 and N2 the raw score 100, and after
`NormalizeScore` N1 holds 0, strictly below N2's 100. -/
theorem scenario4_N1_not_highest :
    Score (some ⟨1, 0⟩) 2 = some (-1, Code.Success) ∧
    Score (some ⟨2, 0⟩) 2 = some (100, Code.Success) ∧
    NormalizeScore [⟨"N1", -1⟩, ⟨"N2", 100⟩] = [⟨"N1", 0⟩, ⟨"N2", 100⟩] ∧
    (0 : Int) < 100 := by
  refine ⟨by decide, by decide, by decide, by decide⟩

/-- C11 (amended): in scenario 4's topology, for any node N1 with free supply 1 and
any node N2 with free supply 2 and a pod requesting 2 accelerators, `Score` returns
-1 for N1 and 100 for N2, and `NormalizeScore` over the two nodes leaves N1 at
MinNodeScore and N2 at MaxNodeScore: N2's score is the highest. -/
theorem scenario4_scores (n1 n2 : NodeInfo)
    (h1 : localFalcon n1 = 1) (h2 : localFalcon n2 = 2) :
    Score (some n1) 2 = some (-1, Code.Success) ∧
    Score (some n2) 2 = some (100, Code.Success) ∧
    NormalizeScore [⟨"N1", -1⟩, ⟨"N2", 100⟩]
      = [⟨"N1", MinNodeScore⟩, ⟨"N2", MaxNodeScore⟩] ∧
    MinNodeScore < MaxNodeScore := by
  refine ⟨?_, ?_, by decide, by decide⟩
  · simp only [Score, h1]
    decide
  · simp only [Score, h2]
    decide

/-- C11 (amended), at N1 with 1 allocatable and N2 with 3 allocatable of which 1 is
requested. -/
theorem scenario4_scores_witness :
    Score (some ⟨1, 0⟩) 2 = some (-1, Code.Success) ∧
    Score (some ⟨3, 1⟩) 2 = some (100, Code.Success) :=
  ⟨(scenario4_scores ⟨1, 0⟩ ⟨3, 1⟩ (by decide) (by decide)).1,
   (scenario4_scores ⟨1, 0⟩ ⟨3, 1⟩ (by decide) (by decide)).2.1⟩

/-! ## Scheduler: Permit -/

/-- C12, as stated, fails when R - (alloc - req) leaves the `int64` range: for
R = 2^63 - 1, alloc = 0 and req = 1 the exact deficit is 2^63 > 0, but the
subtraction wraps, `getGpuDemand` returns 0 and `Permit` admits the pod at once
without annotating it. -/
theorem Permit_overflow_counterexample :
    (9223372036854775807 : Int) - (0 - 1) > 0 ∧
    getGpuDemand (some 0) (some ⟨0, 1⟩) 9223372036854775807 = 0 ∧
    Permit (fun _ => none) "n1" 9223372036854775807 ⟨some 0, some ⟨0, 1⟩⟩ []
      = { status := Code.Success, patch := none, event := none } := by
  refine ⟨by decide, by decide, by decide⟩

/-- C12 (amended): for a request R, a node allocatable count alloc and a node
requested count req such that R - (alloc - req) lies in the `int64` range, the
deficit computed by `getGpuDemand` is D = R - (alloc - req) when that is positive
and 0 otherwise; `Permit` returns Success at once, with no annotation patch and no
Reconfig event, when D ≤ 0, and otherwise sends the patch `dst_node` = the chosen
node, `gpu_demand` = the decimal string of D (and so does not return at once). -/
theorem Permit_gate (patchPodAnnotations : List (String × String) → Option String)
    (nodeName : String) (requiredFalcon alloc : Int) (info : NodeInfo)
    (polls : List NodeReading)
    (hlo : MinInt64 ≤ requiredFalcon - (alloc - info.Requested))
    (hhi : requiredFalcon - (alloc - info.Requested) ≤ MaxInt64) :
    getGpuDemand (some alloc) (some info) requiredFalcon
      = (if requiredFalcon - (alloc - info.Requested) > 0
          then requiredFalcon - (alloc - info.Requested) else 0) ∧
    (getGpuDemand (some alloc) (some info) requiredFalcon ≤ 0 →
      Permit patchPodAnnotations nodeName requiredFalcon ⟨some alloc, some info⟩ polls
        = { status := Code.Success, patch := none, event := none }) ∧
    (¬ getGpuDemand (some alloc) (some info) requiredFalcon ≤ 0 →
      (Permit patchPodAnnotations nodeName requiredFalcon ⟨some alloc, some info⟩ polls).patch
        = some [("dst_node", nodeName),
            ("gpu_demand", Itoa (requiredFalcon - (alloc - info.Requested)))]) := by
  have hsub : sub64 requiredFalcon (sub64 alloc info.Requested)
      = requiredFalcon - (alloc - info.Requested) := by
    unfold sub64
    have h : wrap64 (requiredFalcon - wrap64 (alloc - info.Requested))
        = wrap64 (requiredFalcon - (alloc - info.Requested)) := by
      unfold wrap64
      omega
    rw [h, wrap64_of_range _ hlo hhi]
  have hD : getGpuDemand (some alloc) (some info) requiredFalcon
      = (if requiredFalcon - (alloc - info.Requested) > 0
          then requiredFalcon - (alloc - info.Requested) else 0) := by
    simp only [getGpuDemand, hsub]
  refine ⟨hD, ?_, ?_⟩
  · intro hle
    simp only [Permit, if_pos hle]
  · intro hgt
    have hpos : requiredFalcon - (alloc - info.Requested) > 0 := by
      by_contra hn
      rw [hD, if_neg hn] at hgt
      exact hgt (le_refl 0)
    have hval : getGpuDemand (some alloc) (some info) requiredFalcon
        = requiredFalcon - (alloc - info.Requested) := by
      rw [hD, if_pos hpos]
    have hgt' : ¬ requiredFalcon - (alloc - info.Requested) ≤ 0 := by omega
    simp only [Permit, hval, if_neg hgt']
    cases patchPodAnnotations [("dst_node", nodeName),
      ("gpu_demand", Itoa (requiredFalcon - (alloc - info.Requested)))] <;> rfl

/-- C12 (amended), at R = 2 on a node with 1 allocatable and 0 requested: the deficit
is 1 and the patch carries `gpu_demand` = "1". -/
theorem Permit_gate_witness :
    getGpuDemand (some 1) (some ⟨1, 0⟩) 2 = (if (2 : Int) - (1 - 0) > 0 then 2 - (1 - 0) else 0) ∧
    (Permit (fun _ => none) "N1" 2 ⟨some 1, some ⟨1, 0⟩⟩ []).patch
      = some [("dst_node", "N1"), ("gpu_demand", Itoa (2 - (1 - 0)))] :=
  ⟨(Permit_gate (fun _ => none) "N1" 2 1 ⟨1, 0⟩ [] (by decide) (by decide)).1,
   (Permit_gate (fun _ => none) "N1" 2 1 ⟨1, 0⟩ [] (by decide) (by decide)).2.2 (by decide)⟩

/-! ## Daemon: the mutation loop against any fabric -/

theorem reconfigLoop_stop {σ : Type} (F : Fabric σ) (dstPort : String)
    (donors : List GpuOption) (demand : Int) (s : σ) (h : demand ≤ 0) :
    (reconfigLoop F dstPort donors demand s).demand = demand ∧
    (reconfigLoop F dstPort donors demand s).state = s ∧
    (reconfigLoop F dstPort donors demand s).trace = [] := by
  cases donors with
  | nil => simp [reconfigLoop]
  | cons dev rest => simp [reconfigLoop, h]

theorem reconfigLoop_accounting {σ : Type} (F : Fabric σ) (dstPort : String)
    (donors : List GpuOption) :
    ∀ (demand : Int) (s : σ), 0 ≤ demand →
      0 ≤ (reconfigLoop F dstPort donors demand s).demand ∧
      movedCount (reconfigLoop F dstPort donors demand s).trace
        = demand - (reconfigLoop F dstPort donors demand s).demand ∧
      ∀ c ∈ (reconfigLoop F dstPort donors demand s).trace, 0 < c.remaining := by
  induction donors with
  | nil =>
    intro demand s h
    simp [reconfigLoop, movedCount, h]
  | cons dev rest ih =>
    intro demand s h
    by_cases h0 : demand ≤ 0
    · simp [reconfigLoop, h0, movedCount, h]
    · have hpos : 0 < demand := by omega
      by_cases hu : (F.Unassign s dev.devGID).1 = false
      · obtain ⟨a, b, c⟩ := ih demand (F.Unassign s dev.devGID).2 h
        simp only [reconfigLoop, if_neg h0, if_pos hu]
        refine ⟨a, ?_, ?_⟩
        · simp only [movedCount] at b ⊢
          rw [List.countP_cons]
          simpa using b
        · intro x hx
          rcases List.mem_cons.1 hx with rfl | hx
          · exact hpos
          · exact c x hx
      · by_cases ha : (F.Assign (F.Unassign s dev.devGID).2 dstPort dev.devGID).1 = false
        · obtain ⟨a, b, c⟩ :=
            ih demand (F.Assign (F.Unassign s dev.devGID).2 dstPort dev.devGID).2 h
          simp only [reconfigLoop, if_neg h0, if_neg hu, if_pos ha]
          refine ⟨a, ?_, ?_⟩
          · simp only [movedCount] at b ⊢
            rw [List.countP_cons, List.countP_cons]
            simpa using b
          · intro x hx
            rcases List.mem_cons.1 hx with rfl | hx
            · exact hpos
            · rcases List.mem_cons.1 hx with rfl | hx
              · exact hpos
              · exact c x hx
        · obtain ⟨a, b, c⟩ :=
            ih (demand - 1) (F.Assign (F.Unassign s dev.devGID).2 dstPort dev.devGID).2
              (by omega)
          simp only [reconfigLoop, if_neg h0, if_neg hu, if_neg ha]
          refine ⟨a, ?_, ?_⟩
          · simp only [movedCount] at b ⊢
            rw [List.countP_cons, List.countP_cons]
            simp only [decide_eq_true_eq, reduceCtorEq, false_and, and_self, if_false,
              if_true, Nat.add_zero, Nat.cast_add, Nat.cast_one]
            omega
          · intro x hx
            rcases List.mem_cons.1 hx with rfl | hx
            · exact hpos
            · rcases List.mem_cons.1 hx with rfl | hx
              · exact hpos
              · exact c x hx

/-- C14: once the device listing has succeeded, for every demand D ≥ 0 and every
behaviour of the individual detach and attach calls, `reconfig` makes a call only
while the remaining demand is positive, moves at most D donors successfully, and
returns true exactly when D donors were moved (the remaining demand reached 0);
when the donor list is empty and D > 0 it makes no call at all and returns false. -/
theorem reconfig_accounting {σ : Type} (F : Fabric σ)
    (rangeOrder : List (String × String) → List (String × String))
    (d : ReconfigDaemon) (nodeName : String) (demand : Int) (s s' : σ)
    (devices : List ReconfigMgr.DevicePair)
    (hlist : F.GetAllResource s = (Except.ok devices, s')) (hD : 0 ≤ demand) :
    movedCount (reconfig F rangeOrder d nodeName demand s).trace ≤ demand ∧
    (∀ c ∈ (reconfig F rangeOrder d nodeName demand s).trace, 0 < c.remaining) ∧
    ((reconfig F rangeOrder d nodeName demand s).result = true ↔
      movedCount (reconfig F rangeOrder d nodeName demand s).trace = demand) ∧
    (donorOrder rangeOrder (reconfig F rangeOrder d nodeName demand s).daemon nodeName = [] →
      0 < demand →
      (reconfig F rangeOrder d nodeName demand s).trace = [] ∧
      (reconfig F rangeOrder d nodeName demand s).result = false ∧
      (reconfig F rangeOrder d nodeName demand s).state = s') := by
  have hup : updateDevice F d s
      = (none, { d with deviceAlloc := updateLoop devices d.deviceAlloc }, s') := by
    simp [updateDevice, hlist]
  simp only [reconfig, hup]
  obtain ⟨a, b, c⟩ := reconfigLoop_accounting F
    (mapGet d.nodeNameToPort nodeName)
    (donorOrder rangeOrder { d with deviceAlloc := updateLoop devices d.deviceAlloc } nodeName)
    demand s' hD
  refine ⟨by omega, c, ?_, ?_⟩
  · rw [decide_eq_true_iff]
    constructor <;> intro h <;> omega
  · intro hnil hpos
    rw [hnil]
    simp only [reconfigLoop]
    refine ⟨trivial, ?_, trivial⟩
    simp
    omega

/-- C14, against the Registry with one idle donor on another port and D = 2: one
donor is moved and `reconfig` returns false. -/
theorem reconfig_accounting_witness :
    movedCount (reconfig registryFabric id ⟨[], [], [], [], [("N1", "p1"), ("N2", "p2")]⟩
      "N1" 2 [⟨"g1", "u1", "p1"⟩, ⟨"g2", "u2", "p2"⟩]).trace ≤ 2 ∧
    ((reconfig registryFabric id ⟨[], [], [], [], [("N1", "p1"), ("N2", "p2")]⟩
      "N1" 2 [⟨"g1", "u1", "p1"⟩, ⟨"g2", "u2", "p2"⟩]).result = true ↔
      movedCount (reconfig registryFabric id ⟨[], [], [], [], [("N1", "p1"), ("N2", "p2")]⟩
        "N1" 2 [⟨"g1", "u1", "p1"⟩, ⟨"g2", "u2", "p2"⟩]).trace = 2) :=
  ⟨(reconfig_accounting registryFabric id ⟨[], [], [], [], [("N1", "p1"), ("N2", "p2")]⟩
      "N1" 2 [⟨"g1", "u1", "p1"⟩, ⟨"g2", "u2", "p2"⟩] _ _ rfl (by decide)).1,
   (reconfig_accounting registryFabric id ⟨[], [], [], [], [("N1", "p1"), ("N2", "p2")]⟩
      "N1" 2 [⟨"g1", "u1", "p1"⟩, ⟨"g2", "u2", "p2"⟩] _ _ rfl (by decide)).2.2.1⟩

/-! ## Daemon: donor selection -/

theorem mem_usedLoop (info : List (String × PodInfo)) (pods : List String) :
    ∀ (used : List String) (dev : String),
      dev ∈ usedLoop info pods used ↔
        dev ∈ used ∨ ∃ po ∈ pods, ∃ pi, info.lookup po = some pi ∧ dev ∈ pi.gids := by
  induction pods with
  | nil => intro used dev; simp [usedLoop]
  | cons po rest ih =>
    intro used dev
    rw [usedLoop, ih]
    cases hl : info.lookup po with
    | none =>
      simp only [Option.map_none', Option.getD_none, List.append_nil, List.mem_cons]
      constructor
      · rintro (h | ⟨q, hq, pi, h1, h2⟩)
        · exact Or.inl h
        · exact Or.inr ⟨q, Or.inr hq, pi, h1, h2⟩
      · rintro (h | ⟨q, hq, pi, h1, h2⟩)
        · exact Or.inl h
        · rcases hq with rfl | hq
          · rw [hl] at h1
            cases h1
          · exact Or.inr ⟨q, hq, pi, h1, h2⟩
    | some pinfo =>
      simp only [Option.map_some', Option.getD_some, List.mem_append, List.mem_cons]
      constructor
      · rintro ((h | h) | ⟨q, hq, pi, h1, h2⟩)
        · exact Or.inl h
        · exact Or.inr ⟨po, Or.inl rfl, pinfo, hl, h⟩
        · exact Or.inr ⟨q, Or.inr hq, pi, h1, h2⟩
      · rintro (h | ⟨q, hq, pi, h1, h2⟩)
        · exact Or.inl (Or.inl h)
        · rcases hq with rfl | hq
          · rw [hl] at h1
            cases h1
            exact Or.inl (Or.inr h2)
          · exact Or.inr ⟨q, hq, pi, h1, h2⟩

theorem optionLoop_devGID (used : List String) (dstPort : String)
    (entries : List (String × String)) :
    (optionLoop used dstPort entries).map GpuOption.devGID
      = (entries.filter (fun e => decide (e.1 ∉ used ∧ e.2 ≠ dstPort))).map Prod.fst := by
  induction entries with
  | nil => rfl
  | cons e rest ih =>
    by_cases h : e.1 ∉ used ∧ e.2 ≠ dstPort
    · simp [optionLoop, h, ih]
    · simp only [optionLoop, if_neg h, ih]
      rw [List.filter_cons_of_neg]
      simpa using h

theorem mem_optionLoop (used : List String) (dstPort : String)
    (entries : List (String × String)) (o : GpuOption) :
    o ∈ optionLoop used dstPort entries ↔
      (o.devGID, o.hostPort) ∈ entries ∧ o.devGID ∉ used ∧ o.hostPort ≠ dstPort ∧
        o.score = 0 := by
  induction entries with
  | nil => simp [optionLoop]
  | cons e rest ih =>
    by_cases h : e.1 ∉ used ∧ e.2 ≠ dstPort
    · simp only [optionLoop, if_pos h, List.mem_cons, ih]
      constructor
      · rintro (rfl | ⟨h1, h2, h3, h4⟩)
        · exact ⟨Or.inl rfl, h.1, h.2, rfl⟩
        · exact ⟨Or.inr h1, h2, h3, h4⟩
      · rintro ⟨h1 | h1, h2, h3, h4⟩
        · left
          obtain ⟨a, b, c⟩ := o
          have h4' : c = 0 := h4
          have h1' : (a, b) = e := h1
          subst h4'
          subst h1'
          rfl
        · exact Or.inr ⟨h1, h2, h3, h4⟩
    · simp only [optionLoop, if_neg h, List.mem_cons, ih]
      constructor
      · rintro ⟨h1, h2, h3, h4⟩
        exact ⟨Or.inr h1, h2, h3, h4⟩
      · rintro ⟨h1 | h1, h2, h3, h4⟩
        · exfalso
          apply h
          rw [← h1]
          exact ⟨h2, h3⟩
        · exact ⟨h1, h2, h3, h4⟩

theorem scoreLoop_eq_map (gpuCounts : List (String × Int)) (opts : List GpuOption) :
    scoreLoop gpuCounts opts
      = opts.map (fun o => { o with score := (gpuCounts.lookup o.hostPort).getD 0 }) := by
  induction opts with
  | nil => rfl
  | cons o rest ih => simp [scoreLoop, ih]

theorem countLoop_lookup (opts : List GpuOption) :
    ∀ (gpuCounts : List (String × Int)) (port : String),
      ((countLoop opts gpuCounts).lookup port).getD 0
        = (gpuCounts.lookup port).getD 0
          + (opts.countP (fun o => decide (o.hostPort = port)) : Nat) := by
  induction opts with
  | nil => intro g port; simp [countLoop]
  | cons o rest ih =>
    intro g port
    rw [countLoop, ih, List.countP_cons]
    by_cases h : o.hostPort = port
    · subst h
      simp [List.lookup_cons]
      omega
    · have hne : (port == o.hostPort) = false := by
        simp
        exact fun h' => h h'.symm
      simp [List.lookup_cons, hne, h]

theorem mem_mapEntries (m : List (String × String)) (key value : String) :
    (key, value) ∈ mapEntries m ↔ key ∈ mapKeys m ∧ value = mapGet m key := by
  simp only [mapEntries, List.mem_map, Prod.mk.injEq]
  constructor
  · rintro ⟨k, hk, rfl, rfl⟩
    exact ⟨hk, rfl⟩
  · rintro ⟨hk, rfl⟩
    exact ⟨key, hk, rfl, rfl⟩

theorem mapEntries_keys_nodup (m : List (String × String)) :
    ((mapEntries m).map Prod.fst).Nodup := by
  have h : (mapEntries m).map Prod.fst = mapKeys m := by
    simp [mapEntries, List.map_map, Function.comp_def]
  rw [h]
  exact List.nodup_dedup _

theorem reconfigLoop_trace_mem {σ : Type} (F : Fabric σ) (dstPort : String)
    (donors : List GpuOption) :
    ∀ (demand : Int) (s : σ), ∀ c ∈ (reconfigLoop F dstPort donors demand s).trace,
      ∃ o ∈ donors, o.devGID = c.devGID := by
  induction donors with
  | nil => intro demand s c hc; simp [reconfigLoop] at hc
  | cons dev rest ih =>
    intro demand s c hc
    by_cases h0 : demand ≤ 0
    · simp [reconfigLoop, h0] at hc
    · by_cases hu : (F.Unassign s dev.devGID).1 = false
      · simp only [reconfigLoop, if_neg h0, if_pos hu, List.mem_cons] at hc
        rcases hc with rfl | hc
        · exact ⟨dev, List.mem_cons_self _ _, rfl⟩
        · obtain ⟨o, ho, hoc⟩ := ih _ _ c hc
          exact ⟨o, List.mem_cons_of_mem _ ho, hoc⟩
      · by_cases ha : (F.Assign (F.Unassign s dev.devGID).2 dstPort dev.devGID).1 = false
        · simp only [reconfigLoop, if_neg h0, if_neg hu, if_pos ha, List.mem_cons] at hc
          rcases hc with rfl | rfl | hc
          · exact ⟨dev, List.mem_cons_self _ _, rfl⟩
          · exact ⟨dev, List.mem_cons_self _ _, rfl⟩
          · obtain ⟨o, ho, hoc⟩ := ih _ _ c hc
            exact ⟨o, List.mem_cons_of_mem _ ho, hoc⟩
        · simp only [reconfigLoop, if_neg h0, if_neg hu, if_neg ha, List.mem_cons] at hc
          rcases hc with rfl | rfl | hc
          · exact ⟨dev, List.mem_cons_self _ _, rfl⟩
          · exact ⟨dev, List.mem_cons_self _ _, rfl⟩
          · obtain ⟨o, ho, hoc⟩ := ih _ _ c hc
            exact ⟨o, List.mem_cons_of_mem _ ho, hoc⟩

theorem mem_donorOrder (rangeOrder : List (String × String) → List (String × String))
    (hperm : ∀ l, (rangeOrder l).Perm l) (d : ReconfigDaemon) (nodeName : String)
    (o : GpuOption) (ho : o ∈ donorOrder rangeOrder d nodeName) :
    o.devGID ∈ mapKeys d.deviceAlloc ∧
    o.hostPort = mapGet d.deviceAlloc o.devGID ∧
    o.devGID ∉ usedLoop d.schedulePodInfo d.schedulePods [] ∧
    o.hostPort ≠ mapGet d.nodeNameToPort nodeName ∧
    o.score = ((optionLoop (usedLoop d.schedulePodInfo d.schedulePods [])
        (mapGet d.nodeNameToPort nodeName)
        (rangeOrder (mapEntries d.deviceAlloc))).countP
          (fun o' => decide (o'.hostPort = o.hostPort)) : Nat) := by
  have h1 : o ∈ scoreLoop _ _ :=
    (List.perm_insertionSort _ _).mem_iff.1 ho
  rw [scoreLoop_eq_map, List.mem_map] at h1
  obtain ⟨o', ho', rfl⟩ := h1
  rw [mem_optionLoop] at ho'
  obtain ⟨hent, hused, hport, _⟩ := ho'
  have hent' := (mem_mapEntries _ _ _).1 ((hperm _).mem_iff.1 hent)
  refine ⟨hent'.1, hent'.2, hused, hport, ?_⟩
  have := countLoop_lookup (optionLoop (usedLoop d.schedulePodInfo d.schedulePods [])
    (mapGet d.nodeNameToPort nodeName) (rangeOrder (mapEntries d.deviceAlloc))) [] o'.hostPort
  simpa using this

theorem donorOrder_devGID_perm (rangeOrder : List (String × String) → List (String × String))
    (d : ReconfigDaemon) (nodeName : String) :
    ((donorOrder rangeOrder d nodeName).map GpuOption.devGID).Perm
      (((rangeOrder (mapEntries d.deviceAlloc)).filter
        (fun e => decide (e.1 ∉ usedLoop d.schedulePodInfo d.schedulePods [] ∧
          e.2 ≠ mapGet d.nodeNameToPort nodeName))).map Prod.fst) := by
  have h1 : ((donorOrder rangeOrder d nodeName).map GpuOption.devGID).Perm
      ((scoreLoop _ _).map GpuOption.devGID) :=
    (List.perm_insertionSort _ _).map _
  rw [scoreLoop_eq_map, List.map_map] at h1
  have h2 : (GpuOption.devGID ∘ fun o : GpuOption =>
      { o with score := ((countLoop (optionLoop (usedLoop d.schedulePodInfo d.schedulePods [])
        (mapGet d.nodeNameToPort nodeName) (rangeOrder (mapEntries d.deviceAlloc))) []).lookup
          o.hostPort).getD 0 }) = GpuOption.devGID := by
    funext o
    rfl
  rw [h2, optionLoop_devGID] at h1
  exact h1

theorem donorOrder_hostPort_countP (rangeOrder : List (String × String) → List (String × String))
    (d : ReconfigDaemon) (nodeName : String) (port : String) :
    (donorOrder rangeOrder d nodeName).countP (fun o => decide (o.hostPort = port))
      = (optionLoop (usedLoop d.schedulePodInfo d.schedulePods [])
          (mapGet d.nodeNameToPort nodeName)
          (rangeOrder (mapEntries d.deviceAlloc))).countP
            (fun o => decide (o.hostPort = port)) := by
  have h1 := (List.perm_insertionSort (fun a b : GpuOption => a.score ≤ b.score)
    (scoreLoop (countLoop (optionLoop (usedLoop d.schedulePodInfo d.schedulePods [])
      (mapGet d.nodeNameToPort nodeName) (rangeOrder (mapEntries d.deviceAlloc))) [])
      (optionLoop (usedLoop d.schedulePodInfo d.schedulePods [])
        (mapGet d.nodeNameToPort nodeName) (rangeOrder (mapEntries d.deviceAlloc))))).countP_eq
    (fun o => decide (o.hostPort = port))
  rw [donorOrder, sortSlice, h1, scoreLoop_eq_map, List.countP_map]
  rfl

theorem sortSlice_sorted (opts : List GpuOption) :
    (sortSlice opts).Sorted (fun a b => a.score ≤ b.score) := by
  haveI : IsTotal GpuOption (fun a b => a.score ≤ b.score) :=
    ⟨fun a b => le_total a.score b.score⟩
  haveI : IsTrans GpuOption (fun a b => a.score ≤ b.score) :=
    ⟨fun _ _ _ h1 h2 => le_trans h1 h2⟩
  exact List.sorted_insertionSort _ _

theorem donorOrder_nodup (rangeOrder : List (String × String) → List (String × String))
    (hperm : ∀ l, (rangeOrder l).Perm l) (d : ReconfigDaemon) (nodeName : String) :
    ((donorOrder rangeOrder d nodeName).map GpuOption.devGID).Nodup := by
  rw [(donorOrder_devGID_perm rangeOrder d nodeName).nodup_iff]
  have hnd : ((rangeOrder (mapEntries d.deviceAlloc)).map Prod.fst).Nodup :=
    (((hperm _).map Prod.fst).nodup_iff).2 (mapEntries_keys_nodup _)
  exact List.Nodup.sublist ((List.filter_sublist _).map _) hnd

/-- C18: for every device allocation map, set U of device ids recorded for the
tracked pods and destination node, the donor list the mutation loop of `reconfig`
ranges over holds each candidate once and nothing else, the candidates being the
devices of the map that are not in U and whose `HostPort` is not the destination
port; it is ordered non-decreasingly by score, the score of a donor being the number
of donors that share its `HostPort`.  Hence every call the loop makes, whatever the
demand and the fabric, is on a device that no tracked pod has recorded and that the
map does not place on the destination port. -/
theorem donorOrder_spec (rangeOrder : List (String × String) → List (String × String))
    (hperm : ∀ l, (rangeOrder l).Perm l) (d : ReconfigDaemon) (nodeName : String) :
    ((donorOrder rangeOrder d nodeName).map GpuOption.devGID).Nodup ∧
    (∀ dev : String, dev ∈ (donorOrder rangeOrder d nodeName).map GpuOption.devGID ↔
      dev ∈ mapKeys d.deviceAlloc ∧
      dev ∉ usedLoop d.schedulePodInfo d.schedulePods [] ∧
      mapGet d.deviceAlloc dev ≠ mapGet d.nodeNameToPort nodeName) ∧
    (∀ o ∈ donorOrder rangeOrder d nodeName,
      o.hostPort = mapGet d.deviceAlloc o.devGID ∧
      o.score = ((donorOrder rangeOrder d nodeName).countP
        (fun o' => decide (o'.hostPort = o.hostPort)) : Nat)) ∧
    (donorOrder rangeOrder d nodeName).Sorted (fun a b => a.score ≤ b.score) ∧
    (∀ dev : String, dev ∈ usedLoop d.schedulePodInfo d.schedulePods [] ↔
      ∃ po ∈ d.schedulePods, ∃ pi, d.schedulePodInfo.lookup po = some pi ∧ dev ∈ pi.gids) ∧
    (∀ (σ : Type) (F : Fabric σ) (demand : Int) (s : σ),
      ∀ c ∈ (reconfigLoop F (mapGet d.nodeNameToPort nodeName)
          (donorOrder rangeOrder d nodeName) demand s).trace,
        c.devGID ∉ usedLoop d.schedulePodInfo d.schedulePods [] ∧
        mapGet d.deviceAlloc c.devGID ≠ mapGet d.nodeNameToPort nodeName) := by
  have hp := donorOrder_devGID_perm rangeOrder d nodeName
  refine ⟨donorOrder_nodup rangeOrder hperm d nodeName, ?_, ?_, sortSlice_sorted _, ?_, ?_⟩
  · intro dev
    rw [hp.mem_iff]
    simp only [List.mem_map, List.mem_filter, decide_eq_true_eq]
    constructor
    · rintro ⟨⟨k, v⟩, ⟨hmem, hu, hv⟩, rfl⟩
      have := (mem_mapEntries _ _ _).1 ((hperm _).mem_iff.1 hmem)
      exact ⟨this.1, hu, by rw [← this.2]; exact hv⟩
    · rintro ⟨hk, hu, hv⟩
      refine ⟨(dev, mapGet d.deviceAlloc dev), ⟨?_, hu, hv⟩, rfl⟩
      exact (hperm _).mem_iff.2 ((mem_mapEntries _ _ _).2 ⟨hk, rfl⟩)
  · intro o ho
    obtain ⟨_, h2, _, _, h5⟩ := mem_donorOrder rangeOrder hperm d nodeName o ho
    refine ⟨h2, ?_⟩
    rw [h5, donorOrder_hostPort_countP]
  · intro dev
    rw [mem_usedLoop]
    simp
  · intro σ F demand s c hc
    obtain ⟨o, ho, hoc⟩ := reconfigLoop_trace_mem F _ _ demand s c hc
    obtain ⟨_, h2, h3, h4, _⟩ := mem_donorOrder rangeOrder hperm d nodeName o ho
    rw [← hoc]
    exact ⟨h3, by rw [← h2]; exact h4⟩

/-- C18, at a daemon that tracks one pod holding `g2`: the donor list for `N1` is
sorted by score. -/
theorem donorOrder_spec_witness :
    (donorOrder id
      ⟨[("g4", "p3"), ("g3", "p2"), ("g2", "p2"), ("g1", "p1")], ["pod1"], [],
        [("pod1", ⟨"p", "ns", ["g2"]⟩)], [("N1", "p1"), ("N2", "p2")]⟩ "N1").Sorted
      (fun a b => a.score ≤ b.score) :=
  (donorOrder_spec id (fun l => List.Perm.refl l)
    ⟨[("g4", "p3"), ("g3", "p2"), ("g2", "p2"), ("g1", "p1")], ["pod1"], [],
      [("pod1", ⟨"p", "ns", ["g2"]⟩)], [("N1", "p1"), ("N2", "p2")]⟩ "N1").2.2.2.1

/-! ## Daemon: the mutation loop against the Registry -/

theorem entryFor_rebind_other (d p d' : String) (t : List Device) (h : d' ≠ d) :
    entryFor (rebind d p t) d' = entryFor t d' := by
  induction t with
  | nil => rfl
  | cons dev rest ih =>
    by_cases hd : dev.DevID = d
    · have hne : dev.DevID ≠ d' := fun h' => h (h'.symm.trans hd)
      simp only [rebind, if_pos hd]
      rw [entryFor_cons_ne _ _ _ hne, entryFor_cons_ne]
      exact hne
    · simp only [rebind, if_neg hd]
      by_cases hd' : dev.DevID = d'
      · rw [entryFor_cons_eq _ _ _ hd', entryFor_cons_eq _ _ _ hd']
      · rw [entryFor_cons_ne _ _ _ hd', entryFor_cons_ne _ _ _ hd', ih]

theorem rebind_map_DevID (d p : String) (t : List Device) :
    (rebind d p t).map Device.DevID = t.map Device.DevID := by
  induction t with
  | nil => rfl
  | cons dev rest ih =>
    by_cases hd : dev.DevID = d
    · simp [rebind, hd]
    · simp [rebind, hd, ih]

theorem boundTo_rebind (d p : String) (t : List Device) (e : Device)
    (he : entryFor t d = some e) (hp : e.HostPort ≠ p) :
    boundTo p (rebind d p t) = boundTo p t + 1 := by
  induction t with
  | nil => simp [entryFor] at he
  | cons dev rest ih =>
    by_cases hd : dev.DevID = d
    · rw [entryFor_cons_eq dev rest _ hd] at he
      cases he
      simp [rebind, hd, boundTo, List.countP_cons, hp]
    · rw [entryFor_cons_ne dev rest _ hd] at he
      have := ih he
      simp only [boundTo] at this ⊢
      simp only [rebind, if_neg hd, List.countP_cons, this]
      omega

/-! ## Daemon: the request bodies as the Registry decodes them -/

theorem scanString_plain (s rest : List Char)
    (h : s.all (fun c => c != '"' && c != '\\' && decide (0x20 ≤ c.toNat)) = true) :
    scanString 0 (s ++ '"' :: rest) = some (s, rest) := by
  induction s with
  | nil => simp [scanString]
  | cons c cs ih =>
    simp only [List.all_cons, Bool.and_eq_true, bne_iff_ne, ne_eq, decide_eq_true_eq] at h
    obtain ⟨⟨⟨h1, h2⟩, h3⟩, h4⟩ := h
    have h3' : ¬ c.toNat < 0x20 := by omega
    show scanString 0 (c :: (cs ++ '"' :: rest)) = some (c :: cs, rest)
    rw [scanString, if_neg h1, if_neg h2, if_neg h3', ih h4]
    rfl

theorem decodeMembers_plain (fuel : Nat) (orEmpty : Bool) (device : Device)
    (key val rest : List Char)
    (hkey : key.all (fun c => c != '"' && c != '\\' && decide (0x20 ≤ c.toNat)) = true)
    (hval : val.all (fun c => c != '"' && c != '\\' && decide (0x20 ≤ c.toNat)) = true) :
    decodeMembers (fuel + 1) orEmpty device
        ('"' :: (key ++ '"' :: ' ' :: ':' :: ' ' :: '"' :: (val ++ '"' :: rest)))
      = match storeMember device key (JSONValue.string (String.mk val)) with
        | none => none
        | some device1 =>
          match skipSpace rest with
          | [] => none
          | sep :: rest4 =>
            if sep = ',' then decodeMembers fuel false device1 rest4
            else if sep = '\x7d' then some device1
            else none := by
  have h1 : skipSpace ('"' :: (key ++ '"' :: ' ' :: ':' :: ' ' :: '"' :: (val ++ '"' :: rest)))
      = '"' :: (key ++ '"' :: ' ' :: ':' :: ' ' :: '"' :: (val ++ '"' :: rest)) := rfl
  have h2 : skipSpace (' ' :: ':' :: ' ' :: '"' :: (val ++ '"' :: rest))
      = ':' :: ' ' :: '"' :: (val ++ '"' :: rest) := rfl
  have h3 : skipSpace (' ' :: '"' :: (val ++ '"' :: rest)) = '"' :: (val ++ '"' :: rest) := rfl
  have hq : ¬ ('"' = '\x7d' ∧ orEmpty = true) := fun h => absurd h.1 (by decide)
  rw [decodeMembers, h1]
  simp only [if_neg hq, if_pos, scanString_plain key _ hkey, h2, h3, scanValue,
    scanString_plain val _ hval, Option.map_some', ↓reduceIte]

theorem decodeMembers_space (fuel : Nat) (orEmpty : Bool) (device : Device)
    (input : List Char) :
    decodeMembers fuel orEmpty device (' ' :: input)
      = decodeMembers fuel orEmpty device input := by
  cases fuel with
  | zero => rfl
  | succ n =>
    have h : skipSpace (' ' :: input) = skipSpace input := rfl
    rw [decodeMembers, decodeMembers, h]

theorem decodeDevice_unassignPayload (devid : String) (h : jsonPlain devid = true) :
    decodeDevice (unassignPayload devid) = some ⟨devid, "", ""⟩ := by
  have hbody : (unassignPayload devid).data
      = '\x7b' :: '"' :: ("devid".data ++ '"' :: ' ' :: ':' :: ' ' :: '"' ::
          (devid.data ++ '"' :: ['\x7d'])) := by
    simp [unassignPayload, String.data_append]
  have h1 : skipSpace ('\x7b' :: '"' :: ("devid".data ++ '"' :: ' ' :: ':' :: ' ' :: '"' ::
          (devid.data ++ '"' :: ['\x7d'])))
      = '\x7b' :: '"' :: ("devid".data ++ '"' :: ' ' :: ':' :: ' ' :: '"' ::
          (devid.data ++ '"' :: ['\x7d'])) := rfl
  rw [decodeDevice, hbody, h1]
  simp only [↓reduceIte, List.length_cons]
  rw [decodeMembers_plain _ _ _ _ _ _ (by decide) h]
  rfl

theorem decodeDevice_assignPayload (hostPort devid : String)
    (hp : jsonPlain hostPort = true) (h : jsonPlain devid = true) :
    decodeDevice (assignPayload hostPort devid) = some ⟨devid, "", hostPort⟩ := by
  have hbody : (assignPayload hostPort devid).data
      = '\x7b' :: '"' :: ("hostport".data ++ '"' :: ' ' :: ':' :: ' ' :: '"' ::
          (hostPort.data ++ '"' :: ',' :: ' ' :: '"' ::
            ("devid".data ++ '"' :: ' ' :: ':' :: ' ' :: '"' ::
              (devid.data ++ '"' :: ['\x7d'])))) := by
    simp [assignPayload, String.data_append]
  have h1 : skipSpace ('\x7b' :: '"' :: ("hostport".data ++ '"' :: ' ' :: ':' :: ' ' :: '"' ::
          (hostPort.data ++ '"' :: ',' :: ' ' :: '"' ::
            ("devid".data ++ '"' :: ' ' :: ':' :: ' ' :: '"' ::
              (devid.data ++ '"' :: ['\x7d'])))))
      = '\x7b' :: '"' :: ("hostport".data ++ '"' :: ' ' :: ':' :: ' ' :: '"' ::
          (hostPort.data ++ '"' :: ',' :: ' ' :: '"' ::
            ("devid".data ++ '"' :: ' ' :: ':' :: ' ' :: '"' ::
              (devid.data ++ '"' :: ['\x7d'])))) := rfl
  have h2 : skipSpace (',' :: ' ' :: '"' ::
            ("devid".data ++ '"' :: ' ' :: ':' :: ' ' :: '"' ::
              (devid.data ++ '"' :: ['\x7d'])))
      = ',' :: ' ' :: '"' ::
            ("devid".data ++ '"' :: ' ' :: ':' :: ' ' :: '"' ::
              (devid.data ++ '"' :: ['\x7d'])) := rfl
  have hs : storeMember ⟨"", "", ""⟩ "hostport".data (JSONValue.string (String.mk hostPort.data))
      = some ⟨"", "", hostPort⟩ := rfl
  rw [decodeDevice, hbody, h1]
  simp only [↓reduceIte, List.length_cons]
  rw [decodeMembers_plain _ _ _ _ _ _ (by decide) hp, hs]
  simp only [h2, ↓reduceIte]
  rw [decodeMembers_space, decodeMembers_plain _ _ _ _ _ _ (by decide) h]
  rfl

/-! ## Daemon: the step bounds of the decoder are never reached

Every step of `skipNested` and `decodeMembers` takes at least one character, so the
bounds that `scanValue` and `decodeDevice` pass on (the length of the input plus one)
are never the reason for a `none`: any larger bound gives the same result. -/

theorem dropWhile_length_le (p : Char → Bool) (input : List Char) :
    (input.dropWhile p).length ≤ input.length :=
  (List.dropWhile_sublist p).length_le

theorem skipSpace_length (input : List Char) : (skipSpace input).length ≤ input.length :=
  dropWhile_length_le _ _

theorem scanString_length : ∀ (input : List Char) (skip : Nat) (s rest : List Char),
    scanString skip input = some (s, rest) → rest.length + skip < input.length := by
  intro input
  induction input with
  | nil => intro skip s rest h; simp [scanString] at h
  | cons c l ih =>
    intro skip s rest h
    cases skip with
    | succ k =>
      rw [scanString] at h
      have := ih k s rest h
      simp only [List.length_cons]
      omega
    | zero =>
      rw [scanString] at h
      simp only [List.length_cons]
      split at h
      · cases h
        omega
      · split at h
        · split at h
          · cases h
          · rename_i ch n _
            cases hr : scanString n l with
            | none => rw [hr] at h; cases h
            | some p =>
              rw [hr] at h
              cases h
              have := ih n p.1 p.2 hr
              omega
        · split at h
          · cases h
          · cases hr : scanString 0 l with
            | none => rw [hr] at h; cases h
            | some p =>
              rw [hr] at h
              cases h
              have := ih 0 p.1 p.2 hr
              omega

theorem stripPrefix_length : ∀ (p input rest : List Char),
    stripPrefix p input = some rest → rest.length ≤ input.length := by
  intro p
  induction p with
  | nil => intro input rest h; cases h; exact Nat.le_refl _
  | cons a ps ih =>
    intro input rest h
    cases input with
    | nil => cases h
    | cons c l =>
      rw [stripPrefix] at h
      split at h
      · have := ih l rest h
        simp only [List.length_cons]
        omega
      · cases h

theorem scanExponent_length (input rest : List Char) (h : scanExponent input = some rest) :
    rest.length ≤ input.length := by
  unfold scanExponent at h
  split at h
  · cases h; exact Nat.le_refl _
  · rename_i e l
    split at h
    · split at h
      · cases h
      · rename_i d rest2 heq
        split at h
        · cases h
          have h1 := dropWhile_length_le jsonDigit rest2
          have h2 : (d :: rest2).length ≤ l.length := by
            rw [← heq]
            split
            · exact Nat.le_refl _
            · split
              · simp
              · exact Nat.le_refl _
          simp only [List.length_cons] at h2 ⊢
          omega
        · cases h
    · cases h; exact Nat.le_refl _

theorem scanFraction_length (input rest : List Char) (h : scanFraction input = some rest) :
    rest.length ≤ input.length := by
  unfold scanFraction at h
  split at h
  · cases h; exact Nat.le_refl _
  · rename_i dot l
    split at h
    · split at h
      · cases h
      · rename_i d rest1
        split at h
        · have h1 := scanExponent_length _ _ h
          have h2 := dropWhile_length_le jsonDigit rest1
          simp only [List.length_cons]
          omega
        · cases h
    · exact scanExponent_length _ _ h

theorem scanNumber_length (input rest : List Char) (h : scanNumber input = some rest) :
    rest.length < input.length := by
  unfold scanNumber at h
  split at h
  · cases h
  · rename_i d l heq
    have h2 : (d :: l).length ≤ input.length := by
      rw [← heq]
      split
      · exact Nat.le_refl _
      · split
        · simp
        · exact Nat.le_refl _
    simp only [List.length_cons] at h2
    split at h
    · have := scanFraction_length _ _ h
      omega
    · split at h
      · have := scanFraction_length _ _ h
        have := dropWhile_length_le jsonDigit l
        omega
      · cases h

theorem scanScalar_length (input : List Char) (v : JSONValue) (rest : List Char)
    (h : scanScalar input = some (v, rest)) : rest.length < input.length := by
  unfold scanScalar at h
  split at h
  · cases h
  · rename_i c l
    simp only [List.length_cons]
    split at h
    · cases hp : stripPrefix ['r', 'u', 'e'] l with
      | none => rw [hp] at h; cases h
      | some r =>
        rw [hp] at h
        cases h
        have := stripPrefix_length _ _ _ hp
        omega
    · split at h
      · cases hp : stripPrefix ['a', 'l', 's', 'e'] l with
        | none => rw [hp] at h; cases h
        | some r =>
          rw [hp] at h
          cases h
          have := stripPrefix_length _ _ _ hp
          omega
      · split at h
        · cases hp : stripPrefix ['u', 'l', 'l'] l with
          | none => rw [hp] at h; cases h
          | some r =>
            rw [hp] at h
            cases h
            have := stripPrefix_length _ _ _ hp
            omega
        · cases hp : scanNumber (c :: l) with
          | none => rw [hp] at h; cases h
          | some r =>
            rw [hp] at h
            cases h
            have := scanNumber_length _ _ hp
            simpa using this

theorem skipNested_length (outer : Nat) : ∀ (fuel : Nat) (stack : List Container)
    (mode : ScanMode) (input rest : List Char),
    skipNested outer fuel stack mode input = some rest → rest.length < input.length := by
  intro fuel
  induction fuel with
  | zero => intro stack mode input rest h; simp [skipNested] at h
  | succ f ih =>
    intro stack mode input rest h
    have hsk := skipSpace_length input
    rw [skipNested] at h
    split at h
    · cases h
    · rename_i c l heq
      rw [heq] at hsk
      simp only [List.length_cons] at hsk
      have step : ∀ st md (inp : List Char), inp.length ≤ l.length →
          skipNested outer f st md inp = some rest → rest.length < input.length := by
        intro st md inp hle hh
        have := ih st md inp rest hh
        omega
      have hstr : ∀ (p : List Char × List Char), scanString 0 l = some p →
          p.2.length ≤ l.length := by
        intro p hp
        have := scanString_length l 0 p.1 p.2 hp
        omega
      have hsc : ∀ (p : JSONValue × List Char), scanScalar (c :: l) = some p →
          p.2.length ≤ l.length := by
        intro p hp
        have := scanScalar_length (c :: l) p.1 p.2 hp
        simp only [List.length_cons] at this
        omega
      split at h
      · split at h
        · split at h
          · cases h; omega
          · exact step _ _ _ (Nat.le_refl _) h
        · split at h
          · split at h
            · exact step _ _ _ (Nat.le_refl _) h
            · cases h
          · split at h
            · split at h
              · exact step _ _ _ (Nat.le_refl _) h
              · cases h
            · split at h
              · split at h
                · cases h
                · rename_i hp
                  exact step _ _ _ (hstr _ hp) h
              · split at h
                · cases h
                · rename_i hp
                  exact step _ _ _ (hsc _ hp) h
      · split at h
        · split at h
          · cases h; omega
          · exact step _ _ _ (Nat.le_refl _) h
        · split at h
          · split at h
            · cases h
            · rename_i hp
              exact step _ _ _ (hstr _ hp) h
          · cases h
      · split at h
        · exact step _ _ _ (Nat.le_refl _) h
        · cases h
      · split at h
        · cases h
        · split at h
          · exact step _ _ _ (Nat.le_refl _) h
          · split at h
            · split at h
              · cases h; omega
              · exact step _ _ _ (Nat.le_refl _) h
            · cases h
        · split at h
          · exact step _ _ _ (Nat.le_refl _) h
          · split at h
            · split at h
              · cases h; omega
              · exact step _ _ _ (Nat.le_refl _) h
            · cases h

theorem skipNested_fuel (outer : Nat) : ∀ (fuel fuel' : Nat) (stack : List Container)
    (mode : ScanMode) (input : List Char), input.length < fuel → input.length < fuel' →
    skipNested outer fuel stack mode input = skipNested outer fuel' stack mode input := by
  intro fuel
  induction fuel with
  | zero => intro fuel' stack mode input h; omega
  | succ f ih =>
    intro fuel' stack mode input h1 h2
    cases fuel' with
    | zero => omega
    | succ f' =>
      have hsk := skipSpace_length input
      rw [skipNested, skipNested]
      cases hin : skipSpace input with
      | nil => rfl
      | cons c l =>
        rw [hin] at hsk
        simp only [List.length_cons] at hsk
        have key : ∀ st md (inp : List Char), inp.length ≤ l.length →
            skipNested outer f st md inp = skipNested outer f' st md inp :=
          fun st md inp hle => ih f' st md inp (by omega) (by omega)
        have k1 : ∀ st md, skipNested outer f st md l = skipNested outer f' st md l :=
          fun st md => key st md l (Nat.le_refl _)
        have k2 : ∀ (p : List Char × List Char), scanString 0 l = some p →
            ∀ st md, skipNested outer f st md p.2 = skipNested outer f' st md p.2 := by
          intro p hp st md
          have := scanString_length l 0 p.1 p.2 hp
          exact key st md p.2 (by omega)
        have k3 : ∀ (p : JSONValue × List Char), scanScalar (c :: l) = some p →
            ∀ st md, skipNested outer f st md p.2 = skipNested outer f' st md p.2 := by
          intro p hp st md
          have := scanScalar_length (c :: l) p.1 p.2 hp
          simp only [List.length_cons] at this
          exact key st md p.2 (by omega)
        rcases hs : scanString 0 l with _ | ⟨s, r1⟩ <;>
          rcases hc : scanScalar (c :: l) with _ | ⟨v, r2⟩
        · simp only [hs, hc, k1]
        · have k3' : ∀ st md, skipNested outer f st md r2 = skipNested outer f' st md r2 :=
            k3 _ hc
          simp only [hs, hc, k1, k3']
        · have k2' : ∀ st md, skipNested outer f st md r1 = skipNested outer f' st md r1 :=
            k2 _ hs
          simp only [hs, hc, k1, k2']
        · have k2' : ∀ st md, skipNested outer f st md r1 = skipNested outer f' st md r1 :=
            k2 _ hs
          have k3' : ∀ st md, skipNested outer f st md r2 = skipNested outer f' st md r2 :=
            k3 _ hc
          simp only [hs, hc, k1, k2', k3']

theorem scanValue_length (input : List Char) (v : JSONValue) (rest : List Char)
    (h : scanValue input = some (v, rest)) : rest.length < input.length := by
  unfold scanValue at h
  split at h
  · cases h
  · rename_i c l
    simp only [List.length_cons]
    split at h
    · cases hp : scanString 0 l with
      | none => rw [hp] at h; cases h
      | some p =>
        rw [hp] at h
        cases h
        have := scanString_length l 0 p.1 p.2 hp
        omega
    · split at h
      · cases hp : skipNested 1 (l.length + 1) [Container.object] (ScanMode.key true) l with
        | none => rw [hp] at h; cases h
        | some r =>
          rw [hp] at h
          cases h
          have := skipNested_length _ _ _ _ _ _ hp
          omega
      · split at h
        · cases hp : skipNested 1 (l.length + 1) [Container.array] (ScanMode.value true) l with
          | none => rw [hp] at h; cases h
          | some r =>
            rw [hp] at h
            cases h
            have := skipNested_length _ _ _ _ _ _ hp
            omega
        · have := scanScalar_length _ _ _ h
          simpa using this

theorem decodeMembers_fuel : ∀ (fuel fuel' : Nat) (orEmpty : Bool) (device : Device)
    (input : List Char), input.length < fuel → input.length < fuel' →
    decodeMembers fuel orEmpty device input = decodeMembers fuel' orEmpty device input := by
  intro fuel
  induction fuel with
  | zero => intro fuel' orEmpty device input h; omega
  | succ f ih =>
    intro fuel' orEmpty device input h1 h2
    cases fuel' with
    | zero => omega
    | succ f' =>
      have hsk := skipSpace_length input
      rw [decodeMembers, decodeMembers]
      cases hin : skipSpace input with
      | nil => rfl
      | cons c l =>
        rw [hin] at hsk
        simp only [List.length_cons] at hsk
        rcases hs : scanString 0 l with _ | ⟨key, r1⟩
        · simp only [hs]
        · have hr1 := scanString_length l 0 key r1 hs
          have hsk1 := skipSpace_length r1
          cases h2 : skipSpace r1 with
          | nil => simp only [hs, h2]
          | cons colon r2 =>
            rw [h2] at hsk1
            simp only [List.length_cons] at hsk1
            have hsk2 := skipSpace_length r2
            rcases hv : scanValue (skipSpace r2) with _ | ⟨v, r3⟩
            · simp only [hs, h2, hv]
            · have hr3 := scanValue_length _ _ _ hv
              have hsk3 := skipSpace_length r3
              cases h4 : skipSpace r3 with
              | nil => simp only [hs, h2, hv, h4]
              | cons sep r4 =>
                rw [h4] at hsk3
                simp only [List.length_cons] at hsk3
                have key : ∀ dev, decodeMembers f false dev r4 = decodeMembers f' false dev r4 :=
                  fun dev => ih f' false dev r4 (by omega) (by omega)
                simp only [hs, h2, hv, h4, key]

theorem decodeDevice_fuel (fuel : Nat) (rest : List Char)
    (h : rest.length < fuel) :
    decodeMembers fuel true ⟨"", "", ""⟩ rest
        = decodeMembers (rest.length + 1) true ⟨"", "", ""⟩ rest ∧
    skipNested 1 fuel [Container.object] (ScanMode.key true) rest
        = skipNested 1 (rest.length + 1) [Container.object] (ScanMode.key true) rest ∧
    skipNested 1 fuel [Container.array] (ScanMode.value true) rest
        = skipNested 1 (rest.length + 1) [Container.array] (ScanMode.value true) rest :=
  ⟨decodeMembers_fuel _ _ _ _ _ h (Nat.lt_succ_self _),
   skipNested_fuel _ _ _ _ _ _ h (Nat.lt_succ_self _),
   skipNested_fuel _ _ _ _ _ _ h (Nat.lt_succ_self _)⟩

theorem registry_Unassign_unknown (t : List Device) (dev : String)
    (hs : jsonPlain dev = true)
    (h : entryFor t dev = none) : registryFabric.Unassign t dev = (false, t) := by
  have hun := detachLoop_unknown ⟨dev, "", ""⟩ t ((entryFor_eq_none_iff t dev).1 h)
  simp only [registryFabric, decodeDevice_unassignPayload dev hs, detachResource, hun]
  rfl

theorem registry_Unassign_known (t : List Device) (dev : String) (e : Device)
    (hs : jsonPlain dev = true) (h : entryFor t dev = some e) :
    registryFabric.Unassign t dev = (true, rebind dev "" t) := by
  have hk := detachLoop_eq_rebind ⟨dev, "", ""⟩ t e h
  simp only [registryFabric, decodeDevice_unassignPayload dev hs, detachResource, hk]
  rfl

theorem registry_Assign_free (t : List Device) (port dev : String) (e : Device)
    (hp : jsonPlain port = true) (hs : jsonPlain dev = true)
    (h : entryFor t dev = some e) (h1 : e.HostPort = "") (hport : port ≠ "") :
    registryFabric.Assign t port dev = (true, rebind dev port t) := by
  have hk := attachLoop_eq_rebind ⟨dev, "", port⟩ t e h h1 hport
  simp only [registryFabric, decodeDevice_assignPayload port dev hp hs, attachResource, hk]
  rfl

theorem registry_Assign_empty_port (t : List Device) (dev : String)
    (hs : jsonPlain dev = true) :
    (registryFabric.Assign t "" dev).1 = false := by
  have hd := decodeDevice_assignPayload "" dev rfl hs
  rcases entryFor_isSome_or_unknown t dev with ⟨e, he⟩ | hun
  · have hk := attachLoop_refused ⟨dev, "", ""⟩ t e he (Or.inr rfl)
    simp only [registryFabric, hd, attachResource, hk]
    rfl
  · have hk := attachLoop_unknown ⟨dev, "", ""⟩ t hun
    simp only [registryFabric, hd, attachResource, hk]
    rfl

theorem registry_move (t : List Device) (port dev : String) (e : Device)
    (hp : jsonPlain port = true) (hs : jsonPlain dev = true)
    (h : entryFor t dev = some e) (hport : port ≠ "") :
    registryFabric.Unassign t dev = (true, rebind dev "" t) ∧
    registryFabric.Assign (rebind dev "" t) port dev = (true, rebind dev port t) := by
  refine ⟨registry_Unassign_known t dev e hs h, ?_⟩
  have h2 := registry_Assign_free (rebind dev "" t) port dev _ hp hs
    (entryFor_rebind dev "" t e h) rfl hport
  rw [rebind_rebind] at h2
  exact h2

theorem registry_loop_count (port : String) (hport : port ≠ "")
    (hp : jsonPlain port = true) (donors : List GpuOption) :
    ∀ (t : List Device) (demand : Int), 0 ≤ demand →
      (donors.map GpuOption.devGID).Nodup →
      (∀ o ∈ donors, jsonPlain o.devGID = true) →
      (∀ o ∈ donors, ∀ e, entryFor t o.devGID = some e → e.HostPort ≠ port) →
      (boundTo port (reconfigLoop registryFabric port donors demand t).state : Int)
        = boundTo port t + (demand - (reconfigLoop registryFabric port donors demand t).demand) := by
  induction donors with
  | nil => intro t demand _ _ _ _; simp [reconfigLoop]
  | cons dev rest ih =>
    intro t demand hD hnd hpl hoff
    rw [List.map_cons, List.nodup_cons] at hnd
    have hs := hpl dev (List.mem_cons_self _ _)
    have hpl' : ∀ o ∈ rest, jsonPlain o.devGID = true :=
      fun o ho => hpl o (List.mem_cons_of_mem _ ho)
    by_cases h0 : demand ≤ 0
    · simp [reconfigLoop, h0]
    · cases he : entryFor t dev.devGID with
      | none =>
        have hu := registry_Unassign_unknown t dev.devGID hs he
        simp only [reconfigLoop, if_neg h0, hu, if_true]
        exact ih t demand hD hnd.2 hpl' (fun o ho => hoff o (List.mem_cons_of_mem _ ho))
      | some e =>
        obtain ⟨hu, ha⟩ := registry_move t port dev.devGID e hp hs he hport
        have hne : ¬ ((true : Bool) = false) := by decide
        simp only [reconfigLoop, if_neg h0, hu, ha, if_neg hne]
        have hoff' : ∀ o ∈ rest, ∀ e', entryFor (rebind dev.devGID port t) o.devGID = some e' →
            e'.HostPort ≠ port := by
          intro o ho e' he'
          have hod : o.devGID ≠ dev.devGID := by
            intro heq
            exact hnd.1 (heq ▸ List.mem_map_of_mem GpuOption.devGID ho)
          rw [entryFor_rebind_other _ _ _ _ hod] at he'
          exact hoff o (List.mem_cons_of_mem _ ho) e' he'
        have hih := ih (rebind dev.devGID port t) (demand - 1) (by omega) hnd.2 hpl' hoff'
        have hb := boundTo_rebind dev.devGID port t e he
          (hoff dev (List.mem_cons_self _ _) e he)
        rw [hih, hb]
        push_cast
        omega

theorem loop_demand_of_failing_assign {σ : Type} (F : Fabric σ) (port : String)
    (donors : List GpuOption) :
    (∀ s, ∀ o ∈ donors, (F.Assign s port o.devGID).1 = false) →
    ∀ (demand : Int) (s : σ), (reconfigLoop F port donors demand s).demand = demand := by
  induction donors with
  | nil => intro _ demand s; simp [reconfigLoop]
  | cons dev rest ih =>
    intro hfail demand s
    have ih' := ih (fun s o ho => hfail s o (List.mem_cons_of_mem _ ho))
    by_cases h0 : demand ≤ 0
    · simp [reconfigLoop, h0]
    · by_cases hu : (F.Unassign s dev.devGID).1 = false
      · simp only [reconfigLoop, if_neg h0, if_pos hu, ih']
      · simp only [reconfigLoop, if_neg h0, if_neg hu,
          if_pos (hfail _ dev (List.mem_cons_self _ _)), ih']

theorem updateLoop_other (devices : List ReconfigMgr.DevicePair) :
    ∀ (m : List (String × String)) (key : String),
      key ∉ devices.map ReconfigMgr.DevicePair.DevID →
      mapGet (updateLoop devices m) key = mapGet m key := by
  induction devices with
  | nil => intro m key _; rfl
  | cons dp rest ih =>
    intro m key hk
    simp only [List.map_cons, List.mem_cons, not_or] at hk
    rw [updateLoop, ih _ _ hk.2]
    have hne : (key == dp.DevID) = false := by
      simp
      exact hk.1
    simp [mapGet, List.lookup_cons, hne]

theorem updateLoop_listed (t : List Device) :
    ∀ (m : List (String × String)) (key : String) (e : Device),
      (t.map Device.DevID).Nodup → entryFor t key = some e →
      mapGet (updateLoop (t.map (fun res => ⟨res.DevID, res.HostPort⟩)) m) key
        = e.HostPort := by
  induction t with
  | nil => intro m key e _ he; simp [entryFor] at he
  | cons dev rest ih =>
    intro m key e hnd he
    rw [List.map_cons, List.nodup_cons] at hnd
    by_cases hd : dev.DevID = key
    · rw [entryFor_cons_eq dev rest _ hd] at he
      cases he
      rw [List.map_cons, updateLoop, updateLoop_other]
      · simp [mapGet, List.lookup_cons, hd]
      · rw [List.map_map]
        have : (ReconfigMgr.DevicePair.DevID ∘ fun res : Device =>
            (⟨res.DevID, res.HostPort⟩ : ReconfigMgr.DevicePair)) = Device.DevID := by
          funext r
          rfl
        rw [this, ← hd]
        exact hnd.1
    · rw [entryFor_cons_ne dev rest _ hd] at he
      rw [List.map_cons, updateLoop]
      exact ih _ key e hnd.2 he

theorem updateDevice_registry (d : ReconfigDaemon) (t : List Device) :
    ∃ d', updateDevice registryFabric d t = (none, d', t) ∧
      d'.deviceAlloc
        = updateLoop (t.map (fun res => ⟨res.DevID, res.HostPort⟩)) d.deviceAlloc ∧
      d'.nodeNameToPort = d.nodeNameToPort ∧
      d'.schedulePods = d.schedulePods ∧ d'.schedulePodInfo = d.schedulePodInfo :=
  ⟨_, rfl, rfl, rfl, rfl, rfl⟩

theorem mapKeys_updateLoop (devices : List ReconfigMgr.DevicePair) :
    ∀ (m : List (String × String)) (key : String), key ∈ mapKeys (updateLoop devices m) →
      key ∈ mapKeys m ∨ key ∈ devices.map ReconfigMgr.DevicePair.DevID := by
  induction devices with
  | nil => intro m key h; exact Or.inl h
  | cons dp rest ih =>
    intro m key h
    rw [updateLoop] at h
    rcases ih _ key h with h1 | h1
    · simp only [mapKeys, List.mem_dedup, List.map_cons, List.mem_cons] at h1 ⊢
      rcases h1 with h1 | h1
      · exact Or.inr (Or.inl h1)
      · exact Or.inl h1
    · exact Or.inr (List.mem_cons_of_mem _ h1)

theorem mapKeys_listing_plain (t : List Device) (m : List (String × String))
    (hplain : ∀ dev ∈ t, jsonPlain dev.DevID = true)
    (hkeys : ∀ key ∈ mapKeys m, jsonPlain key = true) :
    ∀ key ∈ mapKeys (updateLoop (t.map (fun res => ⟨res.DevID, res.HostPort⟩)) m),
      jsonPlain key = true := by
  intro key hk
  rcases mapKeys_updateLoop _ _ _ hk with h | h
  · exact hkeys key h
  · rw [List.map_map] at h
    obtain ⟨dev, hdev, rfl⟩ := List.mem_map.1 h
    exact hplain dev hdev

/-- C13, as stated, fails at two kinds of Registry state; in both the daemon is
fresh, the destination port is `p1` and D = 1.  With a `DevID` carried twice,
entries `(a, p1)` and `(a, p2)`: the listing leaves `a ↦ p2` in the daemon's map,
detach and attach both act on the first entry, `reconfig` returns true and the
destination still holds one device.  With the distinct `DevID`s `a/b` on `p1` and
`a\/b` on `p2`: the only donor is `a\/b`, the payloads carry it unescaped, the
Registry decodes the escape `\/` and so detaches and attaches `a/b`, `reconfig`
returns true and the destination still holds one device. -/
theorem reconfig_grows_destination_counterexample :
    ((reconfig registryFabric id ⟨[], [], [], [], [("N1", "p1"), ("N2", "p2")]⟩ "N1" 1
        [⟨"a", "u1", "p1"⟩, ⟨"a", "u2", "p2"⟩]).result = true ∧
      boundTo "p1" [⟨"a", "u1", "p1"⟩, ⟨"a", "u2", "p2"⟩] = 1 ∧
      boundTo "p1" (reconfig registryFabric id ⟨[], [], [], [], [("N1", "p1"), ("N2", "p2")]⟩
        "N1" 1 [⟨"a", "u1", "p1"⟩, ⟨"a", "u2", "p2"⟩]).state = 1) ∧
    ((["a/b", "a\\/b"] : List String).Nodup ∧
      (reconfig registryFabric id ⟨[], [], [], [], [("N1", "p1"), ("N2", "p2")]⟩ "N1" 1
        [⟨"a/b", "u1", "p1"⟩, ⟨"a\\/b", "u2", "p2"⟩]).result = true ∧
      boundTo "p1" [⟨"a/b", "u1", "p1"⟩, ⟨"a\\/b", "u2", "p2"⟩] = 1 ∧
      boundTo "p1" (reconfig registryFabric id ⟨[], [], [], [], [("N1", "p1"), ("N2", "p2")]⟩
        "N1" 1 [⟨"a/b", "u1", "p1"⟩, ⟨"a\\/b", "u2", "p2"⟩]).state = 1 ∧
      (reconfig registryFabric id ⟨[], [], [], [], [("N1", "p1"), ("N2", "p2")]⟩
        "N1" 1 [⟨"a/b", "u1", "p1"⟩, ⟨"a\\/b", "u2", "p2"⟩]).trace
        = [⟨CallKind.unassign, "", "a\\/b", true, 1⟩,
           ⟨CallKind.assign, "p1", "a\\/b", true, 1⟩]) := by
  refine ⟨⟨by decide, by decide, by decide⟩, by decide, by decide, by decide, by decide,
    by decide⟩

/-- C13 (amended): for every Registry state with pairwise distinct `DevID`s, where
these `DevID`s, the `DevID`s already in the daemon's map and the port configured for
the destination node contain no double quote, no backslash and no control character
(the daemon copies them unescaped into its JSON payloads), and for every demand
D ≥ 0: if `reconfig`, run against the Registry's attach and detach operations,
returns true, then the number of Registry devices bound to the destination port
after the call is the number before the call plus exactly D.  With N1 holding 1 and
N2 holding 2 idle devices and D = 1 the call ends with N1 holding 2 and N2
holding 1. -/
theorem reconfig_grows_destination
    (rangeOrder : List (String × String) → List (String × String))
    (hperm : ∀ l, (rangeOrder l).Perm l) (d : ReconfigDaemon) (nodeName : String)
    (demand : Int) (t : List Device)
    (hnd : (t.map Device.DevID).Nodup)
    (hplain : ∀ dev ∈ t, jsonPlain dev.DevID = true)
    (hkeys : ∀ key ∈ mapKeys d.deviceAlloc, jsonPlain key = true)
    (hportPlain : jsonPlain (mapGet d.nodeNameToPort nodeName) = true)
    (hD : 0 ≤ demand) :
    ((reconfig registryFabric rangeOrder d nodeName demand t).result = true →
      (boundTo (mapGet d.nodeNameToPort nodeName)
          (reconfig registryFabric rangeOrder d nodeName demand t).state : Int)
        = boundTo (mapGet d.nodeNameToPort nodeName) t + demand) ∧
    ((reconfig registryFabric id ⟨[], [], [], [], [("N1", "p1"), ("N2", "p2")]⟩ "N1" 1
        [⟨"g1", "u1", "p1"⟩, ⟨"g2", "u2", "p2"⟩, ⟨"g3", "u3", "p2"⟩]).result = true ∧
      boundTo "p1" (reconfig registryFabric id ⟨[], [], [], [], [("N1", "p1"), ("N2", "p2")]⟩
        "N1" 1 [⟨"g1", "u1", "p1"⟩, ⟨"g2", "u2", "p2"⟩, ⟨"g3", "u3", "p2"⟩]).state = 2 ∧
      boundTo "p2" (reconfig registryFabric id ⟨[], [], [], [], [("N1", "p1"), ("N2", "p2")]⟩
        "N1" 1 [⟨"g1", "u1", "p1"⟩, ⟨"g2", "u2", "p2"⟩, ⟨"g3", "u3", "p2"⟩]).state = 1) := by
  refine ⟨?_, by decide, by decide, by decide⟩
  obtain ⟨d', hup, hda, hnp, _, _⟩ := updateDevice_registry d t
  simp only [reconfig, hup, hnp]
  intro hres
  rw [decide_eq_true_iff] at hres
  have hdonors : ∀ o ∈ donorOrder rangeOrder d' nodeName, jsonPlain o.devGID = true := by
    intro o ho
    obtain ⟨h1, _⟩ := mem_donorOrder rangeOrder hperm d' nodeName o ho
    rw [hda] at h1
    exact mapKeys_listing_plain t d.deviceAlloc hplain hkeys _ h1
  by_cases hport : mapGet d.nodeNameToPort nodeName = ""
  · have hdem := loop_demand_of_failing_assign registryFabric ""
      (donorOrder rangeOrder d' nodeName)
      (fun s o ho => registry_Assign_empty_port s o.devGID (hdonors o ho))
      demand t
    rw [hport] at hres ⊢
    rw [hdem] at hres
    have hstop := reconfigLoop_stop registryFabric "" (donorOrder rangeOrder d' nodeName)
      demand t (by omega)
    rw [hstop.2.1, hres]
    simp
  · have hcount := registry_loop_count (mapGet d.nodeNameToPort nodeName) hport hportPlain
      (donorOrder rangeOrder d' nodeName) t demand hD
      (donorOrder_nodup rangeOrder hperm d' nodeName) hdonors
      (by
        intro o ho e he
        obtain ⟨_, h2, _, h4, _⟩ := mem_donorOrder rangeOrder hperm d' nodeName o ho
        rw [hda, updateLoop_listed t d.deviceAlloc o.devGID e hnd he] at h2
        rw [hnp, h2] at h4
        exact h4)
    rw [hcount, hres]
    omega

/-- C13 (amended), at the Registry of scenario 4 with a fresh daemon and D = 1. -/
theorem reconfig_grows_destination_witness :
    (reconfig registryFabric id ⟨[], [], [], [], [("N1", "p1"), ("N2", "p2")]⟩ "N1" 1
      [⟨"g1", "u1", "p1"⟩, ⟨"g2", "u2", "p2"⟩, ⟨"g3", "u3", "p2"⟩]).result = true ∧
    (boundTo (mapGet [("N1", "p1"), ("N2", "p2")] "N1")
      (reconfig registryFabric id ⟨[], [], [], [], [("N1", "p1"), ("N2", "p2")]⟩ "N1" 1
        [⟨"g1", "u1", "p1"⟩, ⟨"g2", "u2", "p2"⟩, ⟨"g3", "u3", "p2"⟩]).state : Int)
      = boundTo (mapGet [("N1", "p1"), ("N2", "p2")] "N1")
          [⟨"g1", "u1", "p1"⟩, ⟨"g2", "u2", "p2"⟩, ⟨"g3", "u3", "p2"⟩] + 1 :=
  ⟨by decide,
   (reconfig_grows_destination id (fun l => List.Perm.refl l)
      ⟨[], [], [], [], [("N1", "p1"), ("N2", "p2")]⟩ "N1" 1
      [⟨"g1", "u1", "p1"⟩, ⟨"g2", "u2", "p2"⟩, ⟨"g3", "u3", "p2"⟩]
      (by decide) (by decide) (by decide) (by decide) (by decide)).1 (by decide)⟩

/-! ## Daemon: no donor is left unattached -/

theorem StaysAttached_refl (t : List Device) : StaysAttached t t :=
  fun _ x hx => ⟨x, hx, rfl, fun h => h⟩

theorem StaysAttached_trans (a b c : List Device) (h1 : StaysAttached a b)
    (h2 : StaysAttached b c) : StaysAttached a c := by
  intro i x hx
  obtain ⟨y, hy, hyd, hya⟩ := h1 i x hx
  obtain ⟨z, hz, hzd, hza⟩ := h2 i y hy
  exact ⟨z, hz, hzd.trans hyd, fun h => hza (hya h)⟩

theorem StaysAttached_rebind (d p : String) (hp : p ≠ "") (t : List Device) :
    StaysAttached t (rebind d p t) := by
  induction t with
  | nil => intro i x hx; simp at hx
  | cons dev rest ih =>
    intro i x hx
    by_cases hd : dev.DevID = d
    · cases i with
      | zero =>
        simp at hx
        subst hx
        exact ⟨{ dev with HostPort := p }, by simp [rebind, hd], rfl, fun _ => hp⟩
      | succ j =>
        simp at hx
        exact ⟨x, by simpa [rebind, hd] using hx, rfl, fun h => h⟩
    · cases i with
      | zero =>
        simp at hx
        subst hx
        exact ⟨dev, by simp [rebind, hd], rfl, fun h => h⟩
      | succ j =>
        simp at hx
        obtain ⟨y, hy, h1, h2⟩ := ih j x hx
        exact ⟨y, by simpa [rebind, hd] using hy, h1, h2⟩

theorem registry_loop_moves (port : String) (hport : port ≠ "")
    (hp : jsonPlain port = true) (donors : List GpuOption) :
    ∀ (t : List Device) (demand : Int),
      (∀ o ∈ donors, o.devGID ∈ t.map Device.DevID) →
      (∀ o ∈ donors, jsonPlain o.devGID = true) →
      (∃ moved, (reconfigLoop registryFabric port donors demand t).trace
          = movePairs port moved) ∧
      StaysAttached t (reconfigLoop registryFabric port donors demand t).state := by
  induction donors with
  | nil =>
    intro t demand _ _
    exact ⟨⟨[], by simp [reconfigLoop, movePairs]⟩, by simpa [reconfigLoop] using StaysAttached_refl t⟩
  | cons dev rest ih =>
    intro t demand hknown hpl
    by_cases h0 : demand ≤ 0
    · exact ⟨⟨[], by simp [reconfigLoop, h0, movePairs]⟩,
        by simpa [reconfigLoop, h0] using StaysAttached_refl t⟩
    · have hmem := hknown dev (List.mem_cons_self _ _)
      have hs := hpl dev (List.mem_cons_self _ _)
      rcases entryFor_isSome_or_unknown t dev.devGID with ⟨e, he⟩ | hun
      · obtain ⟨hu, ha⟩ := registry_move t port dev.devGID e hp hs he hport
        have hne : ¬ ((true : Bool) = false) := by decide
        simp only [reconfigLoop, if_neg h0, hu, ha, if_neg hne]
        have hknown' : ∀ o ∈ rest, o.devGID ∈ (rebind dev.devGID port t).map Device.DevID := by
          intro o ho
          rw [rebind_map_DevID]
          exact hknown o (List.mem_cons_of_mem _ ho)
        obtain ⟨⟨moved, hm⟩, hs'⟩ := ih (rebind dev.devGID port t) (demand - 1) hknown'
          (fun o ho => hpl o (List.mem_cons_of_mem _ ho))
        refine ⟨⟨(dev.devGID, demand) :: moved, ?_⟩, ?_⟩
        · rw [hm]
          rfl
        · exact StaysAttached_trans _ _ _ (StaysAttached_rebind dev.devGID port hport t) hs'
      · obtain ⟨x, hx, hxd⟩ := List.mem_map.1 hmem
        exact absurd hxd (hun x hx)

/-- C19, as stated, fails at two inputs; in both the daemon is fresh, the Registry
holds one device, attached to `p2`, and D = 1.  With the destination port `p"1`
(not empty): the detach of `g2` succeeds, the payload of the attach carries the port
unescaped, the Registry cannot decode it and answers 400, and `g2`, attached before
the call, is left unattached.  With the port `p1` and the device `g"2`: the payload
of the detach cannot be decoded, so the one detach that `reconfig` issues fails. -/
theorem reconfig_stranding_counterexample :
    ((["g2"] : List String).Nodup ∧ mapGet [("N1", "p\"1"), ("N2", "p2")] "N1" ≠ "" ∧
      (reconfig registryFabric id ⟨[], [], [], [], [("N1", "p\"1"), ("N2", "p2")]⟩ "N1" 1
        [⟨"g2", "u2", "p2"⟩]).trace
        = [⟨CallKind.unassign, "", "g2", true, 1⟩, ⟨CallKind.assign, "p\"1", "g2", false, 1⟩] ∧
      (reconfig registryFabric id ⟨[], [], [], [], [("N1", "p\"1"), ("N2", "p2")]⟩ "N1" 1
        [⟨"g2", "u2", "p2"⟩]).state = [⟨"g2", "u2", ""⟩] ∧
      ¬ StaysAttached [⟨"g2", "u2", "p2"⟩]
        (reconfig registryFabric id ⟨[], [], [], [], [("N1", "p\"1"), ("N2", "p2")]⟩ "N1" 1
          [⟨"g2", "u2", "p2"⟩]).state) ∧
    ((["g\"2"] : List String).Nodup ∧ mapGet [("N1", "p1"), ("N2", "p2")] "N1" ≠ "" ∧
      (reconfig registryFabric id ⟨[], [], [], [], [("N1", "p1"), ("N2", "p2")]⟩ "N1" 1
        [⟨"g\"2", "u2", "p2"⟩]).trace
        = [⟨CallKind.unassign, "", "g\"2", false, 1⟩]) := by
  have hstate : (reconfig registryFabric id ⟨[], [], [], [], [("N1", "p\"1"), ("N2", "p2")]⟩
      "N1" 1 [⟨"g2", "u2", "p2"⟩]).state = [⟨"g2", "u2", ""⟩] := by decide
  refine ⟨⟨by decide, by decide, by decide, hstate, ?_⟩, by decide, by decide, by decide⟩
  intro h
  rw [hstate] at h
  obtain ⟨y, hy, _, hya⟩ := h 0 ⟨"g2", "u2", "p2"⟩ rfl
  cases hy
  exact hya (by decide) rfl

/-- C19 (amended): when `reconfig` runs against the Registry of `resource-pool.go`
over a working transport, the daemon's map holding only devices of that Registry (it
is filled from its listings), the `DevID`s of the Registry and the port configured
for the destination node containing no double quote, no backslash and no control
character (the daemon copies them unescaped into its JSON payloads), and that port
not empty, every call the mutation loop makes succeeds and the calls come in pairs,
the detach of a device followed by its attach to the destination port; position by
position the Registry afterwards holds the same devices, and every device that was
attached before the call is attached afterwards.  Distinct `DevID`s are not needed
for this. -/
theorem reconfig_no_stranding
    (rangeOrder : List (String × String) → List (String × String))
    (hperm : ∀ l, (rangeOrder l).Perm l) (d : ReconfigDaemon) (nodeName : String)
    (demand : Int) (t : List Device)
    (hkeys : ∀ key ∈ mapKeys d.deviceAlloc, key ∈ t.map Device.DevID)
    (hplain : ∀ dev ∈ t, jsonPlain dev.DevID = true)
    (hportPlain : jsonPlain (mapGet d.nodeNameToPort nodeName) = true)
    (hport : mapGet d.nodeNameToPort nodeName ≠ "") :
    (∀ c ∈ (reconfig registryFabric rangeOrder d nodeName demand t).trace, c.ok = true) ∧
    (∃ moved, (reconfig registryFabric rangeOrder d nodeName demand t).trace
      = movePairs (mapGet d.nodeNameToPort nodeName) moved) ∧
    StaysAttached t (reconfig registryFabric rangeOrder d nodeName demand t).state := by
  obtain ⟨d', hup, hda, hnp, _, _⟩ := updateDevice_registry d t
  simp only [reconfig, hup, hnp]
  have hknown : ∀ o ∈ donorOrder rangeOrder d' nodeName, o.devGID ∈ t.map Device.DevID := by
    intro o ho
    obtain ⟨h1, _⟩ := mem_donorOrder rangeOrder hperm d' nodeName o ho
    rw [hda] at h1
    rcases mapKeys_updateLoop _ _ _ h1 with h | h
    · exact hkeys _ h
    · rw [List.map_map] at h
      exact h
  have hdonors : ∀ o ∈ donorOrder rangeOrder d' nodeName, jsonPlain o.devGID = true := by
    intro o ho
    obtain ⟨dev, hdev, hid⟩ := List.mem_map.1 (hknown o ho)
    rw [← hid]
    exact hplain dev hdev
  obtain ⟨⟨moved, hm⟩, hs⟩ := registry_loop_moves (mapGet d.nodeNameToPort nodeName) hport
    hportPlain (donorOrder rangeOrder d' nodeName) t demand hknown hdonors
  refine ⟨?_, ⟨moved, hm⟩, hs⟩
  rw [hm]
  clear hm
  induction moved with
  | nil => intro c hc; simp [movePairs] at hc
  | cons m rest ih =>
    intro c hc
    simp only [movePairs, List.mem_cons] at hc
    rcases hc with rfl | rfl | hc
    · rfl
    · rfl
    · exact ih c hc

/-- C19 (amended), at the Registry of scenario 4 with a fresh daemon and D = 2: both
devices of `p2` are moved and all three devices stay attached. -/
theorem reconfig_no_stranding_witness :
    StaysAttached [⟨"g1", "u1", "p1"⟩, ⟨"g2", "u2", "p2"⟩, ⟨"g3", "u3", "p2"⟩]
      (reconfig registryFabric id ⟨[], [], [], [], [("N1", "p1"), ("N2", "p2")]⟩ "N1" 2
        [⟨"g1", "u1", "p1"⟩, ⟨"g2", "u2", "p2"⟩, ⟨"g3", "u3", "p2"⟩]).state :=
  (reconfig_no_stranding id (fun l => List.Perm.refl l)
    ⟨[], [], [], [], [("N1", "p1"), ("N2", "p2")]⟩ "N1" 2
    [⟨"g1", "u1", "p1"⟩, ⟨"g2", "u2", "p2"⟩, ⟨"g3", "u3", "p2"⟩]
    (by decide) (by decide) (by decide) (by decide)).2.2

/-! ## Node adapter: what the polling loop sends -/

/-- C15: the code at two failing inputs.  The adapter starts with one device `a`.
When the polls then find `a` and `b` twice in a row, the second of these polls sends
the two-device list again although it is the list just advertised (`old_devs` keeps
its initial length 1, so the comparison can never succeed).  When the polls find
`a`, then nothing, then `a` again, the last poll sends nothing although the list
last advertised was empty (`copy` of an empty slice leaves `a` in `old_devs`). -/
theorem ListAndWatch_stale_old_devs :
    ListAndWatch id ⟨[("u1", ⟨"a", Healthy⟩)], [("a", "u1")], ⟨"ep", "p1"⟩⟩
      [Except.ok [⟨"a", "u1", "p1"⟩, ⟨"b", "u2", "p1"⟩],
       Except.ok [⟨"a", "u1", "p1"⟩, ⟨"b", "u2", "p1"⟩]]
      = [some [some ⟨"a", Healthy⟩],
         some [some ⟨"a", Healthy⟩, some ⟨"b", Healthy⟩],
         some [some ⟨"a", Healthy⟩, some ⟨"b", Healthy⟩]] ∧
    ListAndWatch id ⟨[("u1", ⟨"a", Healthy⟩)], [("a", "u1")], ⟨"ep", "p1"⟩⟩
      [Except.ok [⟨"a", "u1", "p1"⟩], Except.ok [⟨"a", "u1", ""⟩],
       Except.ok [⟨"a", "u1", "p1"⟩]]
      = [some [some ⟨"a", Healthy⟩], some [some ⟨"a", Healthy⟩], some [], none] := by
  refine ⟨by decide, by decide⟩

/-- C16: the code at a failing input.  The adapter holds and has advertised the
device `a`; the next poll fails.  `listDevice` drops the error, returns `nil` and
leaves the device map empty, and the polling loop sends the empty list. -/
theorem listDevice_swallows_error :
    (listDevice ⟨[("u1", ⟨"a", Healthy⟩)], [("a", "u1")], ⟨"ep", "p1"⟩⟩
      (Except.error "connection refused")).1 = none ∧
    (listDevice ⟨[("u1", ⟨"a", Healthy⟩)], [("a", "u1")], ⟨"ep", "p1"⟩⟩
      (Except.error "connection refused")).2.devices = [] ∧
    ListAndWatch id ⟨[("u1", ⟨"a", Healthy⟩)], [("a", "u1")], ⟨"ep", "p1"⟩⟩
      [Except.ok [⟨"a", "u1", "p1"⟩], Except.error "connection refused"]
      = [some [some ⟨"a", Healthy⟩], some [some ⟨"a", Healthy⟩], some []] := by
  refine ⟨by decide, by decide, by decide⟩

/-! ## Daemon: quiescence -/

end KubeComp
